import Mathlib

/-!
# Leaseweb Terraform provider: verification development

A shallow embedding of the parts of `terraform-provider-leaseweb` that carry
behaviour (the bounded polling loop of the public cloud instance resource, the
domain constructors with their instance-type allow-lists, the plan-modification
validators and the load balancer resource handlers), with the properties the
specification states about them.

Conventions. Go pointers that may be `nil` are `Option`s; a Go function that
returns `(value, error)` with exactly one of them set returns `Except`; a Go
function whose three results are set independently returns a structure of three
`Option`s. Calls to the vendor SDK are inputs of the model: the SDK is an
external collaborator, so its answers are universally quantified.
-/

namespace Leaseweb

/-! ## Go runtime values used by the embedded code -/

/-- Go `time.Duration`, a count of nanoseconds. -/
abbrev Duration := Nat

/-- Go `time.Second`. -/
def Second : Duration := 1000000000

/-- Go `time.Minute`. -/
def Minute : Duration := 60 * Second

/-- A Go `error` value, identified by the text `Error()` returns. -/
structure GoError where
  msg : String
  deriving DecidableEq, Repr

/-- Go `errors.New`. -/
def errorsNew (msg : String) : GoError := ⟨msg⟩

/-- A `*http.Response` handed back by the SDK; only its identity matters here. -/
structure HttpResponse where
  statusCode : Nat
  deriving DecidableEq, Repr

/-- A Go value of interface type `any`, up to what `==` against a `bool` or a
`string` can observe: its dynamic type and, for these two types, its value.
Every other dynamic type (`nil`, `int`, a named string type such as
`publiccloud.State`, ...) is the constructor `other`. -/
inductive AnyValue where
  | bool (b : Bool)
  | string (s : String)
  | other (dynamicType : String)
  deriving DecidableEq, Repr

/-- Go `==` on two interface values of which the left one holds a `bool` or a
`string`: true exactly when the dynamic types agree and the values are equal. -/
def AnyValue.goEq : AnyValue → AnyValue → Bool
  | .bool a, .bool b => a == b
  | .string a, .string b => a == b
  | _, _ => false

/-! ## `internal/provider/publiccloud/instance_resource.go`: the polling loop -/

/-- The fields of `publiccloud.InstanceDetails` the polling loop reads. -/
structure InstanceDetails where
  id : String
  state : String
  hasPrivateNetwork : Bool
  deriving DecidableEq, Repr

/-- The SDK getter `(*InstanceDetails).GetHasPrivateNetwork`, which answers the
zero value on a nil receiver. -/
def InstanceDetails.getHasPrivateNetwork : Option InstanceDetails → Bool
  | some d => d.hasPrivateNetwork
  | none => false

/-- The SDK getter `(*InstanceDetails).GetState`, which answers the zero value
on a nil receiver. -/
def InstanceDetails.getState : Option InstanceDetails → String
  | some d => d.state
  | none => ""

/-- The three results of `GetInstance(ctx, id).Execute()`, which are also the
three results of `waitUntilPropertyValueEquals`. -/
structure InstanceResponse where
  details : Option InstanceDetails
  httpResponse : Option HttpResponse
  err : Option GoError
  deriving DecidableEq, Repr

/-- An observable effect of the polling loop. -/
inductive Event where
  | getInstance (instanceId : String)
  | sleep (d : Duration)
  deriving DecidableEq, Repr

/-- What the loop has done to the outside world: how many `GetInstance` calls it
has made and the ordered trace of calls and sleeps. -/
structure World where
  calls : Nat
  trace : List Event
  deriving DecidableEq, Repr

/-- The time spent in `time.Sleep` along a trace. -/
def totalSleep : List Event → Duration
  | [] => 0
  | .sleep d :: rest => d + totalSleep rest
  | .getInstance _ :: rest => totalSleep rest

/-- The constant back-off of `github.com/cenkalti/backoff/v5`. -/
structure ConstantBackOff where
  interval : Duration
  deriving DecidableEq, Repr

/-- The constructor `backoff.NewConstantBackOff`. -/
def NewConstantBackOff (d : Duration) : ConstantBackOff := ⟨d⟩

/-- The method `(*ConstantBackOff).NextBackOff`: always the configured interval. -/
def ConstantBackOff.NextBackOff (b : ConstantBackOff) : Duration := b.interval

/-- The local `maxRetries := 30`. -/
def maxRetries : Nat := 30

/-- The local `bo := backoff.NewConstantBackOff(10 * time.Second)`. -/
def bo : ConstantBackOff := NewConstantBackOff (10 * Second)

/-- The error returned when `retryCount >= maxRetries`. -/
def timeoutError : GoError :=
  errorsNew "timed out waiting for property to change after 5 minutes"

/-- The error of the `default` case,
`fmt.Errorf("unsupported property name: %s", propertyName)`. -/
def unsupportedPropertyError (propertyName : String) : GoError :=
  ⟨"unsupported property name: " ++ propertyName⟩

/-- The `switch propertyName` of the loop body: the value read from the
instance details, or `none` in the `default` case. -/
def currentValue (propertyName : String) (details : Option InstanceDetails) :
    Option AnyValue :=
  if propertyName = "has_private_network" then
    some (.bool (InstanceDetails.getHasPrivateNetwork details))
  else if propertyName = "state" then
    some (.string (InstanceDetails.getState details))
  else
    none

/-- The loop variables together with the outside world. -/
structure PollState where
  retryCount : Nat
  world : World
  deriving DecidableEq, Repr

/-- The results of `waitUntilPropertyValueEquals` and the world it leaves. -/
structure PollOutcome where
  result : InstanceResponse
  world : World
  deriving DecidableEq, Repr

/-- One iteration of the `for` loop. `api n` is what the SDK answers to the
call number `n` (counted from 0). The iteration either returns (`Sum.inr`) or
falls through to the next iteration (`Sum.inl`). -/
def pollStep (api : Nat → InstanceResponse) (instanceId propertyName : String)
    (expectedValue : AnyValue) (st : PollState) : PollState ⊕ PollOutcome :=
  if st.retryCount ≥ maxRetries then
    .inr ⟨⟨none, none, some timeoutError⟩, st.world⟩
  else
    let response := api st.world.calls
    let called : World :=
      ⟨st.world.calls + 1, st.world.trace ++ [Event.getInstance instanceId]⟩
    match response.err with
    | some err => .inr ⟨⟨none, response.httpResponse, some err⟩, called⟩
    | none =>
      match currentValue propertyName response.details with
      | none => .inr ⟨⟨none, none, some (unsupportedPropertyError propertyName)⟩, called⟩
      | some current =>
        if current.goEq expectedValue then
          .inr ⟨⟨response.details, response.httpResponse, none⟩, called⟩
        else
          .inl ⟨st.retryCount + 1,
            ⟨called.calls, called.trace ++ [Event.sleep bo.NextBackOff]⟩⟩

/-- The `for` loop, run for at most `fuel` iterations; `none` when the fuel runs
out before the loop returns. -/
def pollLoop (api : Nat → InstanceResponse) (instanceId propertyName : String)
    (expectedValue : AnyValue) : Nat → PollState → Option PollOutcome
  | 0, _ => none
  | fuel + 1, st =>
    match pollStep api instanceId propertyName expectedValue st with
    | .inr out => some out
    | .inl next => pollLoop api instanceId propertyName expectedValue fuel next

/-- The method `instanceResource.waitUntilPropertyValueEquals`, started with
`retryCount := 0` in a world where nothing has happened yet. -/
def waitUntilPropertyValueEquals (fuel : Nat) (api : Nat → InstanceResponse)
    (instanceId propertyName : String) (expectedValue : AnyValue) :
    Option PollOutcome :=
  pollLoop api instanceId propertyName expectedValue fuel ⟨0, ⟨0, []⟩⟩

/-- A successful response that shows the expected value of the named property. -/
def showsExpected (propertyName : String) (expectedValue : AnyValue)
    (r : InstanceResponse) : Bool :=
  match currentValue propertyName r.details with
  | some current => current.goEq expectedValue
  | none => false

/-- A response that succeeds and shows a value of the named property other than
the expected one, so that the loop goes round again. -/
def missesExpected (propertyName : String) (expectedValue : AnyValue)
    (r : InstanceResponse) : Bool :=
  r.err.isNone &&
    match currentValue propertyName r.details with
    | some current => !current.goEq expectedValue
    | none => false

/-- The trace of `n` unsuccessful rounds: a call and a sleep, `n` times. -/
def roundsTrace (instanceId : String) : Nat → List Event
  | 0 => []
  | n + 1 => roundsTrace instanceId n ++
      [Event.getInstance instanceId, Event.sleep (10 * Second)]

/-! ## `internal/core/domain/public_cloud/instance.go`: the domain constructors -/

/-- Modelled from the spec: the declaration of `enum.RootDiskStorageType`
(package `internal/core/shared/enum`) is not among the sources; the spec
describes the enums as enum strings. -/
abbrev RootDiskStorageType := String

/-- Modelled from the spec: the declaration of `enum.ContractType` is not among
the sources; an enum string. -/
abbrev ContractType := String

/-- Modelled from the spec: the declaration of `enum.ContractTerm` is not among
the sources; a number of months. -/
abbrev ContractTerm := Int

/-- Modelled from the spec: the declaration of `enum.ContractBillingFrequency`
is not among the sources; a number of months. -/
abbrev ContractBillingFrequency := Int

/-- Modelled from the spec: the declaration of `value_object.RootDiskSize` is not
among the sources; a plain aggregate around the size in GB. -/
structure RootDiskSize where
  Value : Int
  deriving DecidableEq, Repr

/-- Modelled from the spec: the declaration of `value_object.SshKey` is not among
the sources; a plain aggregate around the key text. -/
structure SshKey where
  value : String
  deriving DecidableEq, Repr

/-- The error type `ErrInvalidInstanceTypePassed`. -/
structure ErrInvalidInstanceTypePassed where
  msg : String
  deriving DecidableEq, Repr

/-- The method `ErrInvalidInstanceTypePassed.Error`. -/
def ErrInvalidInstanceTypePassed.Error (e : ErrInvalidInstanceTypePassed) : String := e.msg

/-- The struct `InstanceType`, of which the constructors set the name. -/
structure InstanceType where
  Name : String
  deriving DecidableEq, Repr

/-- The struct `Image`, of which the constructors set the id. -/
structure Image where
  Id : String
  deriving DecidableEq, Repr

/-- The struct `Contract`, of which the constructors set these three fields
(`Type_` is the Go field `Type`). -/
structure Contract where
  Type_ : ContractType
  Term : ContractTerm
  BillingFrequency : ContractBillingFrequency
  deriving DecidableEq, Repr

/-- Modelled from the spec: the declaration of `value_object.Uuid` is not among
the sources; a plain aggregate around the text of the identifier. -/
structure Uuid where
  value : String
  deriving DecidableEq, Repr

/-- Go `time.Time`, identified by its instant in nanoseconds. -/
structure Time where
  unixNano : Int
  deriving DecidableEq, Repr

/-- Modelled from the spec: the declaration of `enum.State` is not among the
sources; an enum string. -/
abbrev enum.State := String

/-- Modelled from the spec: the declaration of the domain struct `Resources` is
not among the sources. The constructors copy a value of it as a whole, so it is
kept abstract: a value is identified by a number. -/
structure Resources where
  token : Nat
  deriving DecidableEq, Repr

/-- Modelled from the spec: the declaration of the domain struct `Volume` is not
among the sources; kept abstract like `Resources`. -/
structure Volume where
  token : Nat
  deriving DecidableEq, Repr

/-- Modelled from the spec: the declaration of the domain struct `LoadBalancer`
is not among the sources; kept abstract like `Resources`. -/
structure LoadBalancer where
  token : Nat
  deriving DecidableEq, Repr

/-- Modelled from the spec: the declaration of the domain struct `Iso` is not
among the sources; the plain aggregate of the two strings `NewIso` takes. -/
structure Iso where
  Id : String
  Name : String
  deriving DecidableEq, Repr

/-- The domain struct `PrivateNetwork`, with the fields of the struct literal in
`convertPrivateNetwork`. -/
structure PrivateNetwork where
  Id : String
  Status : String
  Subnet : String
  deriving DecidableEq, Repr

/-- Modelled from the spec: the declaration of the domain struct `Ddos` is not
among the sources; a plain aggregate of the two strings that `NewDdos` takes
and `newDdos` reads. -/
structure domain.Ddos where
  DetectionProfile : String
  ProtectionType : String
  deriving DecidableEq, Repr

set_option linter.dupNamespace false in
/-- Modelled from the spec: the declaration of the domain struct `Ip` is not
among the sources; the plain aggregate of the arguments `NewIp` takes in
`convertIp`. -/
structure Ip where
  Ip : String
  PrefixLength : String
  Version : Int
  NullRouted : Bool
  MainIp : Bool
  NetworkType : String
  ReverseLookup : Option String
  Ddos : Option domain.Ddos
  deriving DecidableEq, Repr

/-- Modelled from the spec: the declaration of
`value_object.AutoScalingGroupReference` is not among the sources; a plain
aggregate around the text of the reference. -/
structure AutoScalingGroupReference where
  value : String
  deriving DecidableEq, Repr

/-- The struct `AutoScalingGroup` of `auto_scaling_group.go` (`Type_` is the Go
field `Type`; the two enums are enum strings). -/
structure AutoScalingGroup where
  Id : Uuid
  Type_ : String
  State : String
  Region : String
  Reference : AutoScalingGroupReference
  CreatedAt : Time
  UpdatedAt : Time
  DesiredAmount : Option Int
  StartsAt : Option Time
  EndsAt : Option Time
  MinimumAmount : Option Int
  MaximumAmount : Option Int
  CpuThreshold : Option Int
  WarmupTime : Option Int
  CooldownTime : Option Int
  LoadBalancer : Option LoadBalancer
  deriving DecidableEq, Repr

/-- The struct `AutoScalingGroupOptions`. -/
structure AutoScalingGroupOptions where
  DesiredAmount : Option Int
  StartsAt : Option Time
  EndsAt : Option Time
  MinimumAmount : Option Int
  MaximumAmount : Option Int
  CpuThreshold : Option Int
  WarmupTime : Option Int
  CoolDownTime : Option Int
  LoadBalancer : Option LoadBalancer
  deriving DecidableEq, Repr

/-- The struct `Instance` (`Type_` is the Go field `Type`). -/
structure Instance where
  Id : String
  Region : String
  Reference : Option String
  StartedAt : Option Time
  Resources : Resources
  Image : Image
  State : enum.State
  ProductType : String
  HasPublicIpv4 : Bool
  HasPrivateNetwork : Bool
  Type_ : InstanceType
  RootDiskStorageType : RootDiskStorageType
  RootDiskSize : RootDiskSize
  Ips : List Ip
  Contract : Contract
  Iso : Option Iso
  MarketAppId : Option String
  PrivateNetwork : Option PrivateNetwork
  SshKey : Option SshKey
  AutoScalingGroup : Option AutoScalingGroup
  Volume : Option Volume
  deriving DecidableEq, Repr

/-- The Go zero value of `Instance`. -/
def Instance.zero : Instance :=
  { Id := "", Region := "", Reference := none, StartedAt := none, Resources := ⟨0⟩,
    Image := ⟨""⟩, State := "", ProductType := "", HasPublicIpv4 := false,
    HasPrivateNetwork := false, Type_ := ⟨""⟩, RootDiskStorageType := "",
    RootDiskSize := ⟨0⟩, Ips := [], Contract := ⟨"", 0, 0⟩, Iso := none,
    MarketAppId := none, PrivateNetwork := none, SshKey := none,
    AutoScalingGroup := none, Volume := none }

/-- The struct `OptionalInstanceValues`. -/
structure OptionalInstanceValues where
  Reference : Option String
  Iso : Option Iso
  MarketAppId : Option String
  SshKey : Option SshKey
  StartedAt : Option Time
  PrivateNetwork : Option PrivateNetwork
  AutoScalingGroup : Option AutoScalingGroup
  Volume : Option Volume
  deriving DecidableEq, Repr

/-- The struct `OptionalCreateInstanceValues`. -/
structure OptionalCreateInstanceValues where
  MarketAppId : Option String
  Reference : Option String
  SshKey : Option SshKey
  RootDiskSize : Option RootDiskSize
  deriving DecidableEq, Repr

/-- The struct `OptionalUpdateInstanceValues` (`Type_` is the Go field `Type`). -/
structure OptionalUpdateInstanceValues where
  Type_ : Option String
  Reference : Option String
  ContractType : Option ContractType
  Term : Option ContractTerm
  BillingFrequency : Option ContractBillingFrequency
  RootDiskSize : Option RootDiskSize
  deriving DecidableEq, Repr

/-- The constructor `NewInstance`. -/
def NewInstance (id region : String) (resources : Resources) (image : Image)
    (state : enum.State) (productType : String) (hasPublicIpv4 hasPrivateNetwork : Bool)
    (rootDiskSize : RootDiskSize) (instanceType : InstanceType)
    (rootDiskStorageType : RootDiskStorageType) (ips : List Ip) (contract : Contract)
    (optional : OptionalInstanceValues) : Instance :=
  let inst : Instance :=
    { Instance.zero with
      Id := id
      Region := region
      Resources := resources
      Image := image
      State := state
      ProductType := productType
      HasPublicIpv4 := hasPublicIpv4
      HasPrivateNetwork := hasPrivateNetwork
      Type_ := instanceType
      RootDiskStorageType := rootDiskStorageType
      RootDiskSize := rootDiskSize
      Ips := ips
      Contract := contract }
  let inst := { inst with Iso := optional.Iso }
  let inst := { inst with Reference := optional.Reference }
  let inst := { inst with MarketAppId := optional.MarketAppId }
  let inst := { inst with SshKey := optional.SshKey }
  let inst := { inst with StartedAt := optional.StartedAt }
  let inst := { inst with PrivateNetwork := optional.PrivateNetwork }
  let inst := { inst with AutoScalingGroup := optional.AutoScalingGroup }
  let inst := { inst with Volume := optional.Volume }
  inst

/-- The Go zero value of `AutoScalingGroup`. -/
def AutoScalingGroup.zero : AutoScalingGroup :=
  { Id := ⟨""⟩, Type_ := "", State := "", Region := "", Reference := ⟨""⟩,
    CreatedAt := ⟨0⟩, UpdatedAt := ⟨0⟩, DesiredAmount := none, StartsAt := none,
    EndsAt := none, MinimumAmount := none, MaximumAmount := none, CpuThreshold := none,
    WarmupTime := none, CooldownTime := none, LoadBalancer := none }

/-- The constructor `NewAutoScalingGroup`. -/
def NewAutoScalingGroup (id : Uuid) (autoScalingGroupType state region : String)
    (reference : AutoScalingGroupReference) (createdAt updatedAt : Time)
    (options : AutoScalingGroupOptions) : AutoScalingGroup :=
  let autoScalingGroup : AutoScalingGroup :=
    { AutoScalingGroup.zero with
      Id := id
      Type_ := autoScalingGroupType
      State := state
      DesiredAmount := none
      Region := region
      Reference := reference
      CreatedAt := createdAt
      UpdatedAt := updatedAt }
  let autoScalingGroup := { autoScalingGroup with DesiredAmount := options.DesiredAmount }
  let autoScalingGroup := { autoScalingGroup with StartsAt := options.StartsAt }
  let autoScalingGroup := { autoScalingGroup with EndsAt := options.EndsAt }
  let autoScalingGroup := { autoScalingGroup with MinimumAmount := options.MinimumAmount }
  let autoScalingGroup := { autoScalingGroup with MaximumAmount := options.MaximumAmount }
  let autoScalingGroup := { autoScalingGroup with CpuThreshold := options.CpuThreshold }
  let autoScalingGroup := { autoScalingGroup with WarmupTime := options.WarmupTime }
  let autoScalingGroup := { autoScalingGroup with CooldownTime := options.CoolDownTime }
  let autoScalingGroup := { autoScalingGroup with LoadBalancer := options.LoadBalancer }
  autoScalingGroup

/-- The message `fmt.Sprintf("instance type %q is not allowed", instanceType)`.
`quote` is the `%q` verb of Go (`strconv.Quote`), part of the Go standard
library and therefore a parameter. -/
def notAllowedMessage (quote : String → String) (instanceType : String) : String :=
  "instance type " ++ quote instanceType ++ " is not allowed"

/-- The constructor `NewCreateInstance`. -/
def NewCreateInstance (quote : String → String) (region instanceType : String)
    (rootDiskStorageType : RootDiskStorageType) (imageId : String)
    (contractType : ContractType) (contractTerm : ContractTerm)
    (billingFrequency : ContractBillingFrequency)
    (optional : OptionalCreateInstanceValues) (allowedInstanceTypes : List String) :
    Except ErrInvalidInstanceTypePassed Instance :=
  if !allowedInstanceTypes.contains instanceType then
    .error ⟨notAllowedMessage quote instanceType⟩
  else
    let inst : Instance :=
      { Instance.zero with
        Region := region
        Type_ := ⟨instanceType⟩
        RootDiskStorageType := rootDiskStorageType
        Image := ⟨imageId⟩
        Contract := ⟨contractType, contractTerm, billingFrequency⟩ }
    let inst := { inst with MarketAppId := optional.MarketAppId }
    let inst := { inst with Reference := optional.Reference }
    let inst := { inst with SshKey := optional.SshKey }
    let inst :=
      match optional.RootDiskSize with
      | some size => { inst with RootDiskSize := size }
      | none => inst
    .ok inst

/-- The constructor `NewUpdateInstance`. -/
def NewUpdateInstance (quote : String → String) (id : String)
    (options : OptionalUpdateInstanceValues) (allowedInstanceTypes : List String)
    (currentInstanceType : String) : Except ErrInvalidInstanceTypePassed Instance :=
  let inst : Instance := { Instance.zero with Id := id }
  let inst := { inst with Reference := options.Reference }
  let allowedInstanceTypes := allowedInstanceTypes ++ [currentInstanceType]
  let typed : Except ErrInvalidInstanceTypePassed Instance :=
    match options.Type_ with
    | some type =>
      if !allowedInstanceTypes.contains type then
        .error ⟨notAllowedMessage quote type⟩
      else
        .ok { inst with Type_ := ⟨type⟩ }
    | none => .ok inst
  match typed with
  | .error e => .error e
  | .ok inst =>
    let inst :=
      match options.ContractType with
      | some contractType =>
        { inst with Contract := { inst.Contract with Type_ := contractType } }
      | none => inst
    let inst :=
      match options.Term with
      | some term => { inst with Contract := { inst.Contract with Term := term } }
      | none => inst
    let inst :=
      match options.BillingFrequency with
      | some frequency =>
        { inst with
          Contract := { inst.Contract with BillingFrequency := frequency } }
      | none => inst
    let inst :=
      match options.RootDiskSize with
      | some size => { inst with RootDiskSize := size }
      | none => inst
    .ok inst

/-- A total stand-in for Go's `%q` on strings without characters to escape,
used to evaluate the constructors on concrete inputs. -/
def plainQuote (s : String) : String := "\"" ++ s ++ "\""

/-! ## Terraform Plugin Framework values and diagnostics -/

/-- A framework `types.String`: null, unknown or a known string. -/
inductive TfString where
  | null
  | unknown
  | value (s : String)
  deriving DecidableEq, Repr

/-- The method `types.String.ValueString`: the known string, or `""` for null
and unknown. -/
def TfString.ValueString : TfString → String
  | .value s => s
  | _ => ""

/-- A framework `types.Int32`: null, unknown or a known number. -/
inductive TfInt32 where
  | null
  | unknown
  | value (n : Int)
  deriving DecidableEq, Repr

/-- The method `types.Int32.ValueInt32`: the known number, or `0` for null and
unknown. -/
def TfInt32.ValueInt32 : TfInt32 → Int
  | .value n => n
  | _ => 0

/-- The severity of a framework diagnostic. -/
inductive Severity where
  | error
  | warning
  deriving DecidableEq, Repr

/-- A framework diagnostic: severity, attribute path (`none` for a diagnostic
that is not tied to an attribute), summary and detail. -/
structure Diagnostic where
  severity : Severity
  path : Option String
  summary : String
  detail : String
  deriving DecidableEq, Repr

/-- The framework collection `diag.Diagnostics`. -/
abbrev Diagnostics := List Diagnostic

/-- The method `Diagnostics.HasError`. -/
def Diagnostics.HasError (diags : Diagnostics) : Bool :=
  diags.any (fun d => d.severity == Severity.error)

/-- The method `Diagnostics.Append` for one diagnostic: the framework skips a
diagnostic the collection already contains. -/
def Diagnostics.Append1 (diags : Diagnostics) (d : Diagnostic) : Diagnostics :=
  if diags.contains d then diags else diags ++ [d]

/-- The method `Diagnostics.Append`. -/
def Diagnostics.Append (diags : Diagnostics) (added : Diagnostics) : Diagnostics :=
  added.foldl Diagnostics.Append1 diags

/-- The method `Diagnostics.AddAttributeError`. -/
def Diagnostics.AddAttributeError (diags : Diagnostics) (path summary detail : String) :
    Diagnostics :=
  diags.Append1 ⟨Severity.error, some path, summary, detail⟩

/-- The method `Diagnostics.AddError`. -/
def Diagnostics.AddError (diags : Diagnostics) (summary detail : String) : Diagnostics :=
  diags.Append1 ⟨Severity.error, none, summary, detail⟩

/-! ## `internal/provider/publiccloud/instance_resource.go`: the `contract` schema -/

/-- The enum tables of the vendor SDK (`leaseweb-go-sdk/publiccloud`) that the
schema reads. The SDK is an external dependency, so the tables are a parameter. -/
structure SdkEnums where
  AllowedContractTermEnumValues : List Int
  AllowedBillingFrequencyEnumValues : List Int
  AllowedContractTypeEnumValues : List String
  deriving DecidableEq, Repr

/-- The configured `contract` object: its three `Required` attributes. The
attributes `ends_at` and `state` are `Computed` and cannot be configured. -/
structure ContractConfig where
  billing_frequency : TfInt32
  term : TfInt32
  type : TfString
  deriving DecidableEq, Repr

/-- The check the framework runs for a `Required: true` attribute: a null
configuration value is an error (the detail text of the framework is
abbreviated). -/
def requiredInt32 (path : String) (v : TfInt32) : Diagnostics :=
  match v with
  | .null => [⟨Severity.error, some path, "Missing Configuration for Required Attribute",
      "Must set a configuration value for the " ++ path ++ " attribute"⟩]
  | _ => []

/-- The check the framework runs for a `Required: true` string attribute. -/
def requiredString (path : String) (v : TfString) : Diagnostics :=
  match v with
  | .null => [⟨Severity.error, some path, "Missing Configuration for Required Attribute",
      "Must set a configuration value for the " ++ path ++ " attribute"⟩]
  | _ => []

/-- The validator `int32validator.OneOf(values...)`: null and unknown values
are skipped, a known value outside `values` is an attribute error. -/
def int32validatorOneOf (values : List Int) (path : String) (v : TfInt32) : Diagnostics :=
  match v with
  | .value n =>
    if values.contains n then []
    else [⟨Severity.error, some path, "Invalid Attribute Value Match",
      "Attribute " ++ path ++ " value must be one of: " ++ toString values ++
        ", got: " ++ toString n⟩]
  | _ => []

/-- The validator `stringvalidator.OneOf(values...)`. -/
def stringvalidatorOneOf (values : List String) (path : String) (v : TfString) :
    Diagnostics :=
  match v with
  | .value str =>
    if values.contains str then []
    else [⟨Severity.error, some path, "Invalid Attribute Value Match",
      "Attribute " ++ path ++ " value must be one of: " ++ toString values ++
        ", got: " ++ str⟩]
  | _ => []

/-- The local `billingFrequencies` of `instanceResource.Schema`, as the list
`billingFrequencies.ToInt32()`: `0` prepended to the SDK table. -/
def billingFrequencies (sdk : SdkEnums) : List Int :=
  [0] ++ sdk.AllowedBillingFrequencyEnumValues

/-- The local `contractTerms` of `instanceResource.Schema`, as the list
`contractTerms.ToInt32()`. -/
def contractTerms (sdk : SdkEnums) : List Int :=
  sdk.AllowedContractTermEnumValues

/-- Validation of a configured `contract` against the `contract` attribute of
`instanceResource.Schema`: each of the three attributes is `Required` and has
exactly one validator, a `OneOf`; the nested attribute itself has no validator. -/
def validateContractAttribute (sdk : SdkEnums) (c : ContractConfig) : Diagnostics :=
  requiredInt32 "contract.billing_frequency" c.billing_frequency ++
  int32validatorOneOf (billingFrequencies sdk) "contract.billing_frequency"
    c.billing_frequency ++
  requiredInt32 "contract.term" c.term ++
  int32validatorOneOf (contractTerms sdk) "contract.term" c.term ++
  requiredString "contract.type" c.type ++
  stringvalidatorOneOf sdk.AllowedContractTypeEnumValues "contract.type" c.type

/-- The enum tables as the vendor SDK publishes them. The acceptance tests of the
repository configure the terms 0 and 3, the billing frequency 1 and both
contract types as valid values, and 55 as an invalid term and frequency. -/
def publiccloudEnums : SdkEnums :=
  { AllowedContractTermEnumValues := [0, 1, 3, 6, 12]
    AllowedBillingFrequencyEnumValues := [1, 3, 6, 12]
    AllowedContractTypeEnumValues := ["HOURLY", "MONTHLY"] }

/-- The cross-field rule the acceptance tests expect for `contract.term`:
`0` for an hourly contract, not `0` for a monthly one. -/
def contractTermRule (type : String) (term : Int) : Bool :=
  (type == "HOURLY" && term == 0) || (type == "MONTHLY" && term != 0)

/-! ## `internal/public_cloud/resource/instance/modify_plan.go` -/

/-- The domain struct `Region`, as the service tests build it. -/
structure Region where
  Name : String
  deriving DecidableEq, Repr

/-- A call to the repository behind `i.client.PublicCloud`. -/
inductive RepositoryCall where
  | GetAvailableInstanceTypesForUpdate (id : Uuid)
  | GetRegions
  deriving DecidableEq, Repr

/-- What `modify_plan.go` uses but does not define. The type validator of
package `modify_plan` and `value_object.NewUuid` are helpers whose sources are
absent, the two repository methods are calls to the outside, and the two
formatters are the `%v` verb of Go on the respective slice; all of them are
parameters of the model. -/
structure PlanEnv where
  /-- The helper `NewTypeValidator(stateId, stateType, planType).HashTypeChanged()`. -/
  HashTypeChanged : TfString → TfString → TfString → Bool
  /-- The helper `NewTypeValidator(stateId, stateType, planType).IsTypeValid(types)`. -/
  IsTypeValid : TfString → TfString → TfString → List InstanceType → Bool
  /-- The helper `value_object.NewUuid`. -/
  NewUuid : String → Except GoError Uuid
  /-- The repository method `GetAvailableInstanceTypesForUpdate`. -/
  GetAvailableInstanceTypesForUpdate : Uuid → Except GoError (List InstanceType)
  /-- The repository method `GetRegions`. -/
  GetRegions : Except GoError (List Region)
  /-- The method `Regions.Contains`. -/
  RegionsContains : List Region → String → Bool
  /-- The verb `%v` on instance types. -/
  formatInstanceTypes : List InstanceType → String
  /-- The verb `%v` on regions. -/
  formatRegions : List Region → String

/-- The state a validator of `modify_plan.go` leaves: the diagnostics of the
response, the repository calls made so far and the returned `error`. -/
structure ValidateResult where
  diagnostics : Diagnostics
  calls : List RepositoryCall
  err : Option GoError
  deriving DecidableEq, Repr

/-- Go `fmt.Errorf(prefix + ": %w", err)`. -/
def wrapError (pre : String) (err : GoError) : GoError :=
  ⟨pre ++ ": " ++ err.msg⟩

/-- The method `instanceResource.validateInstanceType`. `diagnostics` are the
diagnostics of the response on entry and `calls` the repository calls made
before. -/
def validateInstanceType (env : PlanEnv) (stateId stateType planType : TfString)
    (diagnostics : Diagnostics) (calls : List RepositoryCall) : ValidateResult :=
  let hasTypeChanged := env.HashTypeChanged stateId stateType planType
  if !hasTypeChanged then
    ⟨diagnostics, calls, none⟩
  else
    match env.NewUuid stateId.ValueString with
    | .error err => ⟨diagnostics, calls, some (wrapError "validateInstanceType" err)⟩
    | .ok uuid =>
      let calls := calls ++ [RepositoryCall.GetAvailableInstanceTypesForUpdate uuid]
      match env.GetAvailableInstanceTypesForUpdate uuid with
      | .error err => ⟨diagnostics, calls, some (wrapError "validateInstanceType" err)⟩
      | .ok allowedInstanceTypes =>
        if env.IsTypeValid stateId stateType planType allowedInstanceTypes then
          ⟨diagnostics, calls, none⟩
        else
          ⟨diagnostics.AddAttributeError "type" "Invalid Instance Type"
              ("Allowed types are " ++ env.formatInstanceTypes allowedInstanceTypes),
            calls, none⟩

/-- The method `instanceResource.validateRegion`. -/
def validateRegion (env : PlanEnv) (diagnostics : Diagnostics)
    (calls : List RepositoryCall) (region : String) : ValidateResult :=
  if region = "" then
    ⟨diagnostics, calls, none⟩
  else
    let calls := calls ++ [RepositoryCall.GetRegions]
    match env.GetRegions with
    | .error err => ⟨diagnostics, calls, some (wrapError "validateRegion" err)⟩
    | .ok regions =>
      if env.RegionsContains regions region then
        ⟨diagnostics, calls, none⟩
      else
        ⟨diagnostics.AddAttributeError "region" "Invalid Region"
            ("Allowed regions are " ++ env.formatRegions regions),
          calls, none⟩

/-- The fields of `model.Instance` that `ModifyPlan` reads. -/
structure ModelInstance where
  Id : TfString
  Region : TfString
  Type_ : TfString
  deriving DecidableEq, Repr

/-- How a call of `ModifyPlan` ends: it returns to the framework, or
`log.Fatal` prints the error and ends the provider process with
`os.Exit(1)`. In both cases the diagnostics of the response and the repository
calls made are recorded. -/
inductive ModifyPlanOutcome where
  | returned (diagnostics : Diagnostics) (calls : List RepositoryCall)
  | exited (status : Nat) (logged : String) (diagnostics : Diagnostics)
      (calls : List RepositoryCall)
  deriving DecidableEq, Repr

/-- The method `instanceResource.ModifyPlan`. `planInstance` and
`stateInstance` are what `request.Plan.Get` and `request.State.Get` decode,
`diagnostics` the diagnostics of the response on entry. -/
def ModifyPlan (env : PlanEnv) (planInstance stateInstance : ModelInstance)
    (diagnostics : Diagnostics) : ModifyPlanOutcome :=
  let r1 := validateInstanceType env stateInstance.Id stateInstance.Type_
    planInstance.Type_ diagnostics []
  match r1.err with
  | some err => .exited 1 err.msg r1.diagnostics r1.calls
  | none =>
    let r2 := validateRegion env r1.diagnostics r1.calls planInstance.Region.ValueString
    match r2.err with
    | some err => .exited 1 err.msg r2.diagnostics r2.calls
    | none => .returned r2.diagnostics r2.calls

/-- A concrete environment for evaluating `modify_plan.go`: the type counts as
changed when plan and state differ, a type is valid when its name is among the
allowed ones, every identifier is accepted, and the repository answers with the
given results. -/
def sampleEnv (types : Except GoError (List InstanceType))
    (regions : Except GoError (List Region)) : PlanEnv :=
  { HashTypeChanged := fun _ stateType planType => decide (stateType ≠ planType)
    IsTypeValid := fun _ _ planType allowed =>
      allowed.any (fun t => t.Name == planType.ValueString)
    NewUuid := fun str => .ok ⟨str⟩
    GetAvailableInstanceTypesForUpdate := fun _ => types
    GetRegions := regions
    RegionsContains := fun rs name => rs.any (fun r => r.Name == name)
    formatInstanceTypes := fun ts => toString (ts.map (fun t => t.Name))
    formatRegions := fun rs => toString (rs.map (fun r => r.Name)) }

/-! ## `internal/provider/publiccloud/load_balancer_resource.go` -/

/-- The struct `contractResourceModel`. -/
structure contractResourceModel where
  BillingFrequency : TfInt32
  Term : TfInt32
  Type_ : TfString
  EndsAt : TfString
  State : TfString
  deriving DecidableEq, Repr

/-- A framework `types.Object` holding a contract: null, unknown or known. -/
inductive TfContractObject where
  | null
  | unknown
  | value (c : contractResourceModel)
  deriving DecidableEq, Repr

/-- The struct `loadBalancerResourceModel`. -/
structure loadBalancerResourceModel where
  ID : TfString
  Region : TfString
  Type_ : TfString
  Reference : TfString
  Contract : TfContractObject
  deriving DecidableEq, Repr

/-- The SDK struct `publiccloud.LaunchLoadBalancerOpts`. -/
structure LaunchLoadBalancerOpts where
  Region : String
  Type_ : String
  ContractType : String
  ContractTerm : Int
  BillingFrequency : Int
  Reference : Option String
  deriving DecidableEq, Repr

/-- The SDK struct `publiccloud.UpdateLoadBalancerOpts`. -/
structure UpdateLoadBalancerOpts where
  Type_ : Option String
  Reference : Option String
  deriving DecidableEq, Repr

/-- The SDK struct `publiccloud.InstanceContractDetails`; `EndsAt` is a nullable
time, kept as its text. -/
structure InstanceContractDetails where
  BillingFrequency : Int
  Term : Int
  Type_ : String
  EndsAt : Option String
  State : String
  deriving DecidableEq, Repr

/-- The SDK struct `publiccloud.Ddos`. -/
structure SdkDdos where
  DetectionProfile : String
  ProtectionType : String
  deriving DecidableEq, Repr

/-- The SDK struct `publiccloud.IpDetails`, with the fields the provider reads. -/
structure IpDetails where
  Ip : String
  PrefixLength : String
  Version : Int
  NullRouted : Bool
  MainIp : Bool
  NetworkType : String
  ReverseLookup : Option String
  Ddos : Option SdkDdos
  deriving DecidableEq, Repr

/-- The fields of the SDK struct `publiccloud.LoadBalancerDetails` that the
resource and the data source read. -/
structure LoadBalancerDetails where
  Id : String
  Region : String
  Type_ : String
  Reference : Option String
  Contract : InstanceContractDetails
  State : String
  Ips : List IpDetails
  deriving DecidableEq, Repr

/-- The results of an SDK call that answers with load balancer details: on
success (`err == nil`) the generated client hands back the decoded details, on
failure an error; the HTTP response may be nil in both cases. -/
inductive LoadBalancerResponse where
  | ok (details : LoadBalancerDetails) (httpResponse : Option HttpResponse)
  | failed (httpResponse : Option HttpResponse) (err : GoError)
  deriving DecidableEq, Repr

/-- What `load_balancer_resource.go` uses but does not define: the decoding of
plan and state by the framework, the value parsers and the three calls of the
vendor SDK, the helpers of package `utils` whose sources are absent, and
`State.Set` of the framework. -/
structure LoadBalancerEnv where
  /-- The decoding `request.Plan.Get(ctx, &plan)`. -/
  PlanGet : Diagnostics × loadBalancerResourceModel
  /-- The decoding `request.State.Get(ctx, &state)`. -/
  StateGet : Diagnostics × loadBalancerResourceModel
  /-- The decoding `l.Contract.As(ctx, &contract, ...)`. -/
  ContractAs : TfContractObject → Option Diagnostics × contractResourceModel
  /-- The helper `utils.ReturnError`. -/
  ReturnError : String → Diagnostics → GoError
  /-- The SDK parser `NewContractTypeFromValue`. -/
  NewContractTypeFromValue : String → Except GoError String
  /-- The SDK parser `NewContractTermFromValue`. -/
  NewContractTermFromValue : Int → Except GoError Int
  /-- The SDK parser `NewBillingFrequencyFromValue`. -/
  NewBillingFrequencyFromValue : Int → Except GoError Int
  /-- The SDK parser `NewRegionNameFromValue`. -/
  NewRegionNameFromValue : String → Except GoError String
  /-- The SDK parser `NewTypeNameFromValue`. -/
  NewTypeNameFromValue : String → Except GoError String
  /-- The helper `utils.AdaptStringPointerValueToNullableString`. -/
  AdaptStringPointerValueToNullableString : TfString → Option String
  /-- The SDK call `LaunchLoadBalancer(ctx).LaunchLoadBalancerOpts(opts).Execute()`. -/
  LaunchLoadBalancer : LaunchLoadBalancerOpts → LoadBalancerResponse
  /-- The SDK call `GetLoadBalancer(ctx, id).Execute()`. -/
  GetLoadBalancer : String → LoadBalancerResponse
  /-- The SDK call `UpdateLoadBalancer(ctx, id).UpdateLoadBalancerOpts(opts).Execute()`. -/
  UpdateLoadBalancer : String → UpdateLoadBalancerOpts → LoadBalancerResponse
  /-- The helper `utils.AdaptNullableTimeToStringValue`. -/
  AdaptNullableTimeToStringValue : Option String → TfString
  /-- The helper `utils.AdaptSdkModelToResourceObject`, after it has applied the
  adapter function to the SDK model. -/
  AdaptSdkModelToResourceObject : contractResourceModel → Except GoError TfContractObject
  /-- The framework method `response.State.Set(ctx, state)`. -/
  StateSet : Option loadBalancerResourceModel → Diagnostics

/-- Modelled from the spec: the helper `utils.GeneralError`, whose source is
absent, surfaces an error as a Terraform diagnostic (an error diagnostic whose
detail is the text of the error; the summary text is a stand-in). -/
def GeneralError (diagnostics : Diagnostics) (err : GoError) : Diagnostics :=
  diagnostics.AddError "Unexpected error" err.msg

/-- Modelled from the spec: the helper `utils.SdkError`, whose source is absent,
wraps an SDK/transport error and surfaces it as a Terraform diagnostic with the
HTTP response attached (the summary text is a stand-in). -/
def SdkError (diagnostics : Diagnostics) (err : GoError)
    (httpResponse : Option HttpResponse) : Diagnostics :=
  diagnostics.AddError "Unexpected API error"
    (err.msg ++ match httpResponse with
      | some r => " (HTTP status " ++ toString r.statusCode ++ ")"
      | none => "")

/-- The method `loadBalancerResourceModel.GetLaunchLoadBalancerOpts`. -/
def GetLaunchLoadBalancerOpts (env : LoadBalancerEnv) (l : loadBalancerResourceModel) :
    Except GoError LaunchLoadBalancerOpts :=
  match env.ContractAs l.Contract with
  | (some contractDiags, _) => .error (env.ReturnError "GetLaunchLoadBalancerOpts" contractDiags)
  | (none, contract) =>
    match env.NewContractTypeFromValue contract.Type_.ValueString with
    | .error err => .error err
    | .ok contractType =>
    match env.NewContractTermFromValue contract.Term.ValueInt32 with
    | .error err => .error err
    | .ok contractTerm =>
    match env.NewBillingFrequencyFromValue contract.BillingFrequency.ValueInt32 with
    | .error err => .error err
    | .ok billingFrequency =>
    match env.NewRegionNameFromValue l.Region.ValueString with
    | .error err => .error err
    | .ok regionName =>
    match env.NewTypeNameFromValue l.Type_.ValueString with
    | .error err => .error err
    | .ok typeName =>
      .ok { Region := regionName, Type_ := typeName, ContractType := contractType,
            ContractTerm := contractTerm, BillingFrequency := billingFrequency,
            Reference := env.AdaptStringPointerValueToNullableString l.Reference }

/-- The method `loadBalancerResourceModel.GetUpdateLoadBalancerOpts`. -/
def GetUpdateLoadBalancerOpts (env : LoadBalancerEnv) (l : loadBalancerResourceModel) :
    Except GoError UpdateLoadBalancerOpts :=
  let opts : UpdateLoadBalancerOpts :=
    { Type_ := none, Reference := env.AdaptStringPointerValueToNullableString l.Reference }
  if l.Type_.ValueString ≠ "" then
    match env.NewTypeNameFromValue l.Type_.ValueString with
    | .error err => .error (wrapError "GetUpdateLoadBalancerOpts" err)
    | .ok instanceType => .ok { opts with Type_ := some instanceType }
  else
    .ok opts

/-- The function `adaptContractToContractResource`. -/
def adaptContractToContractResource (env : LoadBalancerEnv)
    (contract : InstanceContractDetails) : contractResourceModel :=
  { BillingFrequency := .value contract.BillingFrequency
    Term := .value contract.Term
    Type_ := .value contract.Type_
    EndsAt := env.AdaptNullableTimeToStringValue contract.EndsAt
    State := .value contract.State }

/-- The function `adaptLoadBalancerDetailsToLoadBalancerResource`. -/
def adaptLoadBalancerDetailsToLoadBalancerResource (env : LoadBalancerEnv)
    (loadBalancerDetails : LoadBalancerDetails) : Except GoError loadBalancerResourceModel :=
  match env.AdaptSdkModelToResourceObject
      (adaptContractToContractResource env loadBalancerDetails.Contract) with
  | .error err =>
    .error (wrapError "adaptLoadBalancerDetailsToLoadBalancerResource" err)
  | .ok contract =>
    .ok { ID := .value loadBalancerDetails.Id
          Region := .value loadBalancerDetails.Region
          Type_ := .value loadBalancerDetails.Type_
          Reference :=
            match loadBalancerDetails.Reference with
            | some ref => .value ref
            | none => .null
          Contract := contract }

/-- What a resource handler leaves behind: the diagnostics of the response and,
for every call of `response.State.Set`, the diagnostics recorded when the call
was made together with the state handed to it (`none` for a nil pointer). -/
structure HandlerResult where
  diagnostics : Diagnostics
  stateSets : List (Diagnostics × Option loadBalancerResourceModel)
  deriving DecidableEq, Repr

/-- The method `loadBalancerResource.Create`; `diagnostics` are the diagnostics
of the response on entry. -/
def loadBalancerResource.Create (env : LoadBalancerEnv) (diagnostics : Diagnostics) :
    HandlerResult :=
  let plan := env.PlanGet.2
  let diagnostics := diagnostics.Append env.PlanGet.1
  if diagnostics.HasError then
    ⟨diagnostics, []⟩
  else
    match GetLaunchLoadBalancerOpts env plan with
    | .error err => ⟨GeneralError diagnostics err, []⟩
    | .ok opts =>
      match env.LaunchLoadBalancer opts with
      | .failed httpResponse err => ⟨SdkError diagnostics err httpResponse, []⟩
      | .ok loadBalancer _ =>
        match adaptLoadBalancerDetailsToLoadBalancerResource env loadBalancer with
        | .error err => ⟨GeneralError diagnostics err, []⟩
        | .ok state =>
          ⟨diagnostics.Append (env.StateSet (some state)), [(diagnostics, some state)]⟩

/-- The method `loadBalancerResource.Read`. -/
def loadBalancerResource.Read (env : LoadBalancerEnv) (diagnostics : Diagnostics) :
    HandlerResult :=
  let state := env.StateGet.2
  let diagnostics := diagnostics.Append env.StateGet.1
  if diagnostics.HasError then
    ⟨diagnostics, []⟩
  else
    match env.GetLoadBalancer state.ID.ValueString with
    | .failed httpResponse err => ⟨SdkError diagnostics err httpResponse, []⟩
    | .ok loadBalancerDetails _ =>
      match adaptLoadBalancerDetailsToLoadBalancerResource env loadBalancerDetails with
      | .error err => ⟨GeneralError diagnostics err, []⟩
      | .ok newState =>
        ⟨diagnostics.Append (env.StateSet (some newState)),
          [(diagnostics, some newState)]⟩

/-- The method `loadBalancerResource.Update`. After a failed adaptation there is
no `return`: the error is recorded and control falls through to `State.Set`
with the nil `state`. -/
def loadBalancerResource.Update (env : LoadBalancerEnv) (diagnostics : Diagnostics) :
    HandlerResult :=
  let plan := env.PlanGet.2
  let diagnostics := diagnostics.Append env.PlanGet.1
  if diagnostics.HasError then
    ⟨diagnostics, []⟩
  else
    match GetUpdateLoadBalancerOpts env plan with
    | .error err => ⟨GeneralError diagnostics err, []⟩
    | .ok opts =>
      match env.UpdateLoadBalancer plan.ID.ValueString opts with
      | .failed httpResponse err => ⟨SdkError diagnostics err httpResponse, []⟩
      | .ok loadBalancerDetails _ =>
        match adaptLoadBalancerDetailsToLoadBalancerResource env loadBalancerDetails with
        | .error err =>
          let diagnostics := GeneralError diagnostics err
          ⟨diagnostics.Append (env.StateSet none), [(diagnostics, none)]⟩
        | .ok state =>
          ⟨diagnostics.Append (env.StateSet (some state)), [(diagnostics, some state)]⟩

/-- A handler returns early on every error when each of its `State.Set` calls is
made with no error recorded in the diagnostics. -/
def noStateSetAfterError (r : HandlerResult) : Bool :=
  r.stateSets.all (fun call => !Diagnostics.HasError call.1)

/-- A concrete environment for evaluating the load balancer handlers: plan and
state decode to the given model, every value parses, the SDK answers every call
with the given details, and adapting these details to a resource object gives
`adapted`. -/
def sampleLoadBalancerEnv (model : loadBalancerResourceModel)
    (details : LoadBalancerDetails) (adapted : Except GoError TfContractObject) :
    LoadBalancerEnv :=
  { PlanGet := ([], model)
    StateGet := ([], model)
    ContractAs := fun o =>
      match o with
      | .value c => (none, c)
      | _ => (none, ⟨.null, .null, .null, .null, .null⟩)
    ReturnError := fun name _ => ⟨name⟩
    NewContractTypeFromValue := fun v => .ok v
    NewContractTermFromValue := fun v => .ok v
    NewBillingFrequencyFromValue := fun v => .ok v
    NewRegionNameFromValue := fun v => .ok v
    NewTypeNameFromValue := fun v => .ok v
    AdaptStringPointerValueToNullableString := fun v =>
      match v with
      | .value str => some str
      | _ => none
    LaunchLoadBalancer := fun _ => .ok details (some ⟨200⟩)
    GetLoadBalancer := fun _ => .ok details (some ⟨200⟩)
    UpdateLoadBalancer := fun _ _ => .ok details (some ⟨200⟩)
    AdaptNullableTimeToStringValue := fun t =>
      match t with
      | some str => .value str
      | none => .null
    AdaptSdkModelToResourceObject := fun _ => adapted
    StateSet := fun _ => [] }

/-! ## `internal/utils/api.go`: resource type names -/

/-- The function `generateTypeName`: `fmt.Sprintf("%s_%s", providerTypeName, name)`. -/
def generateTypeName (providerTypeName name : String) : String :=
  providerTypeName ++ "_" ++ name

/-- The struct `ResourceAPI`, of which `Metadata` reads the name; its other
fields are the API clients that `Configure` fills in. -/
structure ResourceAPI where
  Name : String
  deriving DecidableEq, Repr

/-- The method `ResourceAPI.Metadata`: the value it stores in
`response.TypeName`, given `request.ProviderTypeName`. -/
def ResourceAPI.Metadata (p : ResourceAPI) (ProviderTypeName : String) : String :=
  generateTypeName ProviderTypeName p.Name

/-- The constructor `publiccloud.NewInstanceResource`, as far as `ResourceAPI`
goes. -/
def NewInstanceResource : ResourceAPI := { Name := "public_cloud_instance" }

/-- The constructor `publiccloud.NewLoadBalancerResource`. -/
def NewLoadBalancerResource : ResourceAPI := { Name := "public_cloud_load_balancer" }

/-- The constructor `publiccloud.NewTargetGroupResource`. -/
def NewTargetGroupResource : ResourceAPI := { Name := "public_cloud_target_group" }

/-- The constructor `dedicatedserver.NewCredentialResource`. -/
def dedicatedserver.NewCredentialResource : ResourceAPI :=
  { Name := "dedicated_server_credential" }

/-! ## `internal/public_cloud/data_source/instances/model/ddos.go` -/

/-- The method `types.String.IsNull`. -/
def TfString.IsNull : TfString → Bool
  | .null => true
  | _ => false

/-- The method `types.String.IsUnknown`. -/
def TfString.IsUnknown : TfString → Bool
  | .unknown => true
  | _ => false

/-- The struct `ddos` of package `model`. -/
structure model.ddos where
  DetectionProfile : TfString
  ProtectionType : TfString
  deriving DecidableEq, Repr

/-- The function `newDdos`; the pointer it returns is `some`. The framework
constructor `basetypes.NewStringValue` builds a known string. -/
def model.newDdos (entityDdos : domain.Ddos) : Option model.ddos :=
  some { DetectionProfile := .value entityDdos.DetectionProfile
         ProtectionType := .value entityDdos.ProtectionType }

/-! ## `internal/provider/publiccloud/instance_resource.go`: `root_disk_size` -/

/-- The validator `int32validator.Between(min, max)`: null and unknown values
are skipped, a known value below `min` or above `max` is an attribute error. -/
def int32validatorBetween (min max : Int) (path : String) (v : TfInt32) : Diagnostics :=
  match v with
  | .value n =>
    if n < min ∨ n > max then
      [⟨Severity.error, some path, "Invalid Attribute Value",
        "Attribute " ++ path ++ " value must be between " ++ toString min ++ " and " ++
          toString max ++ ", got: " ++ toString n⟩]
    else []
  | _ => []

/-- Validation of a configured `root_disk_size` against the schema of the
instance resource: the attribute is `Optional` and `Computed` and has the one
validator `int32validator.Between(5, 1000)`. -/
def validateRootDiskSize (v : TfInt32) : Diagnostics :=
  int32validatorBetween 5 1000 "root_disk_size" v

/-! ## Plan modifiers of the Terraform Plugin Framework -/

/-- What a string plan modifier is given: whether the resource has no prior
state (`req.State.Raw.IsNull()`, a creation), whether it has no plan
(`req.Plan.Raw.IsNull()`, a destruction), and the configured, prior and planned
value of the attribute. -/
structure StringPlanModifyRequest where
  StateRawIsNull : Bool
  PlanRawIsNull : Bool
  ConfigValue : TfString
  StateValue : TfString
  PlanValue : TfString
  deriving DecidableEq, Repr

/-- What a string plan modifier answers: the planned value and whether the
resource has to be replaced. -/
structure StringPlanModifyResponse where
  PlanValue : TfString
  RequiresReplace : Bool
  deriving DecidableEq, Repr

/-- The string plan modifiers of package `stringplanmodifier` that the schemas
of the provider use. -/
inductive StringPlanModifier where
  | UseStateForUnknown
  | RequiresReplace
  | RequiresReplaceIfConfigured
  deriving DecidableEq, Repr

/-- The framework modifier `stringplanmodifier.RequiresReplaceIf(ifFunc, ...)`:
no replacement on creation, on destruction or when planned and prior value are
equal; otherwise `ifFunc` decides. -/
def stringplanmodifier.RequiresReplaceIf (ifFunc : StringPlanModifyRequest → Bool)
    (req : StringPlanModifyRequest) : StringPlanModifyResponse :=
  if req.StateRawIsNull then ⟨req.PlanValue, false⟩
  else if req.PlanRawIsNull then ⟨req.PlanValue, false⟩
  else if req.PlanValue = req.StateValue then ⟨req.PlanValue, false⟩
  else ⟨req.PlanValue, ifFunc req⟩

/-- The method `PlanModifyString` of each modifier. `RequiresReplace` is
`RequiresReplaceIf` with a condition that always holds,
`RequiresReplaceIfConfigured` is `RequiresReplaceIf` with the condition that the
configured value is not null, and `UseStateForUnknown` copies the prior value
into an unknown planned value. -/
def StringPlanModifier.PlanModifyString (m : StringPlanModifier)
    (req : StringPlanModifyRequest) : StringPlanModifyResponse :=
  match m with
  | .RequiresReplace => stringplanmodifier.RequiresReplaceIf (fun _ => true) req
  | .RequiresReplaceIfConfigured =>
    stringplanmodifier.RequiresReplaceIf (fun r => !r.ConfigValue.IsNull) req
  | .UseStateForUnknown =>
    if req.StateValue.IsNull then ⟨req.PlanValue, false⟩
    else if !req.PlanValue.IsUnknown then ⟨req.PlanValue, false⟩
    else if req.ConfigValue.IsUnknown then ⟨req.PlanValue, false⟩
    else ⟨req.StateValue, false⟩

/-- The framework runs the plan modifiers of an attribute in order: each sees
the planned value its predecessor left, and the attribute requires replacement
when one of them says so. -/
def runStringPlanModifiers (ms : List StringPlanModifier) (req : StringPlanModifyRequest) :
    StringPlanModifyResponse :=
  ms.foldl
    (fun acc m =>
      let r := m.PlanModifyString { req with PlanValue := acc.PlanValue }
      ⟨r.PlanValue, acc.RequiresReplace || r.RequiresReplace⟩)
    ⟨req.PlanValue, false⟩

/-- A `schema.StringAttribute` as far as planning goes: its path in the schema,
the three flags, whether its description contains the local `warningError`
("**WARNING!** Changing this value once running will cause this ... to be
destroyed and a new one to be created.") and its plan modifiers. -/
structure StringAttribute where
  path : String
  Required : Bool
  Optional : Bool
  Computed : Bool
  Warning : Bool
  PlanModifiers : List StringPlanModifier
  deriving DecidableEq, Repr

/-- The string attributes of `instanceResource.Schema`, in the order of the
schema literal. No attribute of another type has a plan modifier or the
warning in its description. -/
def instanceSchemaStringAttributes : List StringAttribute :=
  [ ⟨"id", false, false, true, false, [.UseStateForUnknown]⟩,
    ⟨"region", true, false, false, true, [.RequiresReplace]⟩,
    ⟨"reference", false, true, true, false, []⟩,
    ⟨"image.id", true, false, false, true, [.RequiresReplace]⟩,
    ⟨"image.instance_id", false, false, true, false, []⟩,
    ⟨"image.name", false, false, true, false, []⟩,
    ⟨"image.state", false, false, true, false, []⟩,
    ⟨"image.flavour", false, false, true, false, []⟩,
    ⟨"image.region", false, false, true, false, []⟩,
    ⟨"iso.id", false, false, true, false, []⟩,
    ⟨"iso.name", false, false, true, false, []⟩,
    ⟨"state", false, false, true, false, []⟩,
    ⟨"type", true, false, false, true, []⟩,
    ⟨"root_disk_storage_type", true, false, false, true, [.RequiresReplace]⟩,
    ⟨"ips.ip", false, false, true, false, []⟩,
    ⟨"ips.instance_id", false, false, true, false, []⟩,
    ⟨"ips.reverse_lookup", false, false, true, false, []⟩,
    ⟨"contract.type", true, false, false, false, []⟩,
    ⟨"contract.ends_at", false, false, true, false, []⟩,
    ⟨"contract.state", false, false, true, false, []⟩,
    ⟨"market_app_id", false, true, true, true, [.RequiresReplaceIfConfigured]⟩ ]

/-- The string attributes of `loadBalancerResource.Schema`, in the order of the
schema literal. -/
def loadBalancerSchemaStringAttributes : List StringAttribute :=
  [ ⟨"id", false, false, true, false, [.UseStateForUnknown]⟩,
    ⟨"reference", false, true, true, false, []⟩,
    ⟨"contract.type", true, false, false, false, []⟩,
    ⟨"contract.ends_at", false, false, true, false, []⟩,
    ⟨"contract.state", false, false, true, false, []⟩,
    ⟨"region", true, false, false, true, [.RequiresReplace]⟩,
    ⟨"type", true, false, false, true, []⟩ ]

/-- The attribute of a schema at a path. -/
def findAttribute (schema : List StringAttribute) (path : String) : Option StringAttribute :=
  schema.find? (fun a => a.path == path)

/-- Whether planning a change of the attribute at `path` marks the resource for
replacement (destroy, then create). -/
def attributeRequiresReplace (schema : List StringAttribute) (path : String)
    (req : StringPlanModifyRequest) : Bool :=
  match findAttribute schema path with
  | some a => (runStringPlanModifiers a.PlanModifiers req).RequiresReplace
  | none => false

/-- A request for an attribute of an existing resource that is not being
destroyed and whose planned value differs from the prior one. -/
def StringPlanModifyRequest.isChange (req : StringPlanModifyRequest) : Bool :=
  !req.StateRawIsNull && !req.PlanRawIsNull && decide (req.PlanValue ≠ req.StateValue)

/-! ## `internal/provider/publiccloud/instance_resource.go`: the update options -/

/-- The SDK struct `publiccloud.UpdateInstanceOpts`; an unset field is `none`. -/
structure UpdateInstanceOpts where
  Type_ : Option String
  Reference : Option String
  ContractType : Option String
  ContractTerm : Option Int
  BillingFrequency : Option Int
  RootDiskSize : Option Int
  deriving DecidableEq, Repr

/-- The options `instanceResource.Update` builds from the plan before it calls
the SDK, once `plan.Contract.As` has decoded the contract. The two helpers of
package `utils`, whose sources are absent, are parameters. -/
def instanceResource.updateOpts
    (AdaptStringPointerValueToNullableString : TfString → Option String)
    (AdaptInt32PointerValueToNullableInt32 : TfInt32 → Option Int)
    (planReference planType : TfString) (planRootDiskSize : TfInt32)
    (contract : contractResourceModel) : UpdateInstanceOpts :=
  let opts : UpdateInstanceOpts :=
    { Type_ := none, Reference := none, ContractType := none, ContractTerm := none,
      BillingFrequency := none, RootDiskSize := none }
  let opts := { opts with Reference := AdaptStringPointerValueToNullableString planReference }
  let opts :=
    { opts with RootDiskSize := AdaptInt32PointerValueToNullableInt32 planRootDiskSize }
  let opts :=
    if contract.Type_.ValueString ≠ "" then
      { opts with ContractType := some contract.Type_.ValueString }
    else opts
  let opts :=
    if contract.Term.ValueInt32 ≠ 0 then
      { opts with ContractTerm := some contract.Term.ValueInt32 }
    else opts
  let opts :=
    if contract.BillingFrequency.ValueInt32 ≠ 0 then
      { opts with BillingFrequency := some contract.BillingFrequency.ValueInt32 }
    else opts
  let opts :=
    if planType.ValueString ≠ "" then { opts with Type_ := some planType.ValueString }
    else opts
  opts

/-- The helper `utils.AdaptStringPointerValueToNullableString` as the name says
it: a known string is set, null and unknown are not. Used to evaluate the code
on concrete inputs. -/
def sampleAdaptString : TfString → Option String
  | .value str => some str
  | _ => none

/-- The helper `utils.AdaptInt32PointerValueToNullableInt32`, likewise. -/
def sampleAdaptInt32 : TfInt32 → Option Int
  | .value n => some n
  | _ => none

/-! ## `internal/provider/publiccloud/target_group_resource.go` -/

/-- A framework `types.Object` decoded to `α`: null, unknown or known. -/
inductive TfObject (α : Type) where
  | null
  | unknown
  | value (a : α)
  deriving DecidableEq, Repr

/-- The method `types.Object.IsNull`. -/
def TfObject.IsNull {α : Type} : TfObject α → Bool
  | .null => true
  | _ => false

/-- The struct `healthCheckResourceModel`. -/
structure healthCheckResourceModel where
  Protocol : TfString
  Method : TfString
  URI : TfString
  Host : TfString
  Port : TfInt32
  deriving DecidableEq, Repr

/-- The SDK struct `publiccloud.HealthCheckOpts`; an unset field is `none`. -/
structure HealthCheckOpts where
  Protocol : String
  Uri : String
  Port : Int
  Method : Option String
  Host : Option String
  deriving DecidableEq, Repr

/-- The method `healthCheckResourceModel.generateOpts`. -/
def healthCheckResourceModel.generateOpts
    (AdaptStringPointerValueToNullableString : TfString → Option String)
    (h : healthCheckResourceModel) : HealthCheckOpts :=
  let opts : HealthCheckOpts :=
    { Protocol := h.Protocol.ValueString, Uri := h.URI.ValueString,
      Port := h.Port.ValueInt32, Method := none, Host := none }
  let opts :=
    if !h.Method.IsNull then { opts with Method := some h.Method.ValueString } else opts
  { opts with Host := AdaptStringPointerValueToNullableString h.Host }

/-- What an object plan modifier is given; see `StringPlanModifyRequest`. -/
structure ObjectPlanModifyRequest (α : Type) where
  StateRawIsNull : Bool
  PlanRawIsNull : Bool
  ConfigValue : TfObject α
  StateValue : TfObject α
  PlanValue : TfObject α
  deriving DecidableEq, Repr

/-- The framework modifier `objectplanmodifier.RequiresReplaceIf(ifFunc, ...)`:
the value it leaves in `resp.RequiresReplace`. `ifFunc req` is the value the
condition leaves in its response, which starts out `false`. -/
def objectplanmodifier.RequiresReplaceIf {α : Type} [DecidableEq α]
    (ifFunc : ObjectPlanModifyRequest α → Bool) (req : ObjectPlanModifyRequest α) : Bool :=
  if req.StateRawIsNull then false
  else if req.PlanRawIsNull then false
  else if req.PlanValue = req.StateValue then false
  else ifFunc req

/-- The condition of the `health_check` plan modifier in
`targetGroupResource.Schema`: the function literal handed to
`RequiresReplaceIf`. -/
def healthCheckReplaceCondition (request : ObjectPlanModifyRequest healthCheckResourceModel) :
    Bool :=
  if request.PlanValue.IsNull then true else false

/-- The plan modifier of `health_check`. -/
def healthCheckPlanModifier (request : ObjectPlanModifyRequest healthCheckResourceModel) :
    Bool :=
  objectplanmodifier.RequiresReplaceIf healthCheckReplaceCondition request

/-- The enum tables of the vendor SDK that the target group schema reads; a
parameter like `SdkEnums`. -/
structure TargetGroupEnums where
  AllowedProtocolEnumValues : List String
  AllowedHttpMethodEnumValues : List String
  deriving DecidableEq, Repr

/-- Validation of a configured `health_check` object against the nested
attributes of `targetGroupResource.Schema`: `protocol`, `uri` and `port` are
`Required`, `method` and `host` are `Optional`; `protocol` and `method` have a
`OneOf` validator each and `port` has `Between(1, 65535)`. No validator relates
two attributes. -/
def validateHealthCheckAttribute (sdk : TargetGroupEnums) (h : healthCheckResourceModel) :
    Diagnostics :=
  requiredString "health_check.protocol" h.Protocol ++
  stringvalidatorOneOf sdk.AllowedProtocolEnumValues "health_check.protocol" h.Protocol ++
  stringvalidatorOneOf sdk.AllowedHttpMethodEnumValues "health_check.method" h.Method ++
  requiredString "health_check.uri" h.URI ++
  requiredInt32 "health_check.port" h.Port ++
  int32validatorBetween 1 65535 "health_check.port" h.Port

/-- The enum tables of the target group as the vendor SDK publishes them. -/
def targetGroupEnums : TargetGroupEnums :=
  { AllowedProtocolEnumValues := ["HTTP", "HTTPS", "TCP"]
    AllowedHttpMethodEnumValues := ["GET", "HEAD", "POST", "OPTIONS"] }

/-! ## `internal/provider/publiccloud/load_balancers_data_source.go` -/

/-- The struct `loadBalancerDetailsErr`. -/
structure loadBalancerDetailsErr where
  err : GoError
  httpResponse : Option HttpResponse
  deriving DecidableEq, Repr

/-- The struct `ipDataSourceModel`, of which `Read` sets the field `IP`. -/
structure ipDataSourceModel where
  IP : TfString
  deriving DecidableEq, Repr

/-- Modelled from the spec: the declaration of `contractDataSourceModel` is not
among the sources; the attributes of `contract` in the schema of the data
source. -/
structure contractDataSourceModel where
  BillingFrequency : TfInt32
  Term : TfInt32
  Type_ : TfString
  EndsAt : TfString
  State : TfString
  deriving DecidableEq, Repr

/-- The struct `loadBalancerDataSourceModel`. -/
structure loadBalancerDataSourceModel where
  ID : TfString
  IPs : List ipDataSourceModel
  Reference : TfString
  Contract : contractDataSourceModel
  State : TfString
  Region : TfString
  Type_ : TfString
  deriving DecidableEq, Repr

/-- The struct `loadBalancersDataSourceModel`. -/
structure loadBalancersDataSourceModel where
  LoadBalancers : List loadBalancerDataSourceModel
  deriving DecidableEq, Repr

/-- An entry of the SDK list of load balancers; `Read` uses its id. -/
structure SdkLoadBalancer where
  Id : String
  deriving DecidableEq, Repr

/-- The results of `loadBalancerRequest.Execute()`: a page of load balancers with
the limit, offset and total count of its metadata, or an error. -/
inductive LoadBalancerListResponse where
  | ok (loadBalancers : List SdkLoadBalancer) (limit offset totalCount : Int)
  | failed (httpResponse : Option HttpResponse) (err : GoError)
  deriving DecidableEq, Repr

/-- What `loadBalancersDataSource.Read` uses but does not define: the list call
of the SDK (as answered to call number `n` with the given offset), the helpers
`utils.NewOffset` and `adaptContractToContractDataSource`, whose sources are
absent, and `State.Set` of the framework. -/
structure LoadBalancersEnv where
  /-- The SDK call `GetLoadBalancerList(ctx).Offset(offset).Execute()`. -/
  Execute : Nat → Option Int → LoadBalancerListResponse
  /-- The helper `utils.NewOffset`. -/
  NewOffset : Int → Int → Int → Option Int
  /-- The helper `adaptContractToContractDataSource`. -/
  adaptContractToContractDataSource : InstanceContractDetails → contractDataSourceModel
  /-- The framework method `response.State.Set(ctx, state)`. -/
  StateSet : loadBalancersDataSourceModel → Diagnostics

/-- The listing loop of `Read` (the first `for`), run for at most `fuel` pages:
`none` when the fuel runs out, otherwise the error of the failing page or all
load balancers listed. -/
def listLoadBalancers (env : LoadBalancersEnv) :
    Nat → Nat → Option Int → List SdkLoadBalancer →
      Option (Except loadBalancerDetailsErr (List SdkLoadBalancer))
  | 0, _, _, _ => none
  | fuel + 1, call, offset, loadBalancers =>
    match env.Execute call offset with
    | .failed httpResponse err => some (.error ⟨err, httpResponse⟩)
    | .ok page limit pageOffset totalCount =>
      let loadBalancers := loadBalancers ++ page
      match env.NewOffset limit pageOffset totalCount with
      | none => some (.ok loadBalancers)
      | some next => listLoadBalancers env fuel (call + 1) (some next) loadBalancers

/-- What the collection loop receives from one of the goroutines: details on
`resultChan` or an error on `errorChan`. -/
inductive Arrival where
  | result (res : LoadBalancerDetails)
  | error (err : loadBalancerDetailsErr)
  deriving DecidableEq, Repr

/-- How the collection loop ends: with all details collected, with the first
error it received, or blocked in `select` because nothing arrives any more. -/
inductive CollectOutcome where
  | collected (loadBalancerDetailsList : List LoadBalancerDetails)
  | failed (err : loadBalancerDetailsErr)
  | blocked
  deriving DecidableEq, Repr

/-- The collection loop `for i := 0; i < len(loadBalancers); i++ { select ... }`
with `remaining` iterations to go; `arrivals` are the values the two channels
deliver, in the order in which `select` receives them. -/
def collectLoadBalancerDetails :
    Nat → List Arrival → List LoadBalancerDetails → CollectOutcome
  | 0, _, loadBalancerDetailsList => .collected loadBalancerDetailsList
  | _ + 1, [], _ => .blocked
  | _ + 1, .error err :: _, _ => .failed err
  | remaining + 1, .result res :: arrivals, loadBalancerDetailsList =>
    collectLoadBalancerDetails remaining arrivals (loadBalancerDetailsList ++ [res])

/-- The call `sort.Slice(loadBalancerDetailsList, ...)`, which orders by `Id`.
Go's sort is not stable; for details with equal ids the model fixes one of the
orders Go may produce. -/
def sortLoadBalancerDetails (l : List LoadBalancerDetails) : List LoadBalancerDetails :=
  l.insertionSort (fun a b => a.Id ≤ b.Id)

/-- The body of the last loop of `Read`: the model of one load balancer. -/
def adaptLoadBalancerDetailsToDataSource (env : LoadBalancersEnv)
    (sdkLoadBalancer : LoadBalancerDetails) : loadBalancerDataSourceModel :=
  { ID := .value sdkLoadBalancer.Id
    IPs := sdkLoadBalancer.Ips.map (fun ip => ⟨.value ip.Ip⟩)
    Reference :=
      match sdkLoadBalancer.Reference with
      | some ref => .value ref
      | none => .null
    Contract := env.adaptContractToContractDataSource sdkLoadBalancer.Contract
    State := .value sdkLoadBalancer.State
    Region := .value sdkLoadBalancer.Region
    Type_ := .value sdkLoadBalancer.Type_ }

/-- How `loadBalancersDataSource.Read` ends: it returns, leaving the diagnostics
of the response and the states handed to `State.Set`, or it blocks for ever in
the collection loop. -/
inductive DataSourceOutcome where
  | returned (diagnostics : Diagnostics) (stateSets : List loadBalancersDataSourceModel)
  | blocked
  deriving DecidableEq, Repr

/-- The method `loadBalancersDataSource.Read`. `fuel` bounds the number of pages
of the listing loop, `arrivals` are the values the goroutines deliver to the
collection loop, in the order in which it receives them, and `diagnostics` are
the diagnostics of the response on entry. -/
def loadBalancersDataSource.Read (fuel : Nat) (env : LoadBalancersEnv)
    (arrivals : List Arrival) (diagnostics : Diagnostics) : Option DataSourceOutcome :=
  match listLoadBalancers env fuel 0 none [] with
  | none => none
  | some (.error err) => some (.returned (SdkError diagnostics err.err err.httpResponse) [])
  | some (.ok loadBalancers) =>
    match collectLoadBalancerDetails loadBalancers.length arrivals [] with
    | .blocked => some .blocked
    | .failed err => some (.returned (SdkError diagnostics err.err err.httpResponse) [])
    | .collected loadBalancerDetailsList =>
      let state : loadBalancersDataSourceModel :=
        { LoadBalancers :=
            (sortLoadBalancerDetails loadBalancerDetailsList).map
              (adaptLoadBalancerDetailsToDataSource env) }
      some (.returned (diagnostics.Append (env.StateSet state)) [state])

/-- A concrete environment for evaluating the data source: one page that lists
the given load balancers. -/
def sampleLoadBalancersEnv (loadBalancers : List SdkLoadBalancer) : LoadBalancersEnv :=
  { Execute := fun _ _ => .ok loadBalancers 50 0 (Int.ofNat loadBalancers.length)
    NewOffset := fun _ _ _ => none
    adaptContractToContractDataSource := fun c =>
      { BillingFrequency := .value c.BillingFrequency, Term := .value c.Term,
        Type_ := .value c.Type_,
        EndsAt := match c.EndsAt with
          | some t => .value t
          | none => .null,
        State := .value c.State }
    StateSet := fun _ => [] }

/-! ## `internal/repositories/instance_repository/convert.go` -/

/-- The SDK struct `publicCloud.ImageDetails`, with the fields `convertImage`
reads. -/
structure SdkImageDetails where
  Id : String
  Name : String
  Version : String
  Family : String
  Flavour : String
  Architecture : String
  MarketApps : List String
  StorageTypes : List String
  deriving DecidableEq, Repr

/-- The SDK struct `publicCloud.Contract`, with the fields `convertContract`
reads. -/
structure SdkContract where
  BillingFrequency : Int
  Term : Int
  Type_ : String
  State : String
  RenewalsAt : Time
  CreatedAt : Time
  EndsAt : Option Time
  deriving DecidableEq, Repr

/-- The SDK struct `publicCloud.Iso`. -/
structure SdkIso where
  Id : String
  Name : String
  deriving DecidableEq, Repr

/-- The SDK struct `publicCloud.PrivateNetwork`. -/
structure SdkPrivateNetwork where
  PrivateNetworkId : String
  Status : String
  Subnet : String
  deriving DecidableEq, Repr

/-- The SDK struct `publicCloud.Resources`, kept abstract like the domain
struct `Resources`. -/
structure SdkResources where
  token : Nat
  deriving DecidableEq, Repr

/-- The SDK struct `publicCloud.InstanceDetails`, with the fields
`convertInstance` reads. -/
structure SdkInstanceDetails where
  Id : String
  Region : String
  ProductType : String
  Type_ : String
  State : String
  RootDiskStorageType : String
  RootDiskSize : Int
  HasPublicIpV4 : Bool
  IncludesPrivateNetwork : Bool
  Resources : SdkResources
  Image : SdkImageDetails
  Ips : List IpDetails
  Contract : SdkContract
  Reference : Option String
  MarketAppId : Option String
  StartedAt : Option Time
  Iso : Option SdkIso
  PrivateNetwork : Option SdkPrivateNetwork
  deriving DecidableEq, Repr

/-- Modelled from the spec: the domain struct `Image` of the revision
`convert.go` belongs to is not among the sources; the plain aggregate of the
arguments `NewImage` takes in `convertImage`. -/
structure domain.Image where
  Id : String
  Name : String
  Version : String
  Family : String
  Flavour : String
  Architecture : String
  MarketApps : List String
  StorageTypes : List String
  deriving DecidableEq, Repr

/-- Modelled from the spec: the domain struct `Contract` of that revision; the
plain aggregate of the arguments `NewContract` takes in `convertContract`. -/
structure domain.Contract where
  BillingFrequency : Int
  Term : Int
  Type_ : String
  RenewalsAt : Time
  CreatedAt : Time
  State : String
  EndsAt : Option Time
  deriving DecidableEq, Repr

/-- Modelled from the spec: the domain struct `OptionalInstanceValues` of that
revision, with the fields `convertInstance` sets and the field `SshKey`, which
`convertEntityToLaunchInstanceOpts` reads from the instance. -/
structure domain.OptionalInstanceValues where
  Reference : Option String
  MarketAppId : Option String
  StartedAt : Option Time
  AutoScalingGroup : Option AutoScalingGroup
  Iso : Option Iso
  PrivateNetwork : Option PrivateNetwork
  SshKey : Option SshKey
  deriving DecidableEq, Repr

/-- Modelled from the spec: the domain struct `Instance` of that revision, with
the fields `convert.go` passes to `NewInstance` and reads in
`convertEntityToLaunchInstanceOpts` and `convertEntityToUpdateInstanceOpts`
(`Type_` is the Go field `Type`, a string in that revision). -/
structure domain.Instance where
  Id : Uuid
  Region : String
  Resources : Resources
  Image : domain.Image
  State : String
  ProductType : String
  HasPublicIpV4 : Bool
  HasPrivateNetwork : Bool
  RootDiskSize : RootDiskSize
  Type_ : String
  RootDiskStorageType : String
  Ips : List Ip
  Contract : domain.Contract
  Reference : Option String
  MarketAppId : Option String
  StartedAt : Option Time
  AutoScalingGroup : Option AutoScalingGroup
  Iso : Option Iso
  PrivateNetwork : Option PrivateNetwork
  SshKey : Option SshKey
  deriving DecidableEq, Repr

/-- Modelled from the spec: the constructor `domain.NewInstance` of that
revision, which fills the struct from its arguments and copies the optional
values, as `NewInstance` of `instance.go` does. -/
def domain.NewInstance (id : Uuid) (region : String) (resources : Resources)
    (image : domain.Image) (state productType : String)
    (hasPublicIpV4 hasPrivateNetwork : Bool) (rootDiskSize : RootDiskSize)
    (instanceType rootDiskStorageType : String) (ips : List Ip)
    (contract : domain.Contract) (optional : domain.OptionalInstanceValues) :
    domain.Instance :=
  { Id := id, Region := region, Resources := resources, Image := image, State := state,
    ProductType := productType, HasPublicIpV4 := hasPublicIpV4,
    HasPrivateNetwork := hasPrivateNetwork, RootDiskSize := rootDiskSize,
    Type_ := instanceType, RootDiskStorageType := rootDiskStorageType, Ips := ips,
    Contract := contract, Reference := optional.Reference,
    MarketAppId := optional.MarketAppId, StartedAt := optional.StartedAt,
    AutoScalingGroup := optional.AutoScalingGroup, Iso := optional.Iso,
    PrivateNetwork := optional.PrivateNetwork, SshKey := optional.SshKey }

/-- What `convert.go` uses but does not define: the parsers of the packages
`value_object` and `enum`, the fallible constructor `domain.NewContract`, and
the conversion of the resources, which copies numbers and units and cannot
fail. -/
structure ConvertEnv where
  /-- The parser `value_object.NewUuid`. -/
  NewUuid : String → Except GoError Uuid
  /-- The parser `enum.NewImageId`. -/
  NewImageId : String → Except GoError String
  /-- The parser `enum.NewState`. -/
  NewState : String → Except GoError String
  /-- The parser `value_object.NewRootDiskSize`. -/
  NewRootDiskSize : Int → Except GoError RootDiskSize
  /-- The parser `enum.NewRootDiskStorageType`. -/
  NewRootDiskStorageType : String → Except GoError String
  /-- The parser `enum.NewNetworkType`. -/
  NewNetworkType : String → Except GoError String
  /-- The parser `enum.NewContractBillingFrequency`. -/
  NewContractBillingFrequency : Int → Except GoError Int
  /-- The parser `enum.NewContractTerm`. -/
  NewContractTerm : Int → Except GoError Int
  /-- The parser `enum.NewContractType`. -/
  NewContractType : String → Except GoError String
  /-- The parser `enum.NewContractState`. -/
  NewContractState : String → Except GoError String
  /-- The constructor `domain.NewContract`. -/
  NewContract : Int → Int → String → Time → Time → String → Option Time →
    Except GoError domain.Contract
  /-- The function `convertResources`. -/
  convertResources : SdkResources → Resources

/-- The function `convertImage`. -/
def convertImage (env : ConvertEnv) (sdkImage : SdkImageDetails) :
    Except GoError domain.Image :=
  match env.NewImageId sdkImage.Id with
  | .error err => .error (wrapError "convertImage" err)
  | .ok imageId =>
    .ok { Id := imageId, Name := sdkImage.Name, Version := sdkImage.Version,
          Family := sdkImage.Family, Flavour := sdkImage.Flavour,
          Architecture := sdkImage.Architecture, MarketApps := sdkImage.MarketApps,
          StorageTypes := sdkImage.StorageTypes }

/-- The function `convertDdos`. -/
def convertDdos (sdkDdos : SdkDdos) : domain.Ddos :=
  { DetectionProfile := sdkDdos.DetectionProfile, ProtectionType := sdkDdos.ProtectionType }

/-- The function `convertIp`. -/
def convertIp (env : ConvertEnv) (sdkIp : IpDetails) : Except GoError Ip :=
  match env.NewNetworkType sdkIp.NetworkType with
  | .error err => .error (wrapError "convertIp" err)
  | .ok networkType =>
    .ok { Ip := sdkIp.Ip, PrefixLength := sdkIp.PrefixLength, Version := sdkIp.Version,
          NullRouted := sdkIp.NullRouted, MainIp := sdkIp.MainIp,
          NetworkType := networkType, ReverseLookup := sdkIp.ReverseLookup,
          Ddos := sdkIp.Ddos.map convertDdos }

/-- The function `convertIps`: the loop returns at the first address that fails. -/
def convertIps (env : ConvertEnv) : List IpDetails → Except GoError (List Ip)
  | [] => .ok []
  | sdkIp :: sdkIps =>
    match convertIp env sdkIp with
    | .error err => .error (wrapError "convertIps" err)
    | .ok ip =>
      match convertIps env sdkIps with
      | .error err => .error err
      | .ok ips => .ok (ip :: ips)

/-- The function `convertContract`. -/
def convertContract (env : ConvertEnv) (sdkContract : SdkContract) :
    Except GoError domain.Contract :=
  match env.NewContractBillingFrequency sdkContract.BillingFrequency with
  | .error err => .error (wrapError "convertContract" err)
  | .ok billingFrequency =>
  match env.NewContractTerm sdkContract.Term with
  | .error err => .error (wrapError "convertContract" err)
  | .ok contractTerm =>
  match env.NewContractType sdkContract.Type_ with
  | .error err => .error (wrapError "convertContract" err)
  | .ok contractType =>
  match env.NewContractState sdkContract.State with
  | .error err => .error (wrapError "convertContract" err)
  | .ok contractState =>
  match env.NewContract billingFrequency contractTerm contractType sdkContract.RenewalsAt
      sdkContract.CreatedAt contractState sdkContract.EndsAt with
  | .error err => .error (wrapError "convertContract" err)
  | .ok contract => .ok contract

/-- The function `convertIso`. -/
def convertIso (sdkIso : SdkIso) : Iso :=
  { Id := sdkIso.Id, Name := sdkIso.Name }

/-- The function `convertPrivateNetwork`. -/
def convertPrivateNetwork (sdkPrivateNetwork : SdkPrivateNetwork) : PrivateNetwork :=
  { Id := sdkPrivateNetwork.PrivateNetworkId, Status := sdkPrivateNetwork.Status,
    Subnet := sdkPrivateNetwork.Subnet }

/-- The function `convertInstance`. -/
def convertInstance (env : ConvertEnv) (sdkInstance : SdkInstanceDetails)
    (autoScalingGroup : Option AutoScalingGroup) : Except GoError domain.Instance :=
  match env.NewUuid sdkInstance.Id with
  | .error err => .error (wrapError "convertInstance" err)
  | .ok instanceId =>
  match convertImage env sdkInstance.Image with
  | .error err => .error (wrapError "convertInstance" err)
  | .ok image =>
  match env.NewState sdkInstance.State with
  | .error err => .error (wrapError "convertInstance" err)
  | .ok state =>
  match env.NewRootDiskSize sdkInstance.RootDiskSize with
  | .error err => .error (wrapError "convertInstance" err)
  | .ok rootDiskSize =>
  match env.NewRootDiskStorageType sdkInstance.RootDiskStorageType with
  | .error err => .error (wrapError "convertInstance" err)
  | .ok rootDiskStorageType =>
  match convertIps env sdkInstance.Ips with
  | .error err => .error ⟨"convertInstance:  " ++ err.msg⟩
  | .ok ips =>
  match convertContract env sdkInstance.Contract with
  | .error err => .error ⟨"convertInstance:  " ++ err.msg⟩
  | .ok contract =>
    let optionalValues : domain.OptionalInstanceValues :=
      { Reference := sdkInstance.Reference, MarketAppId := sdkInstance.MarketAppId,
        StartedAt := sdkInstance.StartedAt, AutoScalingGroup := autoScalingGroup,
        Iso := none, PrivateNetwork := none, SshKey := none }
    let optionalValues :=
      match sdkInstance.Iso with
      | some sdkIso => { optionalValues with Iso := some (convertIso sdkIso) }
      | none => optionalValues
    let optionalValues :=
      match sdkInstance.PrivateNetwork with
      | some sdkPrivateNetwork =>
        { optionalValues with PrivateNetwork := some (convertPrivateNetwork sdkPrivateNetwork) }
      | none => optionalValues
    .ok (domain.NewInstance instanceId sdkInstance.Region
      (env.convertResources sdkInstance.Resources) image state sdkInstance.ProductType
      sdkInstance.HasPublicIpV4 sdkInstance.IncludesPrivateNetwork rootDiskSize
      sdkInstance.Type_ rootDiskStorageType ips contract optionalValues)

/-- Whether a parser accepted its input. -/
def accepted {α : Type} : Except GoError α → Bool
  | .ok _ => true
  | .error _ => false

/-- Every constituent parser of `convertInstance` accepts its input: the
instance id, the image id, the state, the root disk size, the root disk storage
type, the network type of every IP, and the billing frequency, term, type and
state of the contract. -/
def instanceParsersAccept (env : ConvertEnv) (sdkInstance : SdkInstanceDetails) : Bool :=
  accepted (env.NewUuid sdkInstance.Id) &&
  accepted (env.NewImageId sdkInstance.Image.Id) &&
  accepted (env.NewState sdkInstance.State) &&
  accepted (env.NewRootDiskSize sdkInstance.RootDiskSize) &&
  accepted (env.NewRootDiskStorageType sdkInstance.RootDiskStorageType) &&
  sdkInstance.Ips.all (fun sdkIp => accepted (env.NewNetworkType sdkIp.NetworkType)) &&
  accepted (env.NewContractBillingFrequency sdkInstance.Contract.BillingFrequency) &&
  accepted (env.NewContractTerm sdkInstance.Contract.Term) &&
  accepted (env.NewContractType sdkInstance.Contract.Type_) &&
  accepted (env.NewContractState sdkInstance.Contract.State)

/-- Every value parser of `GetLaunchLoadBalancerOpts` accepts its input: the
contract type, contract term and billing frequency of the decoded contract, the
region and the type. -/
def launchParsersAccept (env : LoadBalancerEnv) (l : loadBalancerResourceModel) : Bool :=
  accepted (env.NewContractTypeFromValue (env.ContractAs l.Contract).2.Type_.ValueString) &&
  accepted (env.NewContractTermFromValue (env.ContractAs l.Contract).2.Term.ValueInt32) &&
  accepted
    (env.NewBillingFrequencyFromValue
      (env.ContractAs l.Contract).2.BillingFrequency.ValueInt32) &&
  accepted (env.NewRegionNameFromValue l.Region.ValueString) &&
  accepted (env.NewTypeNameFromValue l.Type_.ValueString)

/-- A concrete environment for evaluating `convert.go`: identifiers of 36
characters are UUIDs, the state must be one of three, every other parser
accepts its input. -/
def sampleConvertEnv : ConvertEnv :=
  { NewUuid := fun str => if str.length = 36 then .ok ⟨str⟩ else .error ⟨"invalid UUID"⟩
    NewImageId := fun str => .ok str
    NewState := fun str =>
      if ["CREATING", "RUNNING", "STOPPED"].contains str then .ok str
      else .error ⟨"invalid state"⟩
    NewRootDiskSize := fun n => .ok ⟨n⟩
    NewRootDiskStorageType := fun str => .ok str
    NewNetworkType := fun str => .ok str
    NewContractBillingFrequency := fun n => .ok n
    NewContractTerm := fun n => .ok n
    NewContractType := fun str => .ok str
    NewContractState := fun str => .ok str
    NewContract := fun frequency term type renewalsAt createdAt state endsAt =>
      .ok ⟨frequency, term, type, renewalsAt, createdAt, state, endsAt⟩
    convertResources := fun r => ⟨r.token⟩ }

/-- An SDK instance for evaluating `convertInstance`, with the given id and
state and one public IP. -/
def sampleSdkInstance (id state : String) : SdkInstanceDetails :=
  { Id := id, Region := "eu-west-3", ProductType := "INSTANCE", Type_ := "lsw.m3.large",
    State := state, RootDiskStorageType := "CENTRAL", RootDiskSize := 50,
    HasPublicIpV4 := true, IncludesPrivateNetwork := false, Resources := ⟨0⟩,
    Image := ⟨"UBUNTU_20_04_64BIT", "Ubuntu", "20.04", "linux", "ubuntu", "64bit", [], []⟩,
    Ips := [⟨"10.0.0.1", "28", 4, false, true, "PUBLIC", none, none⟩],
    Contract := ⟨1, 0, "HOURLY", "ACTIVE", ⟨0⟩, ⟨0⟩, none⟩,
    Reference := none, MarketAppId := none, StartedAt := none, Iso := none,
    PrivateNetwork := none }

/-! ## `convert.go`: from the domain instance to SDK options -/

/-- The SDK struct `publicCloud.LaunchInstanceOpts`; an unset optional field is
`none`. -/
structure LaunchInstanceOpts where
  Region : String
  Type_ : String
  ImageId : String
  ContractType : String
  ContractTerm : Int
  BillingFrequency : Int
  RootDiskStorageType : String
  MarketAppId : Option String
  Reference : Option String
  SshKey : Option String
  RootDiskSize : Option Int
  deriving DecidableEq, Repr

/-- The value parsers of the vendor SDK that `convert.go` calls to build options;
the SDK is an external dependency, so they are parameters. -/
structure SdkParsers where
  /-- The SDK parser `NewInstanceTypeNameFromValue`. -/
  NewInstanceTypeNameFromValue : String → Except GoError String
  /-- The SDK parser `NewRootDiskStorageTypeFromValue`. -/
  NewRootDiskStorageTypeFromValue : String → Except GoError String
  /-- The SDK parser `NewImageIdFromValue`. -/
  NewImageIdFromValue : String → Except GoError String
  /-- The SDK parser `NewContractTypeFromValue`. -/
  NewContractTypeFromValue : String → Except GoError String
  /-- The SDK parser `NewContractTermFromValue`. -/
  NewContractTermFromValue : Int → Except GoError Int
  /-- The SDK parser `NewBillingFrequencyFromValue`. -/
  NewBillingFrequencyFromValue : Int → Except GoError Int

/-- Go's conversion `int32(v)` of an `int`: the low 32 bits of `v`, read as a
signed number, so that values outside the range of `int32` wrap around. -/
def int32 (v : Int) : Int :=
  (v + 2147483648) % 4294967296 - 2147483648

/-- The function `convertEntityToLaunchInstanceOpts`. The methods `String()` and
`Value()` of the domain enums give the string or number itself. -/
def convertEntityToLaunchInstanceOpts (sdk : SdkParsers) (inst : domain.Instance) :
    Except GoError LaunchInstanceOpts :=
  match sdk.NewInstanceTypeNameFromValue inst.Type_ with
  | .error err => .error (wrapError "convertEntityToLaunchInstanceOpts" err)
  | .ok instanceTypeName =>
  match sdk.NewRootDiskStorageTypeFromValue inst.RootDiskStorageType with
  | .error err => .error (wrapError "convertEntityToLaunchInstanceOpts" err)
  | .ok rootDiskStorageType =>
  match sdk.NewImageIdFromValue inst.Image.Id with
  | .error err => .error (wrapError "convertEntityToLaunchInstanceOpts" err)
  | .ok imageId =>
  match sdk.NewContractTypeFromValue inst.Contract.Type_ with
  | .error err => .error (wrapError "convertEntityToLaunchInstanceOpts" err)
  | .ok contractType =>
  match sdk.NewContractTermFromValue (int32 inst.Contract.Term) with
  | .error err => .error (wrapError "convertEntityToLaunchInstanceOpts" err)
  | .ok contractTerm =>
  match sdk.NewBillingFrequencyFromValue (int32 inst.Contract.BillingFrequency) with
  | .error err => .error (wrapError "convertEntityToLaunchInstanceOpts" err)
  | .ok billingFrequency =>
    let launchInstanceOpts : LaunchInstanceOpts :=
      { Region := inst.Region, Type_ := instanceTypeName, ImageId := imageId,
        ContractType := contractType, ContractTerm := contractTerm,
        BillingFrequency := billingFrequency, RootDiskStorageType := rootDiskStorageType,
        MarketAppId := none, Reference := none, SshKey := none, RootDiskSize := none }
    let launchInstanceOpts := { launchInstanceOpts with MarketAppId := inst.MarketAppId }
    let launchInstanceOpts := { launchInstanceOpts with Reference := inst.Reference }
    let launchInstanceOpts :=
      match inst.SshKey with
      | some sshKey => { launchInstanceOpts with SshKey := some sshKey.value }
      | none => launchInstanceOpts
    .ok launchInstanceOpts

/-- The function `convertEntityToUpdateInstanceOpts`. -/
def convertEntityToUpdateInstanceOpts (sdk : SdkParsers) (inst : domain.Instance) :
    Except GoError UpdateInstanceOpts :=
  let updateInstanceOpts : UpdateInstanceOpts :=
    { Type_ := none, Reference := none, ContractType := none, ContractTerm := none,
      BillingFrequency := none, RootDiskSize := none }
  let updateInstanceOpts := { updateInstanceOpts with Reference := inst.Reference }
  let updateInstanceOpts :=
    if inst.RootDiskSize.Value ≠ 0 then
      { updateInstanceOpts with RootDiskSize := some (int32 inst.RootDiskSize.Value) }
    else updateInstanceOpts
  let typed : Except GoError UpdateInstanceOpts :=
    if inst.Type_ ≠ "" then
      match sdk.NewInstanceTypeNameFromValue inst.Type_ with
      | .error err => .error (wrapError "convertEntityToUpdateInstanceOpts" err)
      | .ok instanceTypeName => .ok { updateInstanceOpts with Type_ := some instanceTypeName }
    else .ok updateInstanceOpts
  match typed with
  | .error err => .error err
  | .ok updateInstanceOpts =>
  let withContractType : Except GoError UpdateInstanceOpts :=
    if inst.Contract.Type_ ≠ "" then
      match sdk.NewContractTypeFromValue inst.Contract.Type_ with
      | .error err => .error (wrapError "convertEntityToUpdateInstanceOpts" err)
      | .ok contractType => .ok { updateInstanceOpts with ContractType := some contractType }
    else .ok updateInstanceOpts
  match withContractType with
  | .error err => .error err
  | .ok updateInstanceOpts =>
  let withContractTerm : Except GoError UpdateInstanceOpts :=
    if inst.Contract.Term ≠ 0 then
      match sdk.NewContractTermFromValue (int32 inst.Contract.Term) with
      | .error err => .error (wrapError "convertEntityToUpdateInstanceOpts" err)
      | .ok contractTerm => .ok { updateInstanceOpts with ContractTerm := some contractTerm }
    else .ok updateInstanceOpts
  match withContractTerm with
  | .error err => .error err
  | .ok updateInstanceOpts =>
    if inst.Contract.BillingFrequency ≠ 0 then
      match sdk.NewBillingFrequencyFromValue (int32 inst.Contract.BillingFrequency) with
      | .error err => .error (wrapError "convertEntityToUpdateInstanceOpts" err)
      | .ok billingFrequency =>
        .ok { updateInstanceOpts with BillingFrequency := some billingFrequency }
    else .ok updateInstanceOpts

/-- SDK parsers over the enum tables `sdk`, as `New...FromValue` of the SDK
reads them; the instance type, the storage type and the image id are accepted
as they are. -/
def tableSdkParsers (sdk : SdkEnums) : SdkParsers :=
  { NewInstanceTypeNameFromValue := fun v => .ok v
    NewRootDiskStorageTypeFromValue := fun v => .ok v
    NewImageIdFromValue := fun v => .ok v
    NewContractTypeFromValue := fun v =>
      if sdk.AllowedContractTypeEnumValues.contains v then .ok v
      else .error ⟨"invalid value for ContractType"⟩
    NewContractTermFromValue := fun v =>
      if sdk.AllowedContractTermEnumValues.contains v then .ok v
      else .error ⟨"invalid value for ContractTerm"⟩
    NewBillingFrequencyFromValue := fun v =>
      if sdk.AllowedBillingFrequencyEnumValues.contains v then .ok v
      else .error ⟨"invalid value for BillingFrequency"⟩ }

/-- A domain instance as the repository hands it to the converters: a monthly
contract with billing frequency 1, and the given root disk size and contract
term. -/
def sampleDomainInstance (rootDiskSize contractTerm : Int) : domain.Instance :=
  { Id := ⟨"ace712e9-a166-47f1-9065-4af0f7e7fce1"⟩, Region := "eu-west-3", Resources := ⟨0⟩,
    Image := ⟨"UBUNTU_22_04_64BIT", "", "", "", "", "", [], []⟩, State := "",
    ProductType := "", HasPublicIpV4 := false, HasPrivateNetwork := false,
    RootDiskSize := ⟨rootDiskSize⟩, Type_ := "lsw.m3.large", RootDiskStorageType := "CENTRAL",
    Ips := [], Contract := ⟨1, contractTerm, "MONTHLY", ⟨0⟩, ⟨0⟩, "", none⟩,
    Reference := some "my webserver", MarketAppId := none, StartedAt := none,
    AutoScalingGroup := none, Iso := none, PrivateNetwork := none,
    SshKey := some ⟨"ssh-rsa AAAA"⟩ }

/-! ## `convert.go`: auto scaling groups -/

/-- The error type `errLoadBalancerNotFound` of `convert.go`. -/
structure errLoadBalancerNotFound where
  msg : String
  deriving DecidableEq, Repr

/-- The errors `convertAutoScalingGroup` can return: its own
`errLoadBalancerNotFound`, or an error of a parser wrapped with `fmt.Errorf`. -/
inductive ConvertAutoScalingGroupError where
  | loadBalancerNotFound (e : errLoadBalancerNotFound)
  | wrapped (err : GoError)
  deriving DecidableEq, Repr

/-- The fields of the SDK struct `publicCloud.AutoScalingGroupDetails` that
`convertAutoScalingGroup` reads, as its nil-safe getters return them; a nullable
field with no value is `none`. -/
structure SdkAutoScalingGroupDetails where
  Id : String
  Type_ : String
  State : String
  Reference : String
  Region : String
  CreatedAt : Time
  UpdatedAt : Time
  DesiredAmount : Option Int
  MinimumAmount : Option Int
  MaximumAmount : Option Int
  CpuThreshold : Option Int
  CooldownTime : Option Int
  WarmupTime : Option Int
  StartsAt : Option Time
  EndsAt : Option Time
  LoadBalancer : Option SdkLoadBalancer
  deriving DecidableEq, Repr

/-- The parsers of packages `value_object` and `enum` that
`convertAutoScalingGroup` calls; their sources are absent, so they are
parameters. -/
structure AutoScalingGroupParsers where
  /-- The parser `value_object.NewUuid`. -/
  NewUuid : String → Except GoError Uuid
  /-- The parser `enum.NewAutoScalingGroupType`. -/
  NewAutoScalingGroupType : String → Except GoError String
  /-- The parser `enum.NewAutoScalingGroupState`. -/
  NewAutoScalingGroupState : String → Except GoError String
  /-- The parser `value_object.NewAutoScalingGroupReference`. -/
  NewAutoScalingGroupReference : String → Except GoError AutoScalingGroupReference

/-- The function `convertNullableInt32ToValue`: Go `int(*v)` keeps the value of
an `int32`. -/
def convertNullableInt32ToValue (nullableInt : Option Int) : Option Int :=
  match nullableInt with
  | none => none
  | some v => some v

/-- The function `convertNullableTimeToValue`. -/
def convertNullableTimeToValue (nullableTime : Option Time) : Option Time :=
  nullableTime

/-- The message of `errLoadBalancerNotFound` built by `convertAutoScalingGroup`;
`quote` is the `%q` verb of Go. -/
def loadBalancerNotFoundMessage (quote : String → String)
    (loadBalancerId autoScalingGroupId : String) : String :=
  "required loadBalacner " ++ quote loadBalancerId ++ " linked to autoScalingGroup " ++
    quote autoScalingGroupId ++ " has not been passed"

/-- The function `convertAutoScalingGroup`. -/
def convertAutoScalingGroup (env : AutoScalingGroupParsers) (quote : String → String)
    (sdkAutoScalingGroup : SdkAutoScalingGroupDetails) (loadBalancer : Option LoadBalancer) :
    Except ConvertAutoScalingGroupError AutoScalingGroup :=
  match sdkAutoScalingGroup.LoadBalancer, loadBalancer with
  | some sdkLoadBalancer, none =>
    .error (.loadBalancerNotFound
      ⟨loadBalancerNotFoundMessage quote sdkLoadBalancer.Id sdkAutoScalingGroup.Id⟩)
  | _, _ =>
  match env.NewUuid sdkAutoScalingGroup.Id with
  | .error err => .error (.wrapped (wrapError "convertAutoScalingGroup" err))
  | .ok autoScalingGroupId =>
  match env.NewAutoScalingGroupType sdkAutoScalingGroup.Type_ with
  | .error err => .error (.wrapped (wrapError "convertAutoScalingGroup" err))
  | .ok autoScalingGroupType =>
  match env.NewAutoScalingGroupState sdkAutoScalingGroup.State with
  | .error err => .error (.wrapped (wrapError "convertAutoScalingGroup" err))
  | .ok state =>
  match env.NewAutoScalingGroupReference sdkAutoScalingGroup.Reference with
  | .error err => .error (.wrapped (wrapError "convertAutoScalingGroup" err))
  | .ok reference =>
    let options : AutoScalingGroupOptions :=
      { DesiredAmount := convertNullableInt32ToValue sdkAutoScalingGroup.DesiredAmount
        MinimumAmount := convertNullableInt32ToValue sdkAutoScalingGroup.MinimumAmount
        MaximumAmount := convertNullableInt32ToValue sdkAutoScalingGroup.MaximumAmount
        CpuThreshold := convertNullableInt32ToValue sdkAutoScalingGroup.CpuThreshold
        CoolDownTime := convertNullableInt32ToValue sdkAutoScalingGroup.CooldownTime
        StartsAt := convertNullableTimeToValue sdkAutoScalingGroup.StartsAt
        EndsAt := convertNullableTimeToValue sdkAutoScalingGroup.EndsAt
        WarmupTime := convertNullableInt32ToValue sdkAutoScalingGroup.WarmupTime
        LoadBalancer := loadBalancer }
    .ok (NewAutoScalingGroup autoScalingGroupId autoScalingGroupType state
      sdkAutoScalingGroup.Region reference sdkAutoScalingGroup.CreatedAt
      sdkAutoScalingGroup.UpdatedAt options)

/-- Parsers that accept every value, for evaluating `convertAutoScalingGroup`. -/
def sampleAutoScalingGroupParsers : AutoScalingGroupParsers :=
  { NewUuid := fun v => .ok ⟨v⟩
    NewAutoScalingGroupType := fun v => .ok v
    NewAutoScalingGroupState := fun v => .ok v
    NewAutoScalingGroupReference := fun v => .ok ⟨v⟩ }

/-- Parsers that refuse every value. -/
def refusingAutoScalingGroupParsers : AutoScalingGroupParsers :=
  { NewUuid := fun _ => .error ⟨"invalid uuid"⟩
    NewAutoScalingGroupType := fun _ => .error ⟨"invalid type"⟩
    NewAutoScalingGroupState := fun _ => .error ⟨"invalid state"⟩
    NewAutoScalingGroupReference := fun _ => .error ⟨"invalid reference"⟩ }

/-- An SDK auto scaling group that references the load balancer `lb-1`. -/
def sampleSdkAutoScalingGroup : SdkAutoScalingGroupDetails :=
  { Id := "90b9f2cc", Type_ := "CPU_BASED", State := "ACTIVE", Reference := "web",
    Region := "eu-west-3", CreatedAt := ⟨1⟩, UpdatedAt := ⟨2⟩, DesiredAmount := some 3,
    MinimumAmount := some 1, MaximumAmount := none, CpuThreshold := some 80,
    CooldownTime := none, WarmupTime := some 0, StartsAt := none, EndsAt := some ⟨9⟩,
    LoadBalancer := some ⟨"lb-1"⟩ }

/-! ## `load_balancer_resource.go`: the `contract` schema and the launch options -/

/-- Validation of a configured `contract` against the `contract` attribute of
`loadBalancerResource.Schema`: `billing_frequency`, `term` and `type` are
`Required` and each has one `OneOf` validator; for `billing_frequency` the list
is `0` prepended to the SDK table ("0 has to be prepended manually as it's a
valid option"). -/
def validateLoadBalancerContractAttribute (sdk : SdkEnums) (c : ContractConfig) :
    Diagnostics :=
  requiredInt32 "contract.billing_frequency" c.billing_frequency ++
  int32validatorOneOf ([0] ++ sdk.AllowedBillingFrequencyEnumValues)
    "contract.billing_frequency" c.billing_frequency ++
  requiredInt32 "contract.term" c.term ++
  int32validatorOneOf sdk.AllowedContractTermEnumValues "contract.term" c.term ++
  requiredString "contract.type" c.type ++
  stringvalidatorOneOf sdk.AllowedContractTypeEnumValues "contract.type" c.type

/-- An SDK enum parser `New...FromValue` over its table `Allowed...EnumValues`:
a listed value is returned, any other value is an error (the text of the error
is a stand-in). -/
def enumFromValue {α : Type} [BEq α] (name : String) (allowed : List α) (v : α) :
    Except GoError α :=
  if allowed.contains v then .ok v else .error ⟨"invalid value for " ++ name⟩

/-- The environment `sampleLoadBalancerEnv` with the three contract parsers of
the SDK reading the enum tables `sdk`. -/
def tableLoadBalancerEnv (sdk : SdkEnums) (model : loadBalancerResourceModel)
    (details : LoadBalancerDetails) (adapted : Except GoError TfContractObject) :
    LoadBalancerEnv :=
  { sampleLoadBalancerEnv model details adapted with
    NewContractTypeFromValue := enumFromValue "ContractType" sdk.AllowedContractTypeEnumValues
    NewContractTermFromValue := enumFromValue "ContractTerm" sdk.AllowedContractTermEnumValues
    NewBillingFrequencyFromValue :=
      enumFromValue "BillingFrequency" sdk.AllowedBillingFrequencyEnumValues }

/-- A load balancer plan with an hourly contract of term 0 that is billed with
frequency 0. -/
def hourlyLoadBalancerPlan : loadBalancerResourceModel :=
  { ID := .unknown, Region := .value "eu-west-3", Type_ := .value "lsw.m3.large",
    Reference := .null,
    Contract := .value ⟨.value 0, .value 0, .value "HOURLY", .unknown, .unknown⟩ }

/-! ## The schemas of the two credential resources -/

/-- A `schema.StringAttribute` of a credential resource: its key in the
`Attributes` map, its `Required` and `Sensitive` flags (a flag that the literal
does not set is `false`, the Go zero value) and whether its plan modifiers hold
`stringplanmodifier.RequiresReplace()`. Descriptions and validators are left
out. -/
structure CredentialAttribute where
  name : String
  Required : Bool
  Sensitive : Bool
  RequiresReplace : Bool
  deriving DecidableEq, Repr

/-- The framework method `IsSensitive` of an attribute. -/
def CredentialAttribute.IsSensitive (a : CredentialAttribute) : Bool :=
  a.Sensitive

/-- The attributes of `credentialResource.Schema` in package `dedicatedserver`. -/
def dedicatedserver.credentialSchema : List CredentialAttribute :=
  [ { name := "dedicated_server_id", Required := true, Sensitive := false,
      RequiresReplace := true },
    { name := "username", Required := true, Sensitive := false, RequiresReplace := true },
    { name := "type", Required := true, Sensitive := false, RequiresReplace := true },
    { name := "password", Required := true, Sensitive := false, RequiresReplace := false } ]

/-- The attributes of `credentialResource.Schema` in package `publiccloud`. -/
def publiccloud.credentialSchema : List CredentialAttribute :=
  [ { name := "instance_id", Required := true, Sensitive := false, RequiresReplace := true },
    { name := "username", Required := true, Sensitive := false, RequiresReplace := true },
    { name := "type", Required := true, Sensitive := false, RequiresReplace := true },
    { name := "password", Required := true, Sensitive := true, RequiresReplace := false } ]

/-- Lookup in the `Attributes` map of a credential schema. -/
def credentialAttribute (attributes : List CredentialAttribute) (name : String) :
    Option CredentialAttribute :=
  attributes.find? (fun a => a.name == name)

/-! ## `instance_resource.go`: `Create` and `TogglePrivateNetwork` -/

/-- A framework `types.Bool`: null, unknown or a known boolean. -/
inductive TfBool where
  | null
  | unknown
  | value (b : Bool)
  deriving DecidableEq, Repr

/-- The method `types.Bool.ValueBool`: the known boolean, or `false` for null
and unknown. -/
def TfBool.ValueBool : TfBool → Bool
  | .value b => b
  | _ => false

/-- The method `types.Bool.IsUnknown`. -/
def TfBool.IsUnknown : TfBool → Bool
  | .unknown => true
  | _ => false

/-- The fields of the struct `instanceResourceModel` that `Create` and
`TogglePrivateNetwork` read. The object `Image` is decoded by `As`, which is
part of the environment. -/
structure instanceResourceModel where
  ID : TfString
  Region : TfString
  Reference : TfString
  Type_ : TfString
  RootDiskSize : TfInt32
  RootDiskStorageType : TfString
  Contract : TfContractObject
  MarketAppID : TfString
  HasPrivateNetwork : TfBool
  deriving DecidableEq, Repr

/-- The SDK struct `publiccloud.Instance` that `LaunchInstance` returns; `Create`
reads its id. -/
structure LaunchedInstance where
  Id : String
  deriving DecidableEq, Repr

/-- The SDK getter `(*Instance).GetId`, which answers the zero value on a nil
receiver. -/
def LaunchedInstance.GetId : Option LaunchedInstance → String
  | some inst => inst.Id
  | none => ""

/-- The three results of `LaunchInstance(ctx).LaunchInstanceOpts(opts).Execute()`. -/
structure LaunchInstanceResponse where
  inst : Option LaunchedInstance
  httpResponse : Option HttpResponse
  err : Option GoError
  deriving DecidableEq, Repr

/-- A call the instance resource makes to the outside: a call of the SDK, an
event of the polling loop (a `GetInstance` call or a sleep), or `State.Set` of
the framework. -/
inductive ApiCall where
  | LaunchInstance (opts : LaunchInstanceOpts)
  | AddToPrivateNetwork (instanceId : String)
  | RemoveFromPrivateNetwork (instanceId : String)
  | event (e : Event)
  | StateSet (state : Option instanceResourceModel)
  deriving DecidableEq, Repr

/-- What `Create` and `TogglePrivateNetwork` use but do not define: the decoding
of the plan by the framework, the helpers of `utils`, the calls of the SDK
(`GetInstance n` is the answer to the `GetInstance` call number `n`), the SDK
constant `STATE_RUNNING`, the adapter `adaptInstanceDetailsToInstanceResource`
(it reads fields of the details that nothing else here reads and calls helpers
of `utils` whose sources are absent; it returns the state and the diagnostics it
leaves), and `State.Set` of the framework. -/
structure InstanceEnv where
  /-- The decoding `req.Plan.Get(ctx, &plan)`. -/
  PlanGet : Diagnostics × instanceResourceModel
  /-- The decoding `plan.Image.As(ctx, &image, ...)` with the `image.ID` it fills. -/
  ImageAs : Option Diagnostics × TfString
  /-- The decoding `plan.Contract.As(ctx, &contract, ...)`. -/
  ContractAs : TfContractObject → Option Diagnostics × contractResourceModel
  /-- The helper `utils.AdaptStringPointerValueToNullableString`. -/
  AdaptStringPointerValueToNullableString : TfString → Option String
  /-- The helper `utils.AdaptInt32PointerValueToNullableInt32`. -/
  AdaptInt32PointerValueToNullableInt32 : TfInt32 → Option Int
  /-- The SDK constant `publiccloud.STATE_RUNNING`. -/
  STATE_RUNNING : String
  /-- The SDK call `LaunchInstance(ctx).LaunchInstanceOpts(opts).Execute()`. -/
  LaunchInstance : LaunchInstanceOpts → LaunchInstanceResponse
  /-- The SDK call `GetInstance(ctx, id).Execute()`, by call number. -/
  GetInstance : Nat → InstanceResponse
  /-- The SDK call `AddToPrivateNetwork(ctx, id).Execute()`. -/
  AddToPrivateNetwork : String → Option HttpResponse × Option GoError
  /-- The SDK call `RemoveFromPrivateNetwork(ctx, id).Execute()`. -/
  RemoveFromPrivateNetwork : String → Option HttpResponse × Option GoError
  /-- The function `adaptInstanceDetailsToInstanceResource`. -/
  adaptInstanceDetailsToInstanceResource :
    InstanceDetails → Diagnostics → Option instanceResourceModel × Diagnostics
  /-- The framework method `resp.State.Set(ctx, state)`. -/
  StateSet : Option instanceResourceModel → Diagnostics

/-- How `TogglePrivateNetwork` ends: it returns its two results, leaving the
instance details its pointer argument points to, or it panics on the nil
pointer `updated`. `calls` are the calls it has made. -/
inductive ToggleOutcome where
  | returned (res : Option HttpResponse) (err : Option GoError)
      (instanceDetails : InstanceDetails) (calls : List ApiCall)
  | panicked (calls : List ApiCall)
  deriving DecidableEq, Repr

/-- The calls made up to the end of `TogglePrivateNetwork`. -/
def ToggleOutcome.calls : ToggleOutcome → List ApiCall
  | .returned _ _ _ calls => calls
  | .panicked calls => calls

/-- The method `instanceResource.TogglePrivateNetwork`; `fuel` bounds the
iterations of each polling loop, `none` when it runs out. The first `if` block
either ends the method or leaves the details, the calls made and the number of
`GetInstance` calls among them to the second `if` block. -/
def instanceResource.TogglePrivateNetwork (fuel : Nat) (env : InstanceEnv)
    (plan : instanceResourceModel) (instanceDetails : InstanceDetails) :
    Option ToggleOutcome :=
  let afterAdd : Option (ToggleOutcome ⊕ (InstanceDetails × List ApiCall × Nat)) :=
    if plan.HasPrivateNetwork.ValueBool && !instanceDetails.hasPrivateNetwork then
      let calls := [ApiCall.AddToPrivateNetwork instanceDetails.id]
      match env.AddToPrivateNetwork instanceDetails.id with
      | (res, some err) => some (.inl (.returned res (some err) instanceDetails calls))
      | (_, none) =>
        match waitUntilPropertyValueEquals fuel env.GetInstance instanceDetails.id
            "has_private_network" (.bool true) with
        | none => none
        | some out =>
          let calls := calls ++ out.world.trace.map ApiCall.event
          match out.result.err with
          | some err =>
            some (.inl (.returned out.result.httpResponse (some err) instanceDetails calls))
          | none =>
            match out.result.details with
            | none => some (.inl (.panicked calls))
            | some updated => some (.inr (updated, calls, out.world.calls))
    else some (.inr (instanceDetails, [], 0))
  match afterAdd with
  | none => none
  | some (.inl outcome) => some outcome
  | some (.inr (instanceDetails, calls, made)) =>
    if !plan.HasPrivateNetwork.ValueBool && instanceDetails.hasPrivateNetwork then
      let calls := calls ++ [ApiCall.RemoveFromPrivateNetwork instanceDetails.id]
      match env.RemoveFromPrivateNetwork instanceDetails.id with
      | (res, some err) => some (.returned res (some err) instanceDetails calls)
      | (_, none) =>
        match waitUntilPropertyValueEquals fuel (fun n => env.GetInstance (n + made))
            instanceDetails.id "has_private_network" (.bool false) with
        | none => none
        | some out =>
          let calls := calls ++ out.world.trace.map ApiCall.event
          match out.result.err with
          | some err =>
            some (.returned out.result.httpResponse (some err) instanceDetails calls)
          | none =>
            match out.result.details with
            | none => some (.panicked calls)
            | some updated => some (.returned none none updated calls)
    else some (.returned none none instanceDetails calls)

/-- How `Create` ends: it returns, leaving the diagnostics of the response, or
it panics on a nil pointer. `calls` are the calls it has made, `State.Set`
included. -/
inductive CreateOutcome where
  | returned (diagnostics : Diagnostics) (calls : List ApiCall)
  | panicked (calls : List ApiCall)
  deriving DecidableEq, Repr

/-- The calls made up to the end of `Create`. -/
def CreateOutcome.calls : CreateOutcome → List ApiCall
  | .returned _ calls => calls
  | .panicked calls => calls

/-- The end of `Create`, from `adaptInstanceDetailsToInstanceResource` on. -/
def instanceResource.Create.writeState (env : InstanceEnv) (instanceDetails : InstanceDetails)
    (diagnostics : Diagnostics) (calls : List ApiCall) : CreateOutcome :=
  match env.adaptInstanceDetailsToInstanceResource instanceDetails diagnostics with
  | (state, diagnostics) =>
    if diagnostics.HasError then .returned diagnostics calls
    else .returned (diagnostics.Append (env.StateSet state)) (calls ++ [ApiCall.StateSet state])

/-- The part of `Create` from the call of `LaunchInstance` on, with the plan
decoded and the launch options `opts` built. -/
def instanceResource.Create.launch (fuel : Nat) (env : InstanceEnv)
    (diagnostics : Diagnostics) (plan : instanceResourceModel) (opts : LaunchInstanceOpts) :
    Option CreateOutcome :=
  let launched := env.LaunchInstance opts
  let calls := [ApiCall.LaunchInstance opts]
  match launched.err with
  | some err => some (.returned (SdkError diagnostics err launched.httpResponse) calls)
  | none =>
  if !plan.HasPrivateNetwork.IsUnknown && plan.HasPrivateNetwork.ValueBool then
    match waitUntilPropertyValueEquals fuel env.GetInstance
        (LaunchedInstance.GetId launched.inst) "state" (.string env.STATE_RUNNING) with
    | none => none
    | some running =>
      let calls := calls ++ running.world.trace.map ApiCall.event
      match running.result.err with
      | some err =>
        some (.returned (SdkError diagnostics err running.result.httpResponse) calls)
      | none =>
        match running.result.details with
        | none => some (.panicked calls)
        | some instanceDetails =>
          let calls := calls ++ [ApiCall.AddToPrivateNetwork instanceDetails.id]
          match env.AddToPrivateNetwork instanceDetails.id with
          | (res, some err) => some (.returned (SdkError diagnostics err res) calls)
          | (_, none) =>
            match waitUntilPropertyValueEquals fuel
                (fun n => env.GetInstance (n + running.world.calls)) instanceDetails.id
                "has_private_network" (.bool true) with
            | none => none
            | some attached =>
              let calls := calls ++ attached.world.trace.map ApiCall.event
              match attached.result.err with
              | some err =>
                some (.returned (SdkError diagnostics err attached.result.httpResponse) calls)
              | none =>
                match attached.result.details with
                | none => some (.panicked calls)
                | some instanceDetails =>
                  some (instanceResource.Create.writeState env instanceDetails diagnostics
                    calls)
  else
    match launched.inst with
    | none => some (.panicked calls)
    | some inst =>
      let response := env.GetInstance 0
      let calls := calls ++ [ApiCall.event (Event.getInstance inst.Id)]
      match response.err with
      | some err => some (.returned (SdkError diagnostics err response.httpResponse) calls)
      | none =>
        match response.details with
        | none => some (.panicked calls)
        | some instanceDetails =>
          some (instanceResource.Create.writeState env instanceDetails diagnostics calls)

/-- The launch options `Create` builds from the decoded plan, image id and
contract. -/
def instanceResource.Create.opts (env : InstanceEnv) (plan : instanceResourceModel)
    (imageID : TfString) (contract : contractResourceModel) : LaunchInstanceOpts :=
  { Region := plan.Region.ValueString, Type_ := plan.Type_.ValueString,
    ImageId := imageID.ValueString, ContractType := contract.Type_.ValueString,
    ContractTerm := contract.Term.ValueInt32,
    BillingFrequency := contract.BillingFrequency.ValueInt32,
    RootDiskStorageType := plan.RootDiskStorageType.ValueString,
    MarketAppId := env.AdaptStringPointerValueToNullableString plan.MarketAppID,
    Reference := env.AdaptStringPointerValueToNullableString plan.Reference,
    SshKey := none,
    RootDiskSize := env.AdaptInt32PointerValueToNullableInt32 plan.RootDiskSize }

/-- The method `instanceResource.Create`; `diagnostics` are the diagnostics of
the response on entry, `fuel` bounds the iterations of each polling loop, `none`
when it runs out. -/
def instanceResource.Create (fuel : Nat) (env : InstanceEnv) (diagnostics : Diagnostics) :
    Option CreateOutcome :=
  let plan := env.PlanGet.2
  let diagnostics := diagnostics.Append env.PlanGet.1
  if diagnostics.HasError then some (.returned diagnostics [])
  else
  match env.ImageAs with
  | (some imageDiags, _) => some (.returned (diagnostics.Append imageDiags) [])
  | (none, imageID) =>
  match env.ContractAs plan.Contract with
  | (some contractDiags, _) => some (.returned (diagnostics.Append contractDiags) [])
  | (none, contract) =>
    instanceResource.Create.launch fuel env diagnostics plan
      (instanceResource.Create.opts env plan imageID contract)

/-- Whether a call is `AddToPrivateNetwork`. -/
def ApiCall.isAddToPrivateNetwork : ApiCall → Bool
  | .AddToPrivateNetwork _ => true
  | _ => false

/-- Whether a call is `RemoveFromPrivateNetwork`. -/
def ApiCall.isRemoveFromPrivateNetwork : ApiCall → Bool
  | .RemoveFromPrivateNetwork _ => true
  | _ => false

/-- Whether a call is `State.Set`. -/
def ApiCall.isStateSet : ApiCall → Bool
  | .StateSet _ => true
  | _ => false

/-- A concrete environment for evaluating `Create` and `TogglePrivateNetwork`:
the plan decodes to `plan`, the launch answers the instance `ace712e9`, the
`GetInstance` call number `n` answers `getInstance n`, and adding to or removing
from the private network succeeds. -/
def sampleInstanceEnv (plan : instanceResourceModel) (getInstance : Nat → InstanceResponse) :
    InstanceEnv :=
  { PlanGet := ([], plan)
    ImageAs := (none, .value "UBUNTU_22_04_64BIT")
    ContractAs := fun o =>
      match o with
      | .value c => (none, c)
      | _ => (none, ⟨.null, .null, .null, .null, .null⟩)
    AdaptStringPointerValueToNullableString := sampleAdaptString
    AdaptInt32PointerValueToNullableInt32 := sampleAdaptInt32
    STATE_RUNNING := "RUNNING"
    LaunchInstance := fun _ => ⟨some ⟨"ace712e9"⟩, some ⟨200⟩, none⟩
    GetInstance := getInstance
    AddToPrivateNetwork := fun _ => (some ⟨204⟩, none)
    RemoveFromPrivateNetwork := fun _ => (some ⟨204⟩, none)
    adaptInstanceDetailsToInstanceResource := fun details diagnostics =>
      (some { ID := .value details.id, Region := .null, Reference := .null, Type_ := .null,
              RootDiskSize := .null, RootDiskStorageType := .null, Contract := .null,
              MarketAppID := .null, HasPrivateNetwork := .value details.hasPrivateNetwork },
        diagnostics)
    StateSet := fun _ => [] }

/-- A plan for an instance with or without a private network. -/
def samplePlan (hasPrivateNetwork : TfBool) : instanceResourceModel :=
  { ID := .unknown, Region := .value "eu-west-3", Reference := .null,
    Type_ := .value "lsw.m3.large", RootDiskSize := .null,
    RootDiskStorageType := .value "CENTRAL",
    Contract := .value ⟨.value 1, .value 0, .value "HOURLY", .unknown, .unknown⟩,
    MarketAppID := .null, HasPrivateNetwork := hasPrivateNetwork }

/-- Answers of `GetInstance` for an instance that is starting at the first call,
running from the second call on, and in the private network from the fourth
call on. -/
def sampleGetInstance (n : Nat) : InstanceResponse :=
  ⟨some ⟨"ace712e9", if n = 0 then "STARTING" else "RUNNING", decide (3 ≤ n)⟩, some ⟨200⟩,
    none⟩

/-! ## `load_balancers_data_source.go`: the goroutines of `Read` -/

/-- Where one of the goroutines `go func(id string) { ... }(loadBalancer.Id)`
stands: it is executing `GetLoadBalancer(ctx, id)`, it is blocked in its send of
`a` on `resultChan` or `errorChan` (both channels are unbuffered, so the send
lasts until the collection loop receives the value), or it has returned. -/
inductive Goroutine where
  | fetching (id : String)
  | sending (a : Arrival)
  | done
  deriving DecidableEq, Repr

/-- Where the goroutine of `Read` stands during and after the collection loop:
in the `select` of iteration `i` with the details appended so far, returned from
the `errorChan` case, or past the loop with all details. -/
inductive Collector where
  | collecting (i : Nat) (loadBalancerDetailsList : List LoadBalancerDetails)
  | failed (err : loadBalancerDetailsErr)
  | collected (loadBalancerDetailsList : List LoadBalancerDetails)
  deriving DecidableEq, Repr

/-- The goroutines started by `Read`, one per listed load balancer, and `Read`
itself. -/
structure FanOut where
  goroutines : List Goroutine
  collector : Collector
  deriving DecidableEq, Repr

/-- A step the Go scheduler can take: the goroutine `j` gets the answer of
`GetLoadBalancer`, the `select` of the collection loop receives the value the
goroutine `j` is sending, or the collection loop ends because `i` has reached
`len(loadBalancers)`. -/
inductive Action where
  | fetch (j : Nat)
  | receive (j : Nat)
  | exitLoop
  deriving DecidableEq, Repr

/-- The value a goroutine sends once `GetLoadBalancer` has answered: the error
with its HTTP response on `errorChan`, or the details on `resultChan`. -/
def Goroutine.send : LoadBalancerResponse → Arrival
  | .failed httpResponse err => .error ⟨err, httpResponse⟩
  | .ok loadBalancerDetails _ => .result loadBalancerDetails

/-- The state after the `for _, loadBalancer := range loadBalancers { go ... }`
loop: every goroutine is started, the collection loop is at `i := 0`. -/
def FanOut.start (loadBalancers : List SdkLoadBalancer) : FanOut :=
  { goroutines := loadBalancers.map (fun loadBalancer => .fetching loadBalancer.Id)
    collector := .collecting 0 [] }

/-- One step of the goroutines and the collection loop; `none` when the step is
not possible in the state. `GetLoadBalancer id` is what the SDK answers to
`GetLoadBalancer(ctx, id).Execute()`. -/
def FanOut.step (GetLoadBalancer : String → LoadBalancerResponse) (s : FanOut) :
    Action → Option FanOut
  | .fetch j =>
    match s.goroutines[j]? with
    | some (.fetching id) =>
      some { s with
        goroutines := s.goroutines.set j (.sending (Goroutine.send (GetLoadBalancer id))) }
    | _ => none
  | .receive j =>
    match s.collector, s.goroutines[j]? with
    | .collecting i loadBalancerDetailsList, some (.sending a) =>
      if i < s.goroutines.length then
        some { goroutines := s.goroutines.set j .done
               collector :=
                 match a with
                 | .error err => .failed err
                 | .result res => .collecting (i + 1) (loadBalancerDetailsList ++ [res]) }
      else none
    | _, _ => none
  | .exitLoop =>
    match s.collector with
    | .collecting i loadBalancerDetailsList =>
      if i < s.goroutines.length then none
      else some { s with collector := .collected loadBalancerDetailsList }
    | _ => none

/-- The steps of a schedule one after the other; `none` when one of them is not
possible. -/
def FanOut.run (GetLoadBalancer : String → LoadBalancerResponse) :
    FanOut → List Action → Option FanOut
  | s, [] => some s
  | s, a :: schedule =>
    match s.step GetLoadBalancer a with
    | none => none
    | some next => FanOut.run GetLoadBalancer next schedule

/-- The collection loop has been left, by the early return or at its end. -/
def Collector.left : Collector → Bool
  | .collecting _ _ => false
  | _ => true

/-- An SDK that answers `lb-2` with an error and every other id with details. -/
def sampleGetLoadBalancer (id : String) : LoadBalancerResponse :=
  if id = "lb-2" then .failed (some ⟨500⟩) ⟨"server error"⟩
  else .ok ⟨id, "eu-west-3", "lsw.m3.large", none, ⟨1, 0, "HOURLY", none, "ACTIVE"⟩,
    "ACTIVE", []⟩ (some ⟨200⟩)

/-- What holds of the goroutines and the collection loop throughout: there are
`n` goroutines; while the loop is in iteration `i`, `i` goroutines have returned
and `i` details are collected; past the loop all `n` have returned. -/
def FanOut.invariant (n : Nat) (s : FanOut) : Prop :=
  s.goroutines.length = n ∧
    match s.collector with
    | .collecting i loadBalancerDetailsList =>
      s.goroutines.count .done = i ∧ loadBalancerDetailsList.length = i
    | .collected loadBalancerDetailsList =>
      s.goroutines.count .done = n ∧ loadBalancerDetailsList.length = n
    | .failed _ => True

/-- No goroutine has met or will meet an error: those still fetching get
details from the SDK, those sending send details, and the collection loop has
not returned early. -/
def FanOut.errorFree (GetLoadBalancer : String → LoadBalancerResponse) (s : FanOut) : Prop :=
  (∀ g ∈ s.goroutines,
    match g with
    | .fetching id => ∃ details httpResponse, GetLoadBalancer id = .ok details httpResponse
    | .sending a => ∃ res, a = .result res
    | .done => True) ∧
  ∀ err, s.collector ≠ .failed err

/-- The steps the goroutines and the collection loop can still take, at most:
two for a goroutine that is fetching, one for a goroutine that is sending, one
for the collection loop to end. -/
def FanOut.stepsLeft (s : FanOut) : Nat :=
  (s.goroutines.map (fun g =>
    match g with
    | .fetching _ => 2
    | .sending _ => 1
    | .done => 0)).sum +
  (if s.collector.left then 0 else 1)

/-! ## Properties of the polling loop -/

/-- An iteration that sees a miss before the retry budget is used up sleeps for
the back-off interval and goes round again. -/
theorem pollStep_of_miss (api : Nat → InstanceResponse) (instanceId propertyName : String)
    (expectedValue : AnyValue) (st : PollState) (hlt : st.retryCount < maxRetries)
    (hmiss : missesExpected propertyName expectedValue (api st.world.calls) = true) :
    pollStep api instanceId propertyName expectedValue st =
      .inl ⟨st.retryCount + 1, ⟨st.world.calls + 1,
        st.world.trace ++ [Event.getInstance instanceId, Event.sleep (10 * Second)]⟩⟩ := by
  unfold missesExpected at hmiss
  rw [Bool.and_eq_true] at hmiss
  obtain ⟨herr, hval⟩ := hmiss
  have herr' : (api st.world.calls).err = none := by
    cases h : (api st.world.calls).err with
    | none => rfl
    | some e => rw [h] at herr; simp at herr
  unfold pollStep
  rw [if_neg (by omega)]
  simp only [herr']
  cases hc : currentValue propertyName (api st.world.calls).details with
  | none => rw [hc] at hval; simp at hval
  | some current =>
    rw [hc] at hval
    have hne : current.goEq expectedValue = false := by simpa using hval
    simp [hne, bo, NewConstantBackOff, ConstantBackOff.NextBackOff]

/-- The loop invariant: `j` misses in a row, within the retry budget, take the
loop from its state to the state `j` rounds later, using `j` units of fuel. -/
theorem pollLoop_rounds (api : Nat → InstanceResponse) (instanceId propertyName : String)
    (expectedValue : AnyValue) (fuel : Nat) :
    ∀ (j : Nat) (st : PollState), st.retryCount + j ≤ maxRetries →
      (∀ i, i < j →
        missesExpected propertyName expectedValue (api (st.world.calls + i)) = true) →
      pollLoop api instanceId propertyName expectedValue (fuel + j) st =
        pollLoop api instanceId propertyName expectedValue fuel
          ⟨st.retryCount + j, ⟨st.world.calls + j,
            st.world.trace ++ roundsTrace instanceId j⟩⟩ := by
  intro j
  induction j generalizing fuel with
  | zero =>
    intro st _ _
    simp [roundsTrace]
  | succ j ih =>
    intro st hle hmiss
    have h1 : fuel + (j + 1) = (fuel + 1) + j := by omega
    rw [h1, ih (fuel + 1) st (by omega) (fun i hi => hmiss i (by omega))]
    have hstep := pollStep_of_miss api instanceId propertyName expectedValue
      ⟨st.retryCount + j, ⟨st.world.calls + j, st.world.trace ++ roundsTrace instanceId j⟩⟩
      (by simp only; omega) (hmiss j (by omega))
    simp only [pollLoop, hstep, roundsTrace, List.append_assoc, Nat.add_assoc]

/-- The rounds trace holds one call per round. -/
theorem totalSleep_append (xs ys : List Event) :
    totalSleep (xs ++ ys) = totalSleep xs + totalSleep ys := by
  induction xs with
  | nil => simp [totalSleep]
  | cons x xs ih =>
    cases x with
    | getInstance id => simp [totalSleep, ih]
    | sleep d => simp [totalSleep, ih, Nat.add_assoc]

/-- Each round of the rounds trace sleeps ten seconds. -/
theorem totalSleep_roundsTrace (instanceId : String) (n : Nat) :
    totalSleep (roundsTrace instanceId n) = n * (10 * Second) := by
  induction n with
  | zero => simp [roundsTrace, totalSleep]
  | succ n ih =>
    simp only [roundsTrace, totalSleep_append, ih, totalSleep]
    ring

/-- More fuel never changes a result the loop has already produced. -/
theorem pollLoop_fuel_mono (api : Nat → InstanceResponse) (instanceId propertyName : String)
    (expectedValue : AnyValue) :
    ∀ (fuel fuel' : Nat) (st : PollState) (out : PollOutcome), fuel ≤ fuel' →
      pollLoop api instanceId propertyName expectedValue fuel st = some out →
      pollLoop api instanceId propertyName expectedValue fuel' st = some out := by
  intro fuel
  induction fuel with
  | zero => intro fuel' st out _ h; simp [pollLoop] at h
  | succ fuel ih =>
    intro fuel' st out hle h
    obtain ⟨f, rfl⟩ : ∃ f, fuel' = f + 1 := ⟨fuel' - 1, by omega⟩
    simp only [pollLoop] at h ⊢
    cases hs : pollStep api instanceId propertyName expectedValue st with
    | inr o => rw [hs] at h; simpa using h
    | inl next =>
      rw [hs] at h
      exact ih f next out (by omega) h

/-- An iteration that does not return increases `retryCount` by one. -/
theorem pollStep_inl_retryCount (api : Nat → InstanceResponse)
    (instanceId propertyName : String) (expectedValue : AnyValue) (st next : PollState)
    (h : pollStep api instanceId propertyName expectedValue st = .inl next) :
    next.retryCount = st.retryCount + 1 ∧ st.retryCount < maxRetries := by
  unfold pollStep at h
  split at h
  · cases h
  · rename_i hlt
    simp only at h
    split at h
    · cases h
    · split at h
      · cases h
      · split at h
        · cases h
        · cases h
          exact ⟨rfl, by omega⟩

/-- Termination of the loop: from a state with `retryCount ≤ maxRetries`, fuel
`maxRetries - retryCount + 1` is enough for the loop to return. -/
theorem pollLoop_returns (api : Nat → InstanceResponse) (instanceId propertyName : String)
    (expectedValue : AnyValue) :
    ∀ (n : Nat) (st : PollState), maxRetries - st.retryCount ≤ n →
      ∃ out, pollLoop api instanceId propertyName expectedValue (n + 1) st = some out := by
  intro n
  induction n with
  | zero =>
    intro st hn
    have hge : st.retryCount ≥ maxRetries := by omega
    refine ⟨⟨⟨none, none, some timeoutError⟩, st.world⟩, ?_⟩
    simp [pollLoop, pollStep, hge]
  | succ n ih =>
    intro st hn
    cases hs : pollStep api instanceId propertyName expectedValue st with
    | inr o => exact ⟨o, by simp [pollLoop, hs]⟩
    | inl next =>
      obtain ⟨hrc, hlt⟩ :=
        pollStep_inl_retryCount api instanceId propertyName expectedValue st next hs
      obtain ⟨out, hout⟩ := ih next (by omega)
      exact ⟨out, by rw [pollLoop, hs]; exact hout⟩

/-- Totality of `waitUntilPropertyValueEquals`: whatever the SDK answers, the
function returns within `maxRetries + 1` iterations. -/
theorem waitUntilPropertyValueEquals_returns (api : Nat → InstanceResponse)
    (instanceId propertyName : String) (expectedValue : AnyValue) (fuel : Nat)
    (hfuel : maxRetries < fuel) :
    ∃ out, waitUntilPropertyValueEquals fuel api instanceId propertyName expectedValue =
      some out := by
  obtain ⟨out, hout⟩ := pollLoop_returns api instanceId propertyName expectedValue
    maxRetries ⟨0, ⟨0, []⟩⟩ (by simp)
  exact ⟨out, pollLoop_fuel_mono api instanceId propertyName expectedValue
    (maxRetries + 1) fuel _ out (by omega) hout⟩

/-- For a supported property name, a successful response that does not show
the expected value is a miss. -/
theorem missesExpected_of_not_shows (propertyName : String) (expectedValue : AnyValue)
    (r : InstanceResponse)
    (hname : propertyName = "state" ∨ propertyName = "has_private_network")
    (herr : r.err = none) (hshow : showsExpected propertyName expectedValue r = false) :
    missesExpected propertyName expectedValue r = true := by
  unfold missesExpected
  unfold showsExpected at hshow
  rcases hname with h | h <;> subst h <;>
    simp_all [currentValue]

/-- A response that shows the expected value names a supported property whose
value in the response is the expected one. -/
theorem showsExpected_iff (propertyName : String) (expectedValue : AnyValue)
    (r : InstanceResponse) :
    showsExpected propertyName expectedValue r = true ↔
      (propertyName = "state" ∧
        expectedValue = .string (InstanceDetails.getState r.details)) ∨
      (propertyName = "has_private_network" ∧
        expectedValue = .bool (InstanceDetails.getHasPrivateNetwork r.details)) := by
  have hne : ("state" : String) ≠ "has_private_network" := by decide
  unfold showsExpected currentValue
  by_cases h1 : propertyName = "has_private_network"
  · subst h1
    rw [if_pos rfl]
    cases expectedValue <;> simp [AnyValue.goEq, hne.symm]
    exact eq_comm
  · by_cases h2 : propertyName = "state"
    · subst h2
      rw [if_neg hne, if_pos rfl]
      cases expectedValue <;> simp [AnyValue.goEq, hne]
      exact eq_comm
    · simp [h1, h2]

/-- The iteration that meets a failing call returns its HTTP response and error. -/
theorem pollStep_of_error (api : Nat → InstanceResponse) (instanceId propertyName : String)
    (expectedValue : AnyValue) (st : PollState) (err : GoError)
    (hlt : st.retryCount < maxRetries) (hfail : (api st.world.calls).err = some err) :
    pollStep api instanceId propertyName expectedValue st =
      .inr ⟨⟨none, (api st.world.calls).httpResponse, some err⟩,
        ⟨st.world.calls + 1, st.world.trace ++ [Event.getInstance instanceId]⟩⟩ := by
  unfold pollStep
  rw [if_neg (by omega)]
  simp only [hfail]

/-- The iteration that meets a matching response returns that response. -/
theorem pollStep_of_match (api : Nat → InstanceResponse) (instanceId propertyName : String)
    (expectedValue : AnyValue) (st : PollState)
    (hlt : st.retryCount < maxRetries) (hok : (api st.world.calls).err = none)
    (hshow : showsExpected propertyName expectedValue (api st.world.calls) = true) :
    pollStep api instanceId propertyName expectedValue st =
      .inr ⟨⟨(api st.world.calls).details, (api st.world.calls).httpResponse, none⟩,
        ⟨st.world.calls + 1, st.world.trace ++ [Event.getInstance instanceId]⟩⟩ := by
  unfold showsExpected at hshow
  unfold pollStep
  rw [if_neg (by omega)]
  simp only [hok]
  cases hc : currentValue propertyName (api st.world.calls).details with
  | none => rw [hc] at hshow; simp at hshow
  | some current =>
    rw [hc] at hshow
    simp only at hshow
    simp [hshow]

/-- Whatever the loop returns with a nil error is the response of the call made
last, that call succeeded and showed the expected value. -/
theorem pollLoop_success_inv (api : Nat → InstanceResponse)
    (instanceId propertyName : String) (expectedValue : AnyValue) :
    ∀ (fuel : Nat) (st : PollState) (out : PollOutcome),
      pollLoop api instanceId propertyName expectedValue fuel st = some out →
      out.result.err = none →
      st.world.calls < out.world.calls ∧
        out.world.calls - st.world.calls + st.retryCount ≤ maxRetries ∧
        (api (out.world.calls - 1)).err = none ∧
        out.result.details = (api (out.world.calls - 1)).details ∧
        out.result.httpResponse = (api (out.world.calls - 1)).httpResponse ∧
        showsExpected propertyName expectedValue (api (out.world.calls - 1)) = true := by
  intro fuel
  induction fuel with
  | zero => intro st out h; simp [pollLoop] at h
  | succ fuel ih =>
    intro st out h hnil
    rw [pollLoop] at h
    cases hs : pollStep api instanceId propertyName expectedValue st with
    | inl next =>
      rw [hs] at h
      have hstep := hs
      unfold pollStep at hstep
      split at hstep
      · cases hstep
      · rename_i hlt
        simp only at hstep
        split at hstep
        · cases hstep
        · split at hstep
          · cases hstep
          · split at hstep
            · cases hstep
            · cases hstep
              have := ih _ out h hnil
              simp only at this
              refine ⟨by omega, by omega, this.2.2⟩
    | inr o =>
      rw [hs] at h
      simp only [Option.some.injEq] at h
      subst h
      unfold pollStep at hs
      split at hs
      · cases hs
        simp [timeoutError, errorsNew] at hnil
      · rename_i hlt
        simp only at hs
        split at hs
        · cases hs
          simp at hnil
        · rename_i herr
          split at hs
          · cases hs
            simp at hnil
          · rename_i current hcur
            split at hs
            · rename_i heq
              cases hs
              refine ⟨by simp, by simp; omega, by simpa using herr, by simp, by simp, ?_⟩
              simp [showsExpected, hcur, heq]
            · cases hs

/-- The rounds trace written out: `n` copies of a call followed by a
ten-second sleep. -/
theorem roundsTrace_eq_replicate (instanceId : String) (n : Nat) :
    roundsTrace instanceId n =
      (List.replicate n [Event.getInstance instanceId, Event.sleep (10 * Second)]).flatten := by
  induction n with
  | zero => simp [roundsTrace]
  | succ n ih =>
    rw [roundsTrace, ih, List.replicate_succ', List.flatten_append]
    simp

/-- The `default` case of the `switch`: for a property name other than the two
supported ones, the first successful call ends the loop with the error
"unsupported property name: ..." and nil results, so no second call is made. -/
theorem waitUntilPropertyValueEquals_unsupported (api : Nat → InstanceResponse)
    (instanceId propertyName : String) (expectedValue : AnyValue) (fuel : Nat)
    (hstate : propertyName ≠ "state") (hnet : propertyName ≠ "has_private_network")
    (hok : (api 0).err = none) :
    waitUntilPropertyValueEquals (fuel + 1) api instanceId propertyName expectedValue =
      some ⟨⟨none, none, some ⟨"unsupported property name: " ++ propertyName⟩⟩,
        ⟨1, [Event.getInstance instanceId]⟩⟩ := by
  simp [waitUntilPropertyValueEquals, pollLoop, pollStep, maxRetries, hok, currentValue,
    hstate, hnet, unsupportedPropertyError]

/-! ## The claims about `waitUntilPropertyValueEquals` -/

/-- C1: `waitUntilPropertyValueEquals` gives up after a 5-minute budget. For
`propertyName` one of `"state"` and `"has_private_network"` and SDK answers
whose first 30 all succeed without showing the expected value, the function
returns; it has then made exactly 30 `GetInstance` calls, each followed by a
sleep of 10 seconds (300 s = 5 minutes of sleep in all), and its results are
nil instance details, a nil HTTP response and the error
"timed out waiting for property to change after 5 minutes". -/
theorem waitUntilPropertyValueEquals_times_out (api : Nat → InstanceResponse)
    (instanceId propertyName : String) (expectedValue : AnyValue) (fuel : Nat)
    (hname : propertyName = "state" ∨ propertyName = "has_private_network")
    (hmiss : ∀ i, i < 30 →
      (api i).err = none ∧ showsExpected propertyName expectedValue (api i) = false)
    (hfuel : maxRetries < fuel) :
    ∃ out, waitUntilPropertyValueEquals fuel api instanceId propertyName expectedValue =
        some out ∧
      out.world.calls = 30 ∧
      out.world.trace = (List.replicate 30
        [Event.getInstance instanceId, Event.sleep (10 * Second)]).flatten ∧
      totalSleep out.world.trace = 300 * Second ∧
      totalSleep out.world.trace = 5 * Minute ∧
      out.result.details = none ∧
      out.result.httpResponse = none ∧
      out.result.err =
        some ⟨"timed out waiting for property to change after 5 minutes"⟩ := by
  have hrounds := pollLoop_rounds api instanceId propertyName expectedValue 1 30
    ⟨0, ⟨0, []⟩⟩ (by simp [maxRetries])
    (fun i hi => by
      simp only [Nat.zero_add]
      exact missesExpected_of_not_shows propertyName expectedValue (api i) hname
        (hmiss i hi).1 (hmiss i hi).2)
  have h31 : pollLoop api instanceId propertyName expectedValue 31 ⟨0, ⟨0, []⟩⟩ =
      some ⟨⟨none, none, some timeoutError⟩, ⟨30, roundsTrace instanceId 30⟩⟩ := by
    rw [show (31 : Nat) = 1 + 30 from rfl, hrounds]
    simp [pollLoop, pollStep, maxRetries]
  refine ⟨_, pollLoop_fuel_mono api instanceId propertyName expectedValue 31 fuel _ _
    (by simp only [maxRetries] at hfuel; omega) h31, rfl, ?_, ?_, ?_, rfl, rfl, rfl⟩
  · exact roundsTrace_eq_replicate instanceId 30
  · simp only [totalSleep_roundsTrace]
    ring
  · simp only [totalSleep_roundsTrace, Minute]
    ring

/-- C1 at a concrete input: an instance that stays `CREATING` while `RUNNING`
is awaited. -/
theorem waitUntilPropertyValueEquals_times_out_witness :
    ∃ out, waitUntilPropertyValueEquals 31
        (fun _ => ⟨some ⟨"ace712e9", "CREATING", false⟩, some ⟨200⟩, none⟩)
        "ace712e9" "state" (.string "RUNNING") = some out ∧
      out.world.calls = 30 ∧
      out.world.trace = (List.replicate 30
        [Event.getInstance "ace712e9", Event.sleep (10 * Second)]).flatten ∧
      totalSleep out.world.trace = 300 * Second ∧
      totalSleep out.world.trace = 5 * Minute ∧
      out.result.details = none ∧
      out.result.httpResponse = none ∧
      out.result.err =
        some ⟨"timed out waiting for property to change after 5 minutes"⟩ :=
  waitUntilPropertyValueEquals_times_out
    (fun _ => ⟨some ⟨"ace712e9", "CREATING", false⟩, some ⟨200⟩, none⟩)
    "ace712e9" "state" (.string "RUNNING") 31 (Or.inl rfl)
    (fun _ _ => ⟨rfl, by
      show showsExpected "state" (.string "RUNNING")
        ⟨some ⟨"ace712e9", "CREATING", false⟩, some ⟨200⟩, none⟩ = false
      decide⟩) (by decide)

/-- C2 (counterexample): the property name `reference`, `k = 2`. The first
answer succeeds and does not show the expected value, the second answer fails;
yet the function returns after one `GetInstance` call with the error
"unsupported property name: reference" and a nil HTTP response, not after two
calls with the error and HTTP response of the second call. -/
theorem waitUntilPropertyValueEquals_first_error_counterexample :
    ((fun n => if n < 1 then ⟨some ⟨"ace712e9", "RUNNING", false⟩, some ⟨200⟩, none⟩
        else ⟨none, some ⟨500⟩, some ⟨"server error"⟩⟩ : Nat → InstanceResponse) 0).err =
      none ∧
    showsExpected "reference" (.string "my webserver")
      ((fun n => if n < 1 then ⟨some ⟨"ace712e9", "RUNNING", false⟩, some ⟨200⟩, none⟩
        else ⟨none, some ⟨500⟩, some ⟨"server error"⟩⟩ : Nat → InstanceResponse) 0) =
      false ∧
    ((fun n => if n < 1 then ⟨some ⟨"ace712e9", "RUNNING", false⟩, some ⟨200⟩, none⟩
        else ⟨none, some ⟨500⟩, some ⟨"server error"⟩⟩ : Nat → InstanceResponse) 1).err =
      some ⟨"server error"⟩ ∧
    waitUntilPropertyValueEquals 31
        (fun n => if n < 1 then ⟨some ⟨"ace712e9", "RUNNING", false⟩, some ⟨200⟩, none⟩
          else ⟨none, some ⟨500⟩, some ⟨"server error"⟩⟩)
        "ace712e9" "reference" (.string "my webserver") =
      some ⟨⟨none, none, some ⟨"unsupported property name: reference"⟩⟩,
        ⟨1, [Event.getInstance "ace712e9"]⟩⟩ ∧
    waitUntilPropertyValueEquals 31
        (fun n => if n < 1 then ⟨some ⟨"ace712e9", "RUNNING", false⟩, some ⟨200⟩, none⟩
          else ⟨none, some ⟨500⟩, some ⟨"server error"⟩⟩)
        "ace712e9" "reference" (.string "my webserver") ≠
      some ⟨⟨none, some ⟨500⟩, some ⟨"server error"⟩⟩,
        ⟨2, [Event.getInstance "ace712e9", Event.sleep (10 * Second),
          Event.getInstance "ace712e9"]⟩⟩ := by
  have hrun : waitUntilPropertyValueEquals 31
      (fun n => if n < 1 then ⟨some ⟨"ace712e9", "RUNNING", false⟩, some ⟨200⟩, none⟩
        else ⟨none, some ⟨500⟩, some ⟨"server error"⟩⟩)
      "ace712e9" "reference" (.string "my webserver") =
      some ⟨⟨none, none, some ⟨"unsupported property name: reference"⟩⟩,
        ⟨1, [Event.getInstance "ace712e9"]⟩⟩ := by
    decide
  refine ⟨rfl, by decide, rfl, hrun, ?_⟩
  rw [hrun]
  decide

/-- C2 (amended): `waitUntilPropertyValueEquals` returns the first transport/API
error it meets when it polls a supported property. For every `k` with
`1 ≤ k ≤ 30`, if the property name is "state" or "has_private_network" (or
`k = 1`), the first `k - 1` answers succeed without showing the expected value
and the `k`-th answer fails, the function returns nil instance details together
with the HTTP response and the error of the `k`-th call, having made exactly `k`
`GetInstance` calls: the trace ends with the failing call, with no retry and no
sleep after it. -/
theorem waitUntilPropertyValueEquals_first_error (api : Nat → InstanceResponse)
    (instanceId propertyName : String) (expectedValue : AnyValue) (fuel k : Nat)
    (err : GoError) (hk1 : 1 ≤ k) (hk30 : k ≤ 30)
    (hname : k = 1 ∨ propertyName = "state" ∨ propertyName = "has_private_network")
    (hprev : ∀ i, i + 1 < k →
      (api i).err = none ∧ showsExpected propertyName expectedValue (api i) = false)
    (hfail : (api (k - 1)).err = some err)
    (hfuel : maxRetries < fuel) :
    waitUntilPropertyValueEquals fuel api instanceId propertyName expectedValue =
      some ⟨⟨none, (api (k - 1)).httpResponse, some err⟩,
        ⟨k, (List.replicate (k - 1)
              [Event.getInstance instanceId, Event.sleep (10 * Second)]).flatten ++
            [Event.getInstance instanceId]⟩⟩ := by
  have hmiss : ∀ i, i + 1 < k → missesExpected propertyName expectedValue (api i) = true := by
    intro i hi
    have hsupported : propertyName = "state" ∨ propertyName = "has_private_network" := by
      rcases hname with h1 | h
      · omega
      · exact h
    exact missesExpected_of_not_shows propertyName expectedValue (api i) hsupported
      (hprev i hi).1 (hprev i hi).2
  obtain ⟨j, rfl⟩ : ∃ j, k = j + 1 := ⟨k - 1, by omega⟩
  simp only [Nat.add_sub_cancel] at hfail ⊢
  have hrounds := pollLoop_rounds api instanceId propertyName expectedValue 1 j
    ⟨0, ⟨0, []⟩⟩ (by simp only [maxRetries]; omega)
    (fun i hi => by
      simp only [Nat.zero_add]
      exact hmiss i (by omega))
  have hstep := pollStep_of_error api instanceId propertyName expectedValue
    ⟨0 + j, ⟨0 + j, [] ++ roundsTrace instanceId j⟩⟩ err
    (by simp only [maxRetries]; omega) (by simpa using hfail)
  have hrun : pollLoop api instanceId propertyName expectedValue (1 + j) ⟨0, ⟨0, []⟩⟩ =
      some ⟨⟨none, (api j).httpResponse, some err⟩,
        ⟨j + 1, roundsTrace instanceId j ++ [Event.getInstance instanceId]⟩⟩ := by
    rw [hrounds, pollLoop, hstep]
    simp
  rw [← roundsTrace_eq_replicate]
  exact pollLoop_fuel_mono api instanceId propertyName expectedValue (1 + j) fuel _ _
    (by simp only [maxRetries] at hfuel; omega) hrun

/-- C2 at a concrete input: two answers without a private network, then a
failing third call. -/
theorem waitUntilPropertyValueEquals_first_error_witness :
    waitUntilPropertyValueEquals 31
        (fun n => if n < 2 then ⟨some ⟨"ace712e9", "RUNNING", false⟩, some ⟨200⟩, none⟩
          else ⟨none, some ⟨500⟩, some ⟨"server error"⟩⟩)
        "ace712e9" "has_private_network" (.bool true) =
      some ⟨⟨none, some ⟨500⟩, some ⟨"server error"⟩⟩,
        ⟨3, (List.replicate 2
              [Event.getInstance "ace712e9", Event.sleep (10 * Second)]).flatten ++
            [Event.getInstance "ace712e9"]⟩⟩ :=
  waitUntilPropertyValueEquals_first_error
    (fun n => if n < 2 then ⟨some ⟨"ace712e9", "RUNNING", false⟩, some ⟨200⟩, none⟩
      else ⟨none, some ⟨500⟩, some ⟨"server error"⟩⟩)
    "ace712e9" "has_private_network" (.bool true) 31 3 ⟨"server error"⟩
    (by decide) (by decide) (Or.inr (Or.inr rfl))
    (fun i hi => by
      have h2 : i < 2 := by omega
      simp only [h2, if_true]
      exact ⟨trivial, by decide⟩)
    rfl (by decide)

/-- C3: `waitUntilPropertyValueEquals` succeeds only on a real match and at the
first one. Whenever it returns a nil error, at least one call was made, the
call made last succeeded, the returned instance details (and HTTP response) are
those of that call, and the named property of these details (the state as a
string for `"state"`, the boolean for `"has_private_network"`) equals
`expectedValue`. And if the `k`-th answer (`1 ≤ k ≤ 30`) is the first that
shows the expected value, all earlier ones being successful, the function
returns the `k`-th details with a nil error after exactly `k` calls. -/
theorem waitUntilPropertyValueEquals_success (api : Nat → InstanceResponse)
    (instanceId propertyName : String) (expectedValue : AnyValue) (fuel : Nat) :
    (∀ out, waitUntilPropertyValueEquals fuel api instanceId propertyName expectedValue =
        some out → out.result.err = none →
      1 ≤ out.world.calls ∧ out.world.calls ≤ 30 ∧
      (api (out.world.calls - 1)).err = none ∧
      out.result.details = (api (out.world.calls - 1)).details ∧
      out.result.httpResponse = (api (out.world.calls - 1)).httpResponse ∧
      ((propertyName = "state" ∧
          expectedValue = .string (InstanceDetails.getState out.result.details)) ∨
        (propertyName = "has_private_network" ∧
          expectedValue =
            .bool (InstanceDetails.getHasPrivateNetwork out.result.details)))) ∧
    (∀ k, 1 ≤ k → k ≤ 30 → maxRetries < fuel →
      (∀ i, i + 1 < k →
        (api i).err = none ∧ showsExpected propertyName expectedValue (api i) = false) →
      (api (k - 1)).err = none →
      showsExpected propertyName expectedValue (api (k - 1)) = true →
      waitUntilPropertyValueEquals fuel api instanceId propertyName expectedValue =
        some ⟨⟨(api (k - 1)).details, (api (k - 1)).httpResponse, none⟩,
          ⟨k, (List.replicate (k - 1)
                [Event.getInstance instanceId, Event.sleep (10 * Second)]).flatten ++
              [Event.getInstance instanceId]⟩⟩) := by
  constructor
  · intro out hout hnil
    obtain ⟨h1, h2, h3, h4, h5, h6⟩ := pollLoop_success_inv api instanceId propertyName
      expectedValue fuel ⟨0, ⟨0, []⟩⟩ out hout hnil
    simp only [Nat.sub_zero, Nat.add_zero] at h1 h2
    refine ⟨by omega, by simpa [maxRetries] using h2, h3, h4, h5, ?_⟩
    rw [h4]
    exact (showsExpected_iff propertyName expectedValue _).1 h6
  · intro k hk1 hk30 hfuel hprev hok hshow
    have hname : propertyName = "state" ∨ propertyName = "has_private_network" := by
      rcases (showsExpected_iff propertyName expectedValue _).1 hshow with h | h
      · exact Or.inl h.1
      · exact Or.inr h.1
    obtain ⟨j, rfl⟩ : ∃ j, k = j + 1 := ⟨k - 1, by omega⟩
    simp only [Nat.add_sub_cancel] at hok hshow ⊢
    have hrounds := pollLoop_rounds api instanceId propertyName expectedValue 1 j
      ⟨0, ⟨0, []⟩⟩ (by simp only [maxRetries]; omega)
      (fun i hi => by
        simp only [Nat.zero_add]
        exact missesExpected_of_not_shows propertyName expectedValue (api i) hname
          (hprev i (by omega)).1 (hprev i (by omega)).2)
    have hstep := pollStep_of_match api instanceId propertyName expectedValue
      ⟨0 + j, ⟨0 + j, [] ++ roundsTrace instanceId j⟩⟩
      (by simp only [maxRetries]; omega) (by simpa using hok) (by simpa using hshow)
    have hrun : pollLoop api instanceId propertyName expectedValue (1 + j) ⟨0, ⟨0, []⟩⟩ =
        some ⟨⟨(api j).details, (api j).httpResponse, none⟩,
          ⟨j + 1, roundsTrace instanceId j ++ [Event.getInstance instanceId]⟩⟩ := by
      rw [hrounds, pollLoop, hstep]
      simp
    rw [← roundsTrace_eq_replicate]
    exact pollLoop_fuel_mono api instanceId propertyName expectedValue (1 + j) fuel _ _
      (by simp only [maxRetries] at hfuel; omega) hrun

/-- C3 at a concrete input: the instance is `CREATING` at the first call and
`RUNNING` at the second one, which is returned. -/
theorem waitUntilPropertyValueEquals_success_witness :
    waitUntilPropertyValueEquals 31
        (fun n => if n < 1 then ⟨some ⟨"ace712e9", "CREATING", false⟩, some ⟨200⟩, none⟩
          else ⟨some ⟨"ace712e9", "RUNNING", false⟩, some ⟨200⟩, none⟩)
        "ace712e9" "state" (.string "RUNNING") =
      some ⟨⟨some ⟨"ace712e9", "RUNNING", false⟩, some ⟨200⟩, none⟩,
        ⟨2, (List.replicate 1
              [Event.getInstance "ace712e9", Event.sleep (10 * Second)]).flatten ++
            [Event.getInstance "ace712e9"]⟩⟩ :=
  (waitUntilPropertyValueEquals_success
    (fun n => if n < 1 then ⟨some ⟨"ace712e9", "CREATING", false⟩, some ⟨200⟩, none⟩
      else ⟨some ⟨"ace712e9", "RUNNING", false⟩, some ⟨200⟩, none⟩)
    "ace712e9" "state" (.string "RUNNING") 31).2 2 (by decide) (by decide) (by decide)
    (fun i hi => by
      have h0 : i = 0 := by omega
      subst h0
      exact ⟨rfl, by decide⟩)
    rfl (by decide)

/-! ## The claims about the domain constructors -/

/-- C4: `NewCreateInstance` enforces the instance-type allow-list. For every
instance type and every allow-list it returns the error
`ErrInvalidInstanceTypePassed`, whose message names the quoted instance type,
if and only if the instance type is not an element of the allow-list (so it
always fails for the empty allow-list); otherwise it returns a nil error and an
instance whose `Region`, `Type.Name`, `RootDiskStorageType`, `Image.Id` and
contract type, term and billing frequency equal the arguments. -/
theorem NewCreateInstance_allow_list (quote : String → String)
    (region instanceType : String) (rootDiskStorageType : RootDiskStorageType)
    (imageId : String) (contractType : ContractType) (contractTerm : ContractTerm)
    (billingFrequency : ContractBillingFrequency)
    (optional : OptionalCreateInstanceValues) (allowedInstanceTypes : List String) :
    (instanceType ∉ allowedInstanceTypes ↔
      NewCreateInstance quote region instanceType rootDiskStorageType imageId
          contractType contractTerm billingFrequency optional allowedInstanceTypes =
        .error ⟨"instance type " ++ quote instanceType ++ " is not allowed"⟩) ∧
    (instanceType ∈ allowedInstanceTypes ↔
      ∃ inst,
        NewCreateInstance quote region instanceType rootDiskStorageType imageId
            contractType contractTerm billingFrequency optional allowedInstanceTypes =
          .ok inst ∧
        inst.Region = region ∧ inst.Type_.Name = instanceType ∧
        inst.RootDiskStorageType = rootDiskStorageType ∧
        inst.Image.Id = imageId ∧ inst.Contract.Type_ = contractType ∧
        inst.Contract.Term = contractTerm ∧
        inst.Contract.BillingFrequency = billingFrequency) ∧
    NewCreateInstance quote region instanceType rootDiskStorageType imageId
        contractType contractTerm billingFrequency optional [] =
      .error ⟨"instance type " ++ quote instanceType ++ " is not allowed"⟩ := by
  refine ⟨?_, ?_, ?_⟩
  · by_cases h : instanceType ∈ allowedInstanceTypes
    · simp [NewCreateInstance, h]
    · simp [NewCreateInstance, h, notAllowedMessage]
  · by_cases h : instanceType ∈ allowedInstanceTypes
    · simp only [h, true_iff]
      cases hs : optional.RootDiskSize <;>
        simp [NewCreateInstance, h, hs]
    · simp [NewCreateInstance, h]
  · simp [NewCreateInstance, notAllowedMessage]

/-- C4 at concrete inputs: an instance type outside the allow-list is refused
with the quoted name in the message. -/
theorem NewCreateInstance_allow_list_witness :
    NewCreateInstance plainQuote "eu-west-3" "tralala" "CENTRAL" "UBUNTU_20_04_64BIT"
        "HOURLY" 0 1 ⟨none, none, none, none⟩ ["lsw.m3.large", "lsw.m4.large"] =
      .error ⟨"instance type " ++ plainQuote "tralala" ++ " is not allowed"⟩ :=
  (NewCreateInstance_allow_list plainQuote "eu-west-3" "tralala" "CENTRAL"
    "UBUNTU_20_04_64BIT" "HOURLY" 0 1 ⟨none, none, none, none⟩
    ["lsw.m3.large", "lsw.m4.large"]).1.1 (by decide)

/-- A type change to an element of the extended allow-list is accepted and
becomes the type of the result. -/
theorem NewUpdateInstance_of_allowed (quote : String → String) (id : String)
    (options : OptionalUpdateInstanceValues) (allowedInstanceTypes : List String)
    (currentInstanceType type : String) (htype : options.Type_ = some type)
    (hc : (allowedInstanceTypes ++ [currentInstanceType]).contains type = true) :
    ∃ inst, NewUpdateInstance quote id options allowedInstanceTypes currentInstanceType =
      .ok inst ∧ inst.Type_.Name = type := by
  obtain ⟨type0, reference, contractType, term, frequency, size⟩ := options
  simp only at htype
  subst htype
  unfold NewUpdateInstance
  simp only [hc, Bool.not_true, Bool.false_eq_true, if_false]
  cases contractType <;> cases term <;> cases frequency <;> cases size <;>
    exact ⟨_, rfl, rfl⟩

/-- A type change to a type outside the extended allow-list is refused. -/
theorem NewUpdateInstance_of_refused (quote : String → String) (id : String)
    (options : OptionalUpdateInstanceValues) (allowedInstanceTypes : List String)
    (currentInstanceType type : String) (htype : options.Type_ = some type)
    (hc : (allowedInstanceTypes ++ [currentInstanceType]).contains type = false) :
    NewUpdateInstance quote id options allowedInstanceTypes currentInstanceType =
      .error ⟨"instance type " ++ quote type ++ " is not allowed"⟩ := by
  obtain ⟨type0, reference, contractType, term, frequency, size⟩ := options
  simp only at htype
  subst htype
  unfold NewUpdateInstance
  simp only [hc, Bool.not_false, if_true, notAllowedMessage]

/-- Without a type change the constructor succeeds. -/
theorem NewUpdateInstance_of_nil (quote : String → String) (id : String)
    (options : OptionalUpdateInstanceValues) (allowedInstanceTypes : List String)
    (currentInstanceType : String) (htype : options.Type_ = none) :
    ∃ inst, NewUpdateInstance quote id options allowedInstanceTypes currentInstanceType =
      .ok inst := by
  obtain ⟨type0, reference, contractType, term, frequency, size⟩ := options
  simp only at htype
  subst htype
  unfold NewUpdateInstance
  exact ⟨_, rfl⟩

/-- Membership in the allow-list extended with the current type. -/
theorem contains_extended_iff (allowedInstanceTypes : List String)
    (currentInstanceType type : String) :
    (allowedInstanceTypes ++ [currentInstanceType]).contains type = true ↔
      type ∈ allowedInstanceTypes ∨ type = currentInstanceType := by
  simp

/-- C5: `NewUpdateInstance` validates an instance type change against the
allow-list extended with the current type. It returns the error
`ErrInvalidInstanceTypePassed` if and only if `options.Type` is non-nil and the
type it points to is neither an element of the allow-list nor equal to the
current instance type; in particular keeping the current type is always
accepted and a nil `options.Type` never produces an error. On success the
`Type.Name` of the result equals `*options.Type` when that is set. -/
theorem NewUpdateInstance_allow_list (quote : String → String) (id : String)
    (options : OptionalUpdateInstanceValues) (allowedInstanceTypes : List String)
    (currentInstanceType : String) :
    ((∃ e, NewUpdateInstance quote id options allowedInstanceTypes currentInstanceType =
        .error e) ↔
      ∃ type, options.Type_ = some type ∧ type ∉ allowedInstanceTypes ∧
        type ≠ currentInstanceType) ∧
    (∀ e, NewUpdateInstance quote id options allowedInstanceTypes currentInstanceType =
        .error e →
      ∃ type, options.Type_ = some type ∧
        e = ⟨"instance type " ++ quote type ++ " is not allowed"⟩) ∧
    (options.Type_ = some currentInstanceType →
      ∃ inst, NewUpdateInstance quote id options allowedInstanceTypes
        currentInstanceType = .ok inst) ∧
    (options.Type_ = none →
      ∃ inst, NewUpdateInstance quote id options allowedInstanceTypes
        currentInstanceType = .ok inst) ∧
    (∀ inst type,
      NewUpdateInstance quote id options allowedInstanceTypes currentInstanceType =
        .ok inst →
      options.Type_ = some type → inst.Type_.Name = type) := by
  cases htype : options.Type_ with
  | none =>
    obtain ⟨inst, hinst⟩ := NewUpdateInstance_of_nil quote id options allowedInstanceTypes
      currentInstanceType htype
    simp [hinst]
  | some type =>
    cases hc : (allowedInstanceTypes ++ [currentInstanceType]).contains type with
    | true =>
      have hmem := (contains_extended_iff allowedInstanceTypes currentInstanceType type).1 hc
      obtain ⟨inst, hinst, hname⟩ := NewUpdateInstance_of_allowed quote id options
        allowedInstanceTypes currentInstanceType type htype hc
      refine ⟨?_, ?_, ?_, ?_, ?_⟩
      · constructor
        · rintro ⟨e, he⟩
          rw [hinst] at he
          cases he
        · rintro ⟨type2, h2, hnot, hne⟩
          cases h2
          rcases hmem with h | h
          · exact absurd h hnot
          · exact absurd h hne
      · intro e he
        rw [hinst] at he
        cases he
      · intro _
        exact ⟨inst, hinst⟩
      · intro h
        cases h
      · intro inst2 type2 hok h2
        cases h2
        rw [hinst] at hok
        cases hok
        exact hname
    | false =>
      have hmem : ¬(type ∈ allowedInstanceTypes ∨ type = currentInstanceType) := by
        intro h
        rw [(contains_extended_iff allowedInstanceTypes currentInstanceType type).2 h] at hc
        cases hc
      have herr := NewUpdateInstance_of_refused quote id options allowedInstanceTypes
        currentInstanceType type htype hc
      refine ⟨?_, ?_, ?_, ?_, ?_⟩
      · constructor
        · intro _
          exact ⟨type, rfl, fun h => hmem (Or.inl h), fun h => hmem (Or.inr h)⟩
        · intro _
          exact ⟨_, herr⟩
      · intro e he
        rw [herr] at he
        cases he
        exact ⟨type, rfl, rfl⟩
      · intro hcur
        cases hcur
        exact absurd (Or.inr rfl) hmem
      · intro h
        cases h
      · intro inst2 type2 hok
        rw [herr] at hok
        cases hok

/-- C5 at concrete inputs: keeping the current type, which the allow-list does
not hold, is accepted. -/
theorem NewUpdateInstance_allow_list_witness :
    ∃ inst, NewUpdateInstance plainQuote "ace712e9"
      ⟨some "lsw.m3.large", none, none, none, none, none⟩ ["lsw.m4.large"]
      "lsw.m3.large" = .ok inst :=
  (NewUpdateInstance_allow_list plainQuote "ace712e9"
    ⟨some "lsw.m3.large", none, none, none, none, none⟩ ["lsw.m4.large"]
    "lsw.m3.large").2.2.1 rfl

/-! ## The `contract` schema of the instance resource -/

/-- The `contract` schema accepts a fully known contract exactly when each of
its three attributes belongs to its own table: no validator relates
`contract.term` to `contract.type`. -/
theorem validateContractAttribute_known (sdk : SdkEnums) (frequency term : Int)
    (type : String) :
    validateContractAttribute sdk ⟨.value frequency, .value term, .value type⟩ = [] ↔
      frequency ∈ billingFrequencies sdk ∧ term ∈ contractTerms sdk ∧
        type ∈ sdk.AllowedContractTypeEnumValues := by
  unfold validateContractAttribute requiredInt32 requiredString int32validatorOneOf
    stringvalidatorOneOf
  by_cases h1 : frequency ∈ billingFrequencies sdk <;>
    by_cases h2 : term ∈ contractTerms sdk <;>
    by_cases h3 : type ∈ sdk.AllowedContractTypeEnumValues <;>
    simp [h1, h2, h3]

/-- C6 (the code at the failing input): the `contract` schema of the instance
resource accepts an hourly contract with term 3 without any diagnostic, and a
monthly contract with term 0 as well, although the cross-field rule the
acceptance tests expect rejects both. -/
theorem contract_schema_accepts_hourly_term_3 :
    validateContractAttribute publiccloudEnums ⟨.value 1, .value 3, .value "HOURLY"⟩ = [] ∧
    contractTermRule "HOURLY" 3 = false ∧
    validateContractAttribute publiccloudEnums ⟨.value 1, .value 0, .value "MONTHLY"⟩ = [] ∧
    contractTermRule "MONTHLY" 0 = false := by
  refine ⟨?_, by decide, ?_, by decide⟩
  · exact (validateContractAttribute_known publiccloudEnums 1 3 "HOURLY").2
      ⟨by decide, by decide, by decide⟩
  · exact (validateContractAttribute_known publiccloudEnums 1 0 "MONTHLY").2
      ⟨by decide, by decide, by decide⟩

/-! ## The validators of `modify_plan.go` -/

/-- Adding an attribute error to a collection that does not hold it yet
appends exactly that one diagnostic. -/
theorem AddAttributeError_fresh (diagnostics : Diagnostics) (path summary detail : String)
    (hfresh : (⟨Severity.error, some path, summary, detail⟩ : Diagnostic) ∉ diagnostics) :
    diagnostics.AddAttributeError path summary detail =
      diagnostics ++ [⟨Severity.error, some path, summary, detail⟩] := by
  simp [Diagnostics.AddAttributeError, Diagnostics.Append1, hfresh]

/-- Whatever the collection held, it has an error after an error is added. -/
theorem HasError_Append1_error (diagnostics : Diagnostics) (d : Diagnostic)
    (hd : d.severity = Severity.error) :
    Diagnostics.HasError (diagnostics.Append1 d) = true := by
  unfold Diagnostics.Append1
  by_cases h : diagnostics.contains d = true
  · rw [if_pos h]
    simp only [Diagnostics.HasError, List.any_eq_true]
    exact ⟨d, by simpa using h, by simp [hd]⟩
  · rw [if_neg h]
    simp [Diagnostics.HasError, hd]

/-- C7: `validateInstanceType` validates a changed instance type against the
allow-list fetched for that instance. When the type has not changed
(`HashTypeChanged` is false) it makes no repository call, adds no diagnostic
and returns nil. When the type has changed, the state id is a valid UUID and
`GetAvailableInstanceTypesForUpdate` succeeds, it makes that one call, returns
nil, and adds the attribute error "Invalid Instance Type" at path `type` (one
`AddAttributeError`, which appends exactly one diagnostic to a response that
does not hold it yet) if and only if the planned type is not valid among the
returned types. -/
theorem validateInstanceType_spec (env : PlanEnv) (stateId stateType planType : TfString)
    (diagnostics : Diagnostics) (calls : List RepositoryCall) :
    (env.HashTypeChanged stateId stateType planType = false →
      validateInstanceType env stateId stateType planType diagnostics calls =
        ⟨diagnostics, calls, none⟩) ∧
    (∀ uuid allowed, env.HashTypeChanged stateId stateType planType = true →
      env.NewUuid stateId.ValueString = .ok uuid →
      env.GetAvailableInstanceTypesForUpdate uuid = .ok allowed →
      (validateInstanceType env stateId stateType planType diagnostics calls).err = none ∧
      (validateInstanceType env stateId stateType planType diagnostics calls).calls =
        calls ++ [RepositoryCall.GetAvailableInstanceTypesForUpdate uuid] ∧
      (env.IsTypeValid stateId stateType planType allowed = true →
        (validateInstanceType env stateId stateType planType diagnostics calls).diagnostics =
          diagnostics) ∧
      (env.IsTypeValid stateId stateType planType allowed = false →
        (validateInstanceType env stateId stateType planType diagnostics calls).diagnostics =
          diagnostics.AddAttributeError "type" "Invalid Instance Type"
            ("Allowed types are " ++ env.formatInstanceTypes allowed)) ∧
      ((⟨Severity.error, some "type", "Invalid Instance Type",
            "Allowed types are " ++ env.formatInstanceTypes allowed⟩ : Diagnostic) ∉
          diagnostics →
        ((validateInstanceType env stateId stateType planType diagnostics calls).diagnostics =
            diagnostics ++ [⟨Severity.error, some "type", "Invalid Instance Type",
              "Allowed types are " ++ env.formatInstanceTypes allowed⟩] ↔
          env.IsTypeValid stateId stateType planType allowed = false))) := by
  constructor
  · intro h
    simp [validateInstanceType, h]
  · intro uuid allowed hchanged huuid hget
    have hrun : validateInstanceType env stateId stateType planType diagnostics calls =
        if env.IsTypeValid stateId stateType planType allowed then
          ⟨diagnostics, calls ++ [RepositoryCall.GetAvailableInstanceTypesForUpdate uuid], none⟩
        else
          ⟨diagnostics.AddAttributeError "type" "Invalid Instance Type"
              ("Allowed types are " ++ env.formatInstanceTypes allowed),
            calls ++ [RepositoryCall.GetAvailableInstanceTypesForUpdate uuid], none⟩ := by
      simp [validateInstanceType, hchanged, huuid, hget]
    rw [hrun]
    cases hvalid : env.IsTypeValid stateId stateType planType allowed with
    | true => simp
    | false =>
      simp only [Bool.false_eq_true, if_false, true_and, false_implies, true_implies,
        iff_true]
      intro hfresh
      exact AddAttributeError_fresh diagnostics _ _ _ hfresh

/-- C7 at a concrete input: changing `lsw.m3.large` to `lsw.m4.large` while only
`lsw.m5.large` is available adds one "Invalid Instance Type" error at `type`. -/
theorem validateInstanceType_spec_witness :
    (validateInstanceType (sampleEnv (.ok [⟨"lsw.m5.large"⟩]) (.ok []))
        (.value "ace712e9") (.value "lsw.m3.large") (.value "lsw.m4.large") [] []).diagnostics =
      Diagnostics.AddAttributeError [] "type" "Invalid Instance Type"
        ("Allowed types are " ++
          (sampleEnv (.ok [⟨"lsw.m5.large"⟩]) (.ok [])).formatInstanceTypes
            [⟨"lsw.m5.large"⟩]) :=
  ((validateInstanceType_spec (sampleEnv (.ok [⟨"lsw.m5.large"⟩]) (.ok []))
      (.value "ace712e9") (.value "lsw.m3.large") (.value "lsw.m4.large") [] []).2
    ⟨"ace712e9"⟩ [⟨"lsw.m5.large"⟩] (by decide) rfl rfl).2.2.2.1 (by decide)

/-- C8: `validateRegion` enforces the region allow-list. For every planned
region string: if it is empty, no repository call is made and no diagnostic is
added; if it is non-empty and `GetRegions` succeeds, that one call is made, nil
is returned, and the attribute error "Invalid Region" at path `region` is added
(one `AddAttributeError`, which appends exactly one diagnostic to a response
that does not hold it yet) if and only if the returned regions do not contain
the planned region. -/
theorem validateRegion_spec (env : PlanEnv) (diagnostics : Diagnostics)
    (calls : List RepositoryCall) (region : String) :
    (region = "" →
      validateRegion env diagnostics calls region = ⟨diagnostics, calls, none⟩) ∧
    (∀ regions, region ≠ "" → env.GetRegions = .ok regions →
      (validateRegion env diagnostics calls region).err = none ∧
      (validateRegion env diagnostics calls region).calls =
        calls ++ [RepositoryCall.GetRegions] ∧
      (env.RegionsContains regions region = true →
        (validateRegion env diagnostics calls region).diagnostics = diagnostics) ∧
      (env.RegionsContains regions region = false →
        (validateRegion env diagnostics calls region).diagnostics =
          diagnostics.AddAttributeError "region" "Invalid Region"
            ("Allowed regions are " ++ env.formatRegions regions)) ∧
      ((⟨Severity.error, some "region", "Invalid Region",
            "Allowed regions are " ++ env.formatRegions regions⟩ : Diagnostic) ∉
          diagnostics →
        ((validateRegion env diagnostics calls region).diagnostics =
            diagnostics ++ [⟨Severity.error, some "region", "Invalid Region",
              "Allowed regions are " ++ env.formatRegions regions⟩] ↔
          env.RegionsContains regions region = false))) := by
  constructor
  · intro h
    simp [validateRegion, h]
  · intro regions hne hget
    have hrun : validateRegion env diagnostics calls region =
        if env.RegionsContains regions region then
          ⟨diagnostics, calls ++ [RepositoryCall.GetRegions], none⟩
        else
          ⟨diagnostics.AddAttributeError "region" "Invalid Region"
              ("Allowed regions are " ++ env.formatRegions regions),
            calls ++ [RepositoryCall.GetRegions], none⟩ := by
      simp [validateRegion, hne, hget]
    rw [hrun]
    cases hvalid : env.RegionsContains regions region with
    | true => simp
    | false =>
      simp only [Bool.false_eq_true, if_false, true_and, false_implies, true_implies,
        iff_true]
      intro hfresh
      exact AddAttributeError_fresh diagnostics _ _ _ hfresh

/-- C8 at a concrete input: the region `tralala` is not among the regions the
repository returns, so one "Invalid Region" error is added at `region`. -/
theorem validateRegion_spec_witness :
    (validateRegion (sampleEnv (.ok []) (.ok [⟨"eu-west-3"⟩])) [] [] "tralala").diagnostics =
      Diagnostics.AddAttributeError [] "region" "Invalid Region"
        ("Allowed regions are " ++
          (sampleEnv (.ok []) (.ok [⟨"eu-west-3"⟩])).formatRegions [⟨"eu-west-3"⟩]) :=
  ((validateRegion_spec (sampleEnv (.ok []) (.ok [⟨"eu-west-3"⟩])) [] [] "tralala").2
    [⟨"eu-west-3"⟩] (by decide) rfl).2.2.2.1 (by decide)

/-! ## `ModifyPlan` and repository errors -/

/-- A failing `GetRegions` ends `ModifyPlan` in `log.Fatal`: the process exits
with status 1 and the diagnostics of the response are what they were on entry. -/
theorem ModifyPlan_exits_on_GetRegions_error (env : PlanEnv)
    (planInstance stateInstance : ModelInstance) (diagnostics : Diagnostics) (e : GoError)
    (hsame : env.HashTypeChanged stateInstance.Id stateInstance.Type_ planInstance.Type_ =
      false)
    (hregion : planInstance.Region.ValueString ≠ "")
    (hfail : env.GetRegions = .error e) :
    ModifyPlan env planInstance stateInstance diagnostics =
      .exited 1 ("validateRegion: " ++ e.msg) diagnostics [RepositoryCall.GetRegions] := by
  simp [ModifyPlan, validateInstanceType, validateRegion, hsame, hregion, hfail, wrapError]

/-- A failing `GetAvailableInstanceTypesForUpdate` ends `ModifyPlan` in
`log.Fatal` with the diagnostics unchanged. -/
theorem ModifyPlan_exits_on_GetAvailableInstanceTypesForUpdate_error (env : PlanEnv)
    (planInstance stateInstance : ModelInstance) (diagnostics : Diagnostics) (e : GoError)
    (uuid : Uuid)
    (hchanged : env.HashTypeChanged stateInstance.Id stateInstance.Type_ planInstance.Type_ =
      true)
    (huuid : env.NewUuid stateInstance.Id.ValueString = .ok uuid)
    (hfail : env.GetAvailableInstanceTypesForUpdate uuid = .error e) :
    ModifyPlan env planInstance stateInstance diagnostics =
      .exited 1 ("validateInstanceType: " ++ e.msg) diagnostics
        [RepositoryCall.GetAvailableInstanceTypesForUpdate uuid] := by
  simp [ModifyPlan, validateInstanceType, hchanged, huuid, hfail, wrapError]

/-- A state id that is not a valid UUID ends `ModifyPlan` in `log.Fatal` with
the diagnostics unchanged and no repository call made. -/
theorem ModifyPlan_exits_on_invalid_uuid (env : PlanEnv)
    (planInstance stateInstance : ModelInstance) (diagnostics : Diagnostics) (e : GoError)
    (hchanged : env.HashTypeChanged stateInstance.Id stateInstance.Type_ planInstance.Type_ =
      true)
    (huuid : env.NewUuid stateInstance.Id.ValueString = .error e) :
    ModifyPlan env planInstance stateInstance diagnostics =
      .exited 1 ("validateInstanceType: " ++ e.msg) diagnostics [] := by
  simp [ModifyPlan, validateInstanceType, hchanged, huuid, wrapError]

/-- C9 (the code at the failing input): with an unchanged type, the planned
region `eu-west-3` and a repository whose `GetRegions` fails with "connection
refused", `ModifyPlan` does not return: `log.Fatal` prints the wrapped error
and ends the provider process with status 1, and nothing has been added to the
diagnostics of the response. -/
theorem ModifyPlan_exits_on_repository_error :
    ModifyPlan (sampleEnv (.ok []) (.error ⟨"connection refused"⟩))
        ⟨.unknown, .value "eu-west-3", .value "lsw.m3.large"⟩
        ⟨.value "ace712e9", .value "eu-west-3", .value "lsw.m3.large"⟩ [] =
      .exited 1 "validateRegion: connection refused" [] [RepositoryCall.GetRegions] :=
  ModifyPlan_exits_on_GetRegions_error (sampleEnv (.ok []) (.error ⟨"connection refused"⟩))
    ⟨.unknown, .value "eu-west-3", .value "lsw.m3.large"⟩
    ⟨.value "ace712e9", .value "eu-west-3", .value "lsw.m3.large"⟩ [] ⟨"connection refused"⟩
    (by decide) (by decide) rfl

/-! ## The load balancer resource handlers -/

/-- The helper `GeneralError` leaves an error in the diagnostics. -/
theorem HasError_GeneralError (diagnostics : Diagnostics) (err : GoError) :
    Diagnostics.HasError (GeneralError diagnostics err) = true :=
  HasError_Append1_error diagnostics _ rfl

/-- The helper `SdkError` leaves an error in the diagnostics. -/
theorem HasError_SdkError (diagnostics : Diagnostics) (err : GoError)
    (httpResponse : Option HttpResponse) :
    Diagnostics.HasError (SdkError diagnostics err httpResponse) = true :=
  HasError_Append1_error diagnostics _ rfl

/-- In `loadBalancerResource.Create` every path that records an error returns
before `State.Set`. -/
theorem Create_noStateSetAfterError (env : LoadBalancerEnv) (diagnostics : Diagnostics) :
    noStateSetAfterError (loadBalancerResource.Create env diagnostics) = true := by
  unfold loadBalancerResource.Create
  simp only
  split
  · rfl
  · rename_i hno
    split
    · rfl
    · split
      · rfl
      · split
        · rfl
        · simpa [noStateSetAfterError] using hno

/-- In `loadBalancerResource.Read` every path that records an error returns
before `State.Set`. -/
theorem Read_noStateSetAfterError (env : LoadBalancerEnv) (diagnostics : Diagnostics) :
    noStateSetAfterError (loadBalancerResource.Read env diagnostics) = true := by
  unfold loadBalancerResource.Read
  simp only
  split
  · rfl
  · rename_i hno
    split
    · rfl
    · split
      · rfl
      · simpa [noStateSetAfterError] using hno

/-- In `loadBalancerResource.Update` a failed adaptation of the returned details
records the error and then calls `State.Set` with the nil state all the same. -/
theorem Update_sets_state_after_adapt_error (env : LoadBalancerEnv)
    (diagnostics : Diagnostics) (opts : UpdateLoadBalancerOpts)
    (details : LoadBalancerDetails) (httpResponse : Option HttpResponse) (err : GoError)
    (hplan : Diagnostics.HasError (diagnostics.Append env.PlanGet.1) = false)
    (hopts : GetUpdateLoadBalancerOpts env env.PlanGet.2 = .ok opts)
    (hsdk : env.UpdateLoadBalancer env.PlanGet.2.ID.ValueString opts =
      .ok details httpResponse)
    (hadapt : adaptLoadBalancerDetailsToLoadBalancerResource env details = .error err) :
    loadBalancerResource.Update env diagnostics =
        ⟨(GeneralError (diagnostics.Append env.PlanGet.1) err).Append (env.StateSet none),
          [(GeneralError (diagnostics.Append env.PlanGet.1) err, none)]⟩ ∧
      noStateSetAfterError (loadBalancerResource.Update env diagnostics) = false := by
  have hrun : loadBalancerResource.Update env diagnostics =
      ⟨(GeneralError (diagnostics.Append env.PlanGet.1) err).Append (env.StateSet none),
        [(GeneralError (diagnostics.Append env.PlanGet.1) err, none)]⟩ := by
    unfold loadBalancerResource.Update
    simp only [hplan, hopts, hsdk, hadapt, Bool.false_eq_true, if_false]
  refine ⟨hrun, ?_⟩
  rw [hrun]
  simp [noStateSetAfterError, HasError_GeneralError]

/-- C10 (the code at the failing input): in `loadBalancerResource.Update`, when
the plan decodes, the options build and the SDK call succeeds but adapting the
returned details fails, the error is recorded in the diagnostics and
`State.Set` is still called, once, with the nil state. -/
theorem Update_calls_StateSet_after_error :
    (loadBalancerResource.Update
        (sampleLoadBalancerEnv
          ⟨.value "lb-1", .value "eu-west-3", .value "lsw.m3.large", .null, .null⟩
          ⟨"lb-1", "eu-west-3", "lsw.m3.large", none, ⟨1, 0, "HOURLY", none, "ACTIVE"⟩,
            "ACTIVE", []⟩
          (.error ⟨"cannot build object"⟩)) []).stateSets =
      [([⟨Severity.error, none, "Unexpected error",
          "adaptLoadBalancerDetailsToLoadBalancerResource: cannot build object"⟩], none)] ∧
    noStateSetAfterError (loadBalancerResource.Update
        (sampleLoadBalancerEnv
          ⟨.value "lb-1", .value "eu-west-3", .value "lsw.m3.large", .null, .null⟩
          ⟨"lb-1", "eu-west-3", "lsw.m3.large", none, ⟨1, 0, "HOURLY", none, "ACTIVE"⟩,
            "ACTIVE", []⟩
          (.error ⟨"cannot build object"⟩)) []) = false := by
  have h := Update_sets_state_after_adapt_error
    (sampleLoadBalancerEnv
      ⟨.value "lb-1", .value "eu-west-3", .value "lsw.m3.large", .null, .null⟩
      ⟨"lb-1", "eu-west-3", "lsw.m3.large", none, ⟨1, 0, "HOURLY", none, "ACTIVE"⟩,
            "ACTIVE", []⟩
      (.error ⟨"cannot build object"⟩)) []
    ⟨some "lsw.m3.large", none⟩
    ⟨"lb-1", "eu-west-3", "lsw.m3.large", none, ⟨1, 0, "HOURLY", none, "ACTIVE"⟩,
            "ACTIVE", []⟩
    (some ⟨200⟩) ⟨"adaptLoadBalancerDetailsToLoadBalancerResource: cannot build object"⟩
    (by decide) rfl rfl (by rfl)
  refine ⟨?_, h.2⟩
  rw [h.1]
  decide

/-! ## Resource type names -/

/-- C18: resource type names are the provider type name joined to the name of
the resource with a single underscore. For every provider type name `p` and
resource name `n`, `Metadata` sets `TypeName = p + "_" + n`; with the provider
type name "leaseweb" the instance, load balancer, target group and dedicated
server credential resources report `leaseweb_public_cloud_instance`,
`leaseweb_public_cloud_load_balancer`, `leaseweb_public_cloud_target_group`
and `leaseweb_dedicated_server_credential`. -/
theorem Metadata_type_name (p n : String) :
    ResourceAPI.Metadata ⟨n⟩ p = p ++ "_" ++ n ∧
    ResourceAPI.Metadata NewInstanceResource "leaseweb" =
      "leaseweb_public_cloud_instance" ∧
    ResourceAPI.Metadata NewLoadBalancerResource "leaseweb" =
      "leaseweb_public_cloud_load_balancer" ∧
    ResourceAPI.Metadata NewTargetGroupResource "leaseweb" =
      "leaseweb_public_cloud_target_group" ∧
    ResourceAPI.Metadata dedicatedserver.NewCredentialResource "leaseweb" =
      "leaseweb_dedicated_server_credential" := by
  refine ⟨rfl, ?_, ?_, ?_, ?_⟩ <;> decide

/-! ## The DDoS model -/

/-- C20: `newDdos` preserves both fields. For every domain `Ddos` `d`,
`newDdos d` is a non-nil model whose `DetectionProfile` and `ProtectionType`
are known, non-null strings equal to `d.DetectionProfile` and
`d.ProtectionType` respectively. -/
theorem newDdos_preserves_fields (d : domain.Ddos) :
    ∃ m, model.newDdos d = some m ∧
      m.DetectionProfile = .value d.DetectionProfile ∧
      m.ProtectionType = .value d.ProtectionType ∧
      m.DetectionProfile.IsNull = false ∧ m.DetectionProfile.IsUnknown = false ∧
      m.ProtectionType.IsNull = false ∧ m.ProtectionType.IsUnknown = false ∧
      m.DetectionProfile.ValueString = d.DetectionProfile ∧
      m.ProtectionType.ValueString = d.ProtectionType :=
  ⟨_, rfl, rfl, rfl, rfl, rfl, rfl, rfl, rfl, rfl⟩

/-! ## The `root_disk_size` validator -/

/-- C12: the `root_disk_size` validator of the instance schema accepts an
integer `n` if and only if `5 ≤ n ≤ 1000`, both bounds included; 1 and 1001
are rejected with one error at `root_disk_size` whose text starts with
"Attribute root_disk_size value must be between". -/
theorem validateRootDiskSize_between (n : Int) :
    (validateRootDiskSize (.value n) = [] ↔ 5 ≤ n ∧ n ≤ 1000) ∧
    (¬(5 ≤ n ∧ n ≤ 1000) →
      validateRootDiskSize (.value n) =
        [⟨Severity.error, some "root_disk_size", "Invalid Attribute Value",
          "Attribute root_disk_size value must be between " ++
            ("5 and 1000, got: " ++ toString n)⟩]) ∧
    validateRootDiskSize (.value 1) =
      [⟨Severity.error, some "root_disk_size", "Invalid Attribute Value",
        "Attribute root_disk_size value must be between 5 and 1000, got: 1"⟩] ∧
    validateRootDiskSize (.value 1001) =
      [⟨Severity.error, some "root_disk_size", "Invalid Attribute Value",
        "Attribute root_disk_size value must be between 5 and 1000, got: 1001"⟩] ∧
    validateRootDiskSize (.value 5) = [] ∧ validateRootDiskSize (.value 1000) = [] := by
  have hmsg : "Attribute " ++ "root_disk_size" ++ " value must be between " ++
      toString (5 : Int) ++ " and " ++ toString (1000 : Int) ++ ", got: " ++ toString n =
      "Attribute root_disk_size value must be between " ++
        ("5 and 1000, got: " ++ toString n) := by
    have h5 : toString (5 : Int) = "5" := by decide
    have h1000 : toString (1000 : Int) = "1000" := by decide
    rw [h5, h1000]
    simp only [String.append_assoc]
    rfl
  have hiff : validateRootDiskSize (.value n) = [] ↔ 5 ≤ n ∧ n ≤ 1000 := by
    by_cases h : n < 5 ∨ n > 1000
    · simp only [validateRootDiskSize, int32validatorBetween, if_pos h, List.cons_ne_nil,
        false_iff]
      omega
    · simp only [validateRootDiskSize, int32validatorBetween, if_neg h, true_iff]
      omega
  refine ⟨hiff, ?_, ?_, ?_, ?_, ?_⟩
  · intro hout
    have h : n < 5 ∨ n > 1000 := by omega
    simp only [validateRootDiskSize, int32validatorBetween, if_pos h, hmsg]
  · decide
  · decide
  · decide
  · decide

/-- C12 at a concrete input: a root disk of 1 GB is refused. -/
theorem validateRootDiskSize_between_witness :
    validateRootDiskSize (.value 1) =
      [⟨Severity.error, some "root_disk_size", "Invalid Attribute Value",
        "Attribute root_disk_size value must be between " ++
          ("5 and 1000, got: " ++ toString (1 : Int))⟩] :=
  (validateRootDiskSize_between 1).2.1 (by decide)

/-! ## The domain factory functions -/

/-- C19: the domain factory functions are field-wise identities. `NewInstance`
returns an `Instance` in which every field equals the correspondingly named
argument and each of the eight optional fields (`Reference`, `Iso`,
`MarketAppId`, `SshKey`, `StartedAt`, `PrivateNetwork`, `AutoScalingGroup`,
`Volume`) equals the same field of `OptionalInstanceValues`; and
`NewAutoScalingGroup` returns an `AutoScalingGroup` in which every field equals
the corresponding argument or option, `options.CoolDownTime` being stored in
`CooldownTime`. -/
theorem domain_factories_fieldwise (id region : String) (resources : Resources)
    (image : Image) (state : enum.State) (productType : String)
    (hasPublicIpv4 hasPrivateNetwork : Bool) (rootDiskSize : RootDiskSize)
    (instanceType : InstanceType) (rootDiskStorageType : RootDiskStorageType)
    (ips : List Ip) (contract : Contract) (optional : OptionalInstanceValues)
    (groupId : Uuid) (autoScalingGroupType groupState groupRegion : String)
    (reference : AutoScalingGroupReference) (createdAt updatedAt : Time)
    (options : AutoScalingGroupOptions) :
    NewInstance id region resources image state productType hasPublicIpv4
        hasPrivateNetwork rootDiskSize instanceType rootDiskStorageType ips contract
        optional =
      { Id := id, Region := region, Reference := optional.Reference,
        StartedAt := optional.StartedAt, Resources := resources, Image := image,
        State := state, ProductType := productType, HasPublicIpv4 := hasPublicIpv4,
        HasPrivateNetwork := hasPrivateNetwork, Type_ := instanceType,
        RootDiskStorageType := rootDiskStorageType, RootDiskSize := rootDiskSize,
        Ips := ips, Contract := contract, Iso := optional.Iso,
        MarketAppId := optional.MarketAppId, PrivateNetwork := optional.PrivateNetwork,
        SshKey := optional.SshKey, AutoScalingGroup := optional.AutoScalingGroup,
        Volume := optional.Volume } ∧
    NewAutoScalingGroup groupId autoScalingGroupType groupState groupRegion reference
        createdAt updatedAt options =
      { Id := groupId, Type_ := autoScalingGroupType, State := groupState,
        Region := groupRegion, Reference := reference, CreatedAt := createdAt,
        UpdatedAt := updatedAt, DesiredAmount := options.DesiredAmount,
        StartsAt := options.StartsAt, EndsAt := options.EndsAt,
        MinimumAmount := options.MinimumAmount, MaximumAmount := options.MaximumAmount,
        CpuThreshold := options.CpuThreshold, WarmupTime := options.WarmupTime,
        CooldownTime := options.CoolDownTime, LoadBalancer := options.LoadBalancer } := by
  constructor
  · simp only [NewInstance]
  · simp only [NewAutoScalingGroup]

/-! ## Replacement on change -/

/-- The modifier `RequiresReplace` marks every change of an existing resource. -/
theorem RequiresReplace_of_change (req : StringPlanModifyRequest)
    (hchange : req.isChange = true) :
    (runStringPlanModifiers [.RequiresReplace] req).RequiresReplace = true := by
  simp only [StringPlanModifyRequest.isChange, Bool.and_eq_true, Bool.not_eq_true',
    decide_eq_true_eq] at hchange
  obtain ⟨⟨h1, h2⟩, h3⟩ := hchange
  simp [runStringPlanModifiers, StringPlanModifier.PlanModifyString,
    stringplanmodifier.RequiresReplaceIf, h1, h2, h3]

/-- The modifier `RequiresReplaceIfConfigured` marks every change of an existing
resource whose attribute is set in the configuration. -/
theorem RequiresReplaceIfConfigured_of_change (req : StringPlanModifyRequest)
    (hchange : req.isChange = true) (hconfigured : req.ConfigValue.IsNull = false) :
    (runStringPlanModifiers [.RequiresReplaceIfConfigured] req).RequiresReplace = true := by
  simp only [StringPlanModifyRequest.isChange, Bool.and_eq_true, Bool.not_eq_true',
    decide_eq_true_eq] at hchange
  obtain ⟨⟨h1, h2⟩, h3⟩ := hchange
  simp [runStringPlanModifiers, StringPlanModifier.PlanModifyString,
    stringplanmodifier.RequiresReplaceIf, h1, h2, h3, hconfigured]

/-- An attribute without plan modifiers never marks the resource for
replacement. -/
theorem no_modifier_no_replacement (req : StringPlanModifyRequest) :
    (runStringPlanModifiers [] req).RequiresReplace = false := rfl

/-- C13: for the public cloud instance resource, `region`, `image.id` and
`root_disk_storage_type` carry the plan modifier `RequiresReplace` and
`market_app_id` carries `RequiresReplaceIfConfigured`; so changing `region`,
`image.id` or `root_disk_storage_type` of an existing instance always plans a
replacement, and changing `market_app_id` plans one whenever `market_app_id` is
set in the configuration. -/
theorem instance_schema_requires_replace (req : StringPlanModifyRequest)
    (hchange : req.isChange = true) :
    (findAttribute instanceSchemaStringAttributes "region").map (·.PlanModifiers) =
      some [.RequiresReplace] ∧
    (findAttribute instanceSchemaStringAttributes "image.id").map (·.PlanModifiers) =
      some [.RequiresReplace] ∧
    (findAttribute instanceSchemaStringAttributes "root_disk_storage_type").map
      (·.PlanModifiers) = some [.RequiresReplace] ∧
    (findAttribute instanceSchemaStringAttributes "market_app_id").map (·.PlanModifiers) =
      some [.RequiresReplaceIfConfigured] ∧
    attributeRequiresReplace instanceSchemaStringAttributes "region" req = true ∧
    attributeRequiresReplace instanceSchemaStringAttributes "image.id" req = true ∧
    attributeRequiresReplace instanceSchemaStringAttributes "root_disk_storage_type" req =
      true ∧
    (req.ConfigValue.IsNull = false →
      attributeRequiresReplace instanceSchemaStringAttributes "market_app_id" req = true) := by
  have hregion : findAttribute instanceSchemaStringAttributes "region" =
      some ⟨"region", true, false, false, true, [.RequiresReplace]⟩ := by decide
  have himage : findAttribute instanceSchemaStringAttributes "image.id" =
      some ⟨"image.id", true, false, false, true, [.RequiresReplace]⟩ := by decide
  have hdisk : findAttribute instanceSchemaStringAttributes "root_disk_storage_type" =
      some ⟨"root_disk_storage_type", true, false, false, true, [.RequiresReplace]⟩ := by
    decide
  have hmarket : findAttribute instanceSchemaStringAttributes "market_app_id" =
      some ⟨"market_app_id", false, true, true, true, [.RequiresReplaceIfConfigured]⟩ := by
    decide
  refine ⟨by rw [hregion]; rfl, by rw [himage]; rfl, by rw [hdisk]; rfl,
    by rw [hmarket]; rfl, ?_, ?_, ?_, ?_⟩
  · simp only [attributeRequiresReplace, hregion]
    exact RequiresReplace_of_change req hchange
  · simp only [attributeRequiresReplace, himage]
    exact RequiresReplace_of_change req hchange
  · simp only [attributeRequiresReplace, hdisk]
    exact RequiresReplace_of_change req hchange
  · intro hconfigured
    simp only [attributeRequiresReplace, hmarket]
    exact RequiresReplaceIfConfigured_of_change req hchange hconfigured

/-- C13 at a concrete input: moving an existing instance from `eu-west-3` to
`eu-west-2` plans a replacement. -/
theorem instance_schema_requires_replace_witness :
    attributeRequiresReplace instanceSchemaStringAttributes "region"
      ⟨false, false, .value "eu-west-2", .value "eu-west-3", .value "eu-west-2"⟩ = true :=
  (instance_schema_requires_replace
    ⟨false, false, .value "eu-west-2", .value "eu-west-3", .value "eu-west-2"⟩
    (by decide)).2.2.2.2.1

/-- The `type` attribute of the instance resource and of the load balancer
resource has no plan modifier, so no change of it plans a replacement, although
its description carries the warning. -/
theorem type_never_requires_replace (req : StringPlanModifyRequest) :
    attributeRequiresReplace instanceSchemaStringAttributes "type" req = false ∧
    attributeRequiresReplace loadBalancerSchemaStringAttributes "type" req = false ∧
    (findAttribute instanceSchemaStringAttributes "type").map (·.Warning) = some true ∧
    (findAttribute loadBalancerSchemaStringAttributes "type").map (·.Warning) =
      some true := by
  have h1 : findAttribute instanceSchemaStringAttributes "type" =
      some ⟨"type", true, false, false, true, []⟩ := by decide
  have h2 : findAttribute loadBalancerSchemaStringAttributes "type" =
      some ⟨"type", true, false, false, true, []⟩ := by decide
  refine ⟨?_, ?_, by rw [h1]; rfl, by rw [h2]; rfl⟩
  · simp only [attributeRequiresReplace, h1]
    rfl
  · simp only [attributeRequiresReplace, h2]
    rfl

/-- Every attribute of the two schemas whose description carries the warning has
a requires-replace plan modifier, except `type`. -/
theorem warning_attributes_without_requires_replace :
    (instanceSchemaStringAttributes.filter
        (fun a => a.Warning && !(a.PlanModifiers.contains .RequiresReplace ||
          a.PlanModifiers.contains .RequiresReplaceIfConfigured))).map (·.path) = ["type"] ∧
    (loadBalancerSchemaStringAttributes.filter
        (fun a => a.Warning && !(a.PlanModifiers.contains .RequiresReplace ||
          a.PlanModifiers.contains .RequiresReplaceIfConfigured))).map (·.path) = ["type"] := by
  constructor <;> decide

/-- C14 (counterexample): changing the `type` of an existing instance from
`lsw.m3.large` to `lsw.m4.large` is a change the schema does not mark for
replacement, and `Update` sends the new type to the API in its update options;
the same holds for the `type` of a load balancer, although the description of
both attributes carries the warning that the resource will be destroyed and a
new one created. -/
theorem type_change_is_updated_in_place :
    StringPlanModifyRequest.isChange
      ⟨false, false, .value "lsw.m4.large", .value "lsw.m3.large", .value "lsw.m4.large"⟩ =
      true ∧
    attributeRequiresReplace instanceSchemaStringAttributes "type"
      ⟨false, false, .value "lsw.m4.large", .value "lsw.m3.large", .value "lsw.m4.large"⟩ =
      false ∧
    (instanceResource.updateOpts sampleAdaptString sampleAdaptInt32 (.value "my webserver")
      (.value "lsw.m4.large") .null
      ⟨.value 1, .value 0, .value "HOURLY", .null, .null⟩).Type_ = some "lsw.m4.large" ∧
    attributeRequiresReplace loadBalancerSchemaStringAttributes "type"
      ⟨false, false, .value "lsw.m4.large", .value "lsw.m3.large", .value "lsw.m4.large"⟩ =
      false ∧
    GetUpdateLoadBalancerOpts
        (sampleLoadBalancerEnv
          ⟨.value "lb-1", .value "eu-west-3", .value "lsw.m4.large", .null, .null⟩
          ⟨"lb-1", "eu-west-3", "lsw.m3.large", none, ⟨1, 0, "HOURLY", none, "ACTIVE"⟩,
            "ACTIVE", []⟩
          (.ok .null))
        ⟨.value "lb-1", .value "eu-west-3", .value "lsw.m4.large", .null, .null⟩ =
      .ok ⟨some "lsw.m4.large", none⟩ ∧
    (findAttribute instanceSchemaStringAttributes "type").map (·.Warning) = some true ∧
    (findAttribute loadBalancerSchemaStringAttributes "type").map (·.Warning) =
      some true := by
  have h := type_never_requires_replace
    ⟨false, false, .value "lsw.m4.large", .value "lsw.m3.large", .value "lsw.m4.large"⟩
  exact ⟨by decide, h.1, by decide, h.2.1, rfl, h.2.2.1, h.2.2.2⟩

/-- C14 (amended): a change of the `type` attribute of a public cloud instance
or load balancer is applied in place. For every plan request the `type`
attribute of either schema plans no replacement; the update options of
`instanceResource.Update` hold every non-empty planned type, and
`GetUpdateLoadBalancerOpts` returns options with the planned type whenever the
SDK parser accepts it. Of the attributes whose description carries the warning,
`type` is the only one without a requires-replace plan modifier: `region`,
`image.id`, `root_disk_storage_type` and `market_app_id` of the instance and
`region` of the load balancer have one. -/
theorem type_change_is_applied_in_place (req : StringPlanModifyRequest)
    (adaptString : TfString → Option String) (adaptInt32 : TfInt32 → Option Int)
    (planReference planType : TfString) (planRootDiskSize : TfInt32)
    (contract : contractResourceModel) (env : LoadBalancerEnv)
    (l : loadBalancerResourceModel) :
    attributeRequiresReplace instanceSchemaStringAttributes "type" req = false ∧
    attributeRequiresReplace loadBalancerSchemaStringAttributes "type" req = false ∧
    (planType.ValueString ≠ "" →
      (instanceResource.updateOpts adaptString adaptInt32 planReference planType
        planRootDiskSize contract).Type_ = some planType.ValueString) ∧
    (∀ typeName, l.Type_.ValueString ≠ "" →
      env.NewTypeNameFromValue l.Type_.ValueString = .ok typeName →
      GetUpdateLoadBalancerOpts env l =
        .ok ⟨some typeName, env.AdaptStringPointerValueToNullableString l.Reference⟩) ∧
    (instanceSchemaStringAttributes.filter
        (fun a => a.Warning && (a.PlanModifiers.contains .RequiresReplace ||
          a.PlanModifiers.contains .RequiresReplaceIfConfigured))).map (·.path) =
      ["region", "image.id", "root_disk_storage_type", "market_app_id"] ∧
    (loadBalancerSchemaStringAttributes.filter
        (fun a => a.Warning && (a.PlanModifiers.contains .RequiresReplace ||
          a.PlanModifiers.contains .RequiresReplaceIfConfigured))).map (·.path) =
      ["region"] ∧
    (instanceSchemaStringAttributes.filter
        (fun a => a.Warning && !(a.PlanModifiers.contains .RequiresReplace ||
          a.PlanModifiers.contains .RequiresReplaceIfConfigured))).map (·.path) = ["type"] ∧
    (loadBalancerSchemaStringAttributes.filter
        (fun a => a.Warning && !(a.PlanModifiers.contains .RequiresReplace ||
          a.PlanModifiers.contains .RequiresReplaceIfConfigured))).map (·.path) = ["type"] := by
  have h := type_never_requires_replace req
  have hw := warning_attributes_without_requires_replace
  refine ⟨h.1, h.2.1, ?_, ?_, by decide, by decide, hw.1, hw.2⟩
  · intro hne
    unfold instanceResource.updateOpts
    by_cases h1 : contract.Type_.ValueString = "" <;>
      by_cases h2 : contract.Term.ValueInt32 = 0 <;>
      by_cases h3 : contract.BillingFrequency.ValueInt32 = 0 <;> simp [h1, h2, h3, hne]
  · intro typeName hne hparse
    unfold GetUpdateLoadBalancerOpts
    simp only [ne_eq, hne, not_false_eq_true, if_true, hparse]

/-- C14 at a concrete input: the type of an existing instance and of an existing
load balancer changes from `lsw.m3.large` to `lsw.m4.large`. -/
theorem type_change_is_applied_in_place_witness :
    attributeRequiresReplace instanceSchemaStringAttributes "type"
      ⟨false, false, .value "lsw.m4.large", .value "lsw.m3.large", .value "lsw.m4.large"⟩ =
      false ∧
    (instanceResource.updateOpts sampleAdaptString sampleAdaptInt32 (.value "my webserver")
      (.value "lsw.m4.large") .null
      ⟨.value 1, .value 0, .value "HOURLY", .null, .null⟩).Type_ = some "lsw.m4.large" ∧
    GetUpdateLoadBalancerOpts
        (sampleLoadBalancerEnv
          ⟨.value "lb-1", .value "eu-west-3", .value "lsw.m4.large", .null, .null⟩
          ⟨"lb-1", "eu-west-3", "lsw.m3.large", none, ⟨1, 0, "HOURLY", none, "ACTIVE"⟩,
            "ACTIVE", []⟩
          (.ok .null))
        ⟨.value "lb-1", .value "eu-west-3", .value "lsw.m4.large", .null, .null⟩ =
      .ok ⟨some "lsw.m4.large", none⟩ := by
  have h := type_change_is_applied_in_place
    ⟨false, false, .value "lsw.m4.large", .value "lsw.m3.large", .value "lsw.m4.large"⟩
    sampleAdaptString sampleAdaptInt32 (.value "my webserver") (.value "lsw.m4.large") .null
    ⟨.value 1, .value 0, .value "HOURLY", .null, .null⟩
    (sampleLoadBalancerEnv
      ⟨.value "lb-1", .value "eu-west-3", .value "lsw.m4.large", .null, .null⟩
      ⟨"lb-1", "eu-west-3", "lsw.m3.large", none, ⟨1, 0, "HOURLY", none, "ACTIVE"⟩,
        "ACTIVE", []⟩
      (.ok .null))
    ⟨.value "lb-1", .value "eu-west-3", .value "lsw.m4.large", .null, .null⟩
  exact ⟨h.1, h.2.2.1 (by decide), h.2.2.2.1 "lsw.m4.large" (by decide) rfl⟩

/-! ## The target group `health_check` -/

/-- C15: removing `health_check` from an existing target group forces
replacement. The condition of the `health_check` plan modifier sets
`RequiresReplace` to true if and only if the planned `health_check` value is
null, and leaves it false for every non-null planned value; through
`RequiresReplaceIf`, planning null for an existing target group that has a
health check requires replacement, while a plan with a non-null health check
(an edit of its fields) never does. -/
theorem healthCheck_replacement (request : ObjectPlanModifyRequest healthCheckResourceModel) :
    (healthCheckReplaceCondition request = true ↔ request.PlanValue = .null) ∧
    (request.PlanValue ≠ .null → healthCheckReplaceCondition request = false) ∧
    (request.PlanValue ≠ .null → healthCheckPlanModifier request = false) ∧
    (request.StateRawIsNull = false → request.PlanRawIsNull = false →
      request.StateValue ≠ .null → request.PlanValue = .null →
      healthCheckPlanModifier request = true) ∧
    (healthCheckPlanModifier request = true ↔
      request.StateRawIsNull = false ∧ request.PlanRawIsNull = false ∧
        request.PlanValue = .null ∧ request.StateValue ≠ .null) := by
  obtain ⟨stateNull, planNull, config, state, plan⟩ := request
  have hcond : ∀ (r : ObjectPlanModifyRequest healthCheckResourceModel),
      healthCheckReplaceCondition r = true ↔ r.PlanValue = .null := by
    intro r
    unfold healthCheckReplaceCondition
    cases hp : r.PlanValue <;> simp [TfObject.IsNull]
  refine ⟨hcond _, ?_, ?_, ?_, ?_⟩
  · intro hne
    cases h : healthCheckReplaceCondition ⟨stateNull, planNull, config, state, plan⟩ with
    | false => rfl
    | true => exact absurd ((hcond _).1 h) hne
  · intro hne
    simp only at hne
    have hfalse : healthCheckReplaceCondition ⟨stateNull, planNull, config, state, plan⟩ =
        false := by
      cases h : healthCheckReplaceCondition ⟨stateNull, planNull, config, state, plan⟩ with
      | false => rfl
      | true => exact absurd ((hcond _).1 h) hne
    unfold healthCheckPlanModifier objectplanmodifier.RequiresReplaceIf
    simp only [hfalse]
    split
    · rfl
    · split
      · rfl
      · split <;> rfl
  · intro hs hp hstate hplan
    simp only at hs hp hstate hplan
    subst hs hp hplan
    have hne : ¬(TfObject.null : TfObject healthCheckResourceModel) = state :=
      fun h => hstate h.symm
    simp [healthCheckPlanModifier, objectplanmodifier.RequiresReplaceIf,
      healthCheckReplaceCondition, TfObject.IsNull, hne]
  · unfold healthCheckPlanModifier objectplanmodifier.RequiresReplaceIf
    cases stateNull <;> cases planNull <;> simp only [Bool.false_eq_true, if_false, if_true]
    · by_cases heq : plan = state
      · simp only [heq, if_true, Bool.false_eq_true, false_iff]
        rintro ⟨-, -, h1, h2⟩
        exact h2 h1
      · simp only [heq, if_false, hcond, true_and]
        constructor
        · intro h
          exact ⟨h, fun hs => heq (h.trans hs.symm)⟩
        · intro h
          exact h.1
    · simp
    · simp
    · simp

/-- C15 at a concrete input: an existing target group with an HTTP health check
whose plan has no health check any more is replaced. -/
theorem healthCheck_replacement_witness :
    healthCheckPlanModifier
      ⟨false, false, .null, .value ⟨.value "HTTP", .value "GET", .value "/", .null, .value 80⟩,
        .null⟩ = true :=
  (healthCheck_replacement
    ⟨false, false, .null, .value ⟨.value "HTTP", .value "GET", .value "/", .null, .value 80⟩,
      .null⟩).2.2.2.1 rfl rfl (by decide) rfl

/-- The target group schema accepts a health check whatever its method, provided
each attribute passes its own validator: with a known protocol from the table,
a known URI and a port in range, a null `method` raises no diagnostic. -/
theorem validateHealthCheckAttribute_null_method (sdk : TargetGroupEnums)
    (protocol uri : String) (host : TfString) (port : Int)
    (hprotocol : protocol ∈ sdk.AllowedProtocolEnumValues)
    (hport : 1 ≤ port ∧ port ≤ 65535) :
    validateHealthCheckAttribute sdk ⟨.value protocol, .null, .value uri, host, .value port⟩ =
      [] := by
  have hp : ¬(port < 1 ∨ port > 65535) := by omega
  simp [validateHealthCheckAttribute, requiredString, requiredInt32, stringvalidatorOneOf,
    int32validatorBetween, hprotocol, hp]

/-- C16 (the code at the failing input): a `health_check` with protocol `HTTP`
(or `HTTPS`) and a null `method` passes the validation of the schema without a
diagnostic, and `generateOpts` is reached with it and builds options without a
method, although the description of `method` says "Required if `protocol` is
`HTTP` or `HTTPS`". -/
theorem health_check_http_without_method_is_accepted :
    validateHealthCheckAttribute targetGroupEnums
      ⟨.value "HTTP", .null, .value "/health", .null, .value 80⟩ = [] ∧
    validateHealthCheckAttribute targetGroupEnums
      ⟨.value "HTTPS", .null, .value "/health", .null, .value 443⟩ = [] ∧
    healthCheckResourceModel.generateOpts sampleAdaptString
      ⟨.value "HTTP", .null, .value "/health", .null, .value 80⟩ =
      { Protocol := "HTTP", Uri := "/health", Port := 80, Method := none, Host := none } := by
  refine ⟨?_, ?_, by decide⟩
  · exact validateHealthCheckAttribute_null_method targetGroupEnums "HTTP" "/health" .null 80
      (by decide) (by decide)
  · exact validateHealthCheckAttribute_null_method targetGroupEnums "HTTPS" "/health" .null
      443 (by decide) (by decide)

/-! ## The load balancers data source -/

/-- The collection loop appends the results it receives, one per iteration. -/
theorem collectLoadBalancerDetails_results (results : List LoadBalancerDetails) :
    ∀ (remaining : Nat) (tail : List Arrival) (acc : List LoadBalancerDetails),
      collectLoadBalancerDetails (results.length + remaining)
          (results.map Arrival.result ++ tail) acc =
        collectLoadBalancerDetails remaining tail (acc ++ results) := by
  induction results with
  | nil => intro remaining tail acc; simp
  | cons res results ih =>
    intro remaining tail acc
    have hlen : (res :: results).length + remaining = (results.length + remaining) + 1 := by
      simp only [List.length_cons]
      omega
    rw [hlen]
    have h := ih remaining tail (acc ++ [res])
    simp only [List.append_assoc, List.singleton_append] at h
    simpa [collectLoadBalancerDetails] using h

/-- The state `Read` writes holds one load balancer per collected detail. -/
theorem length_state_loadBalancers (env : LoadBalancersEnv)
    (details : List LoadBalancerDetails) :
    ((sortLoadBalancerDetails details).map
      (adaptLoadBalancerDetailsToDataSource env)).length = details.length := by
  simp [sortLoadBalancerDetails, List.length_insertionSort]

/-- C11: in `loadBalancersDataSource.Read` the first observed error
short-circuits reporting. With the `n` listed load balancers and a sequence of
`n` arrivals (result or error) delivered to the collection loop: if the
sequence holds an error, the first such error is added to the diagnostics and
`Read` returns without writing any state; if all `n` arrivals are results, the
state is written, once, with exactly `n` load balancers. -/
theorem Read_first_error_short_circuits (fuel : Nat) (env : LoadBalancersEnv)
    (arrivals : List Arrival) (diagnostics : Diagnostics)
    (loadBalancers : List SdkLoadBalancer)
    (hlist : listLoadBalancers env fuel 0 none [] = some (.ok loadBalancers))
    (hlen : arrivals.length = loadBalancers.length) :
    (∀ (results : List LoadBalancerDetails) (err : loadBalancerDetailsErr)
        (rest : List Arrival),
      arrivals = results.map Arrival.result ++ Arrival.error err :: rest →
      loadBalancersDataSource.Read fuel env arrivals diagnostics =
          some (.returned (SdkError diagnostics err.err err.httpResponse) []) ∧
        Diagnostics.HasError (SdkError diagnostics err.err err.httpResponse) = true) ∧
    (∀ (results : List LoadBalancerDetails), arrivals = results.map Arrival.result →
      ∃ state,
        loadBalancersDataSource.Read fuel env arrivals diagnostics =
          some (.returned (diagnostics.Append (env.StateSet state)) [state]) ∧
        state.LoadBalancers.length = loadBalancers.length) := by
  constructor
  · intro results err rest harr
    refine ⟨?_, HasError_SdkError _ _ _⟩
    have hn : loadBalancers.length = results.length + (rest.length + 1) := by
      rw [← hlen, harr]
      simp
    have hcollect : collectLoadBalancerDetails loadBalancers.length arrivals [] =
        .failed err := by
      rw [hn, harr, collectLoadBalancerDetails_results]
      simp [collectLoadBalancerDetails]
    simp only [loadBalancersDataSource.Read, hlist, hcollect]
  · intro results harr
    have hn : loadBalancers.length = results.length + 0 := by
      rw [← hlen, harr]
      simp
    have hcollect : collectLoadBalancerDetails loadBalancers.length arrivals [] =
        .collected results := by
      have h := collectLoadBalancerDetails_results results 0 [] []
      simp only [List.append_nil, List.nil_append] at h
      rw [hn, harr, h]
      simp [collectLoadBalancerDetails]
    refine ⟨⟨(sortLoadBalancerDetails results).map
      (adaptLoadBalancerDetailsToDataSource env)⟩, ?_, ?_⟩
    · simp only [loadBalancersDataSource.Read, hlist, hcollect]
    · simp only [length_state_loadBalancers]
      omega

/-- C11 at a concrete input: two load balancers are listed, the first arrival is
the result for one of them and the second an error, which ends `Read` with the
error in the diagnostics and no state written. -/
theorem Read_first_error_short_circuits_witness :
    loadBalancersDataSource.Read 1 (sampleLoadBalancersEnv [⟨"lb-1"⟩, ⟨"lb-2"⟩])
        [.result ⟨"lb-2", "eu-west-3", "lsw.m3.large", none,
            ⟨1, 0, "HOURLY", none, "ACTIVE"⟩, "ACTIVE", []⟩,
          .error ⟨⟨"not found"⟩, some ⟨404⟩⟩] [] =
      some (.returned (SdkError [] ⟨"not found"⟩ (some ⟨404⟩)) []) :=
  ((Read_first_error_short_circuits 1 (sampleLoadBalancersEnv [⟨"lb-1"⟩, ⟨"lb-2"⟩])
    [.result ⟨"lb-2", "eu-west-3", "lsw.m3.large", none,
        ⟨1, 0, "HOURLY", none, "ACTIVE"⟩, "ACTIVE", []⟩,
      .error ⟨⟨"not found"⟩, some ⟨404⟩⟩] [] [⟨"lb-1"⟩, ⟨"lb-2"⟩] rfl rfl).1
    [⟨"lb-2", "eu-west-3", "lsw.m3.large", none, ⟨1, 0, "HOURLY", none, "ACTIVE"⟩,
      "ACTIVE", []⟩]
    ⟨⟨"not found"⟩, some ⟨404⟩⟩ [] rfl).1

/-! ## Conversions fail closed -/

/-- A converted image means the image id was accepted. -/
theorem convertImage_ok (env : ConvertEnv) (sdkImage : SdkImageDetails)
    (image : domain.Image) (h : convertImage env sdkImage = .ok image) :
    accepted (env.NewImageId sdkImage.Id) = true := by
  unfold convertImage at h
  cases hp : env.NewImageId sdkImage.Id with
  | error e => rw [hp] at h; cases h
  | ok v => rfl

/-- Converted addresses mean the network type of every address was accepted. -/
theorem convertIps_ok (env : ConvertEnv) :
    ∀ (sdkIps : List IpDetails) (ips : List Ip), convertIps env sdkIps = .ok ips →
      sdkIps.all (fun sdkIp => accepted (env.NewNetworkType sdkIp.NetworkType)) = true := by
  intro sdkIps
  induction sdkIps with
  | nil => intro ips _; rfl
  | cons sdkIp rest ih =>
    intro ips h
    simp only [convertIps, convertIp] at h
    cases hp : env.NewNetworkType sdkIp.NetworkType with
    | error e => rw [hp] at h; cases h
    | ok v =>
      rw [hp] at h
      simp only at h
      cases hrest : convertIps env rest with
      | error e => rw [hrest] at h; cases h
      | ok converted =>
        simp only [List.all_cons, Bool.and_eq_true]
        exact ⟨by rw [hp]; rfl, ih converted hrest⟩

/-- A converted contract means its four enum values were accepted. -/
theorem convertContract_ok (env : ConvertEnv) (sdkContract : SdkContract)
    (contract : domain.Contract) (h : convertContract env sdkContract = .ok contract) :
    accepted (env.NewContractBillingFrequency sdkContract.BillingFrequency) = true ∧
    accepted (env.NewContractTerm sdkContract.Term) = true ∧
    accepted (env.NewContractType sdkContract.Type_) = true ∧
    accepted (env.NewContractState sdkContract.State) = true := by
  unfold convertContract at h
  cases h1 : env.NewContractBillingFrequency sdkContract.BillingFrequency with
  | error e => rw [h1] at h; cases h
  | ok v1 =>
    cases h2 : env.NewContractTerm sdkContract.Term with
    | error e => rw [h1, h2] at h; cases h
    | ok v2 =>
      cases h3 : env.NewContractType sdkContract.Type_ with
      | error e => rw [h1, h2, h3] at h; cases h
      | ok v3 =>
        cases h4 : env.NewContractState sdkContract.State with
        | error e => rw [h1, h2, h3, h4] at h; cases h
        | ok v4 => exact ⟨rfl, rfl, rfl, rfl⟩

/-- A converted instance means every constituent parser accepted its input. -/
theorem convertInstance_ok (env : ConvertEnv) (sdkInstance : SdkInstanceDetails)
    (autoScalingGroup : Option AutoScalingGroup) (inst : domain.Instance)
    (h : convertInstance env sdkInstance autoScalingGroup = .ok inst) :
    instanceParsersAccept env sdkInstance = true := by
  unfold convertInstance at h
  cases h1 : env.NewUuid sdkInstance.Id with
  | error e => rw [h1] at h; cases h
  | ok v1 =>
    cases h2 : convertImage env sdkInstance.Image with
    | error e => rw [h1, h2] at h; cases h
    | ok v2 =>
      cases h3 : env.NewState sdkInstance.State with
      | error e => rw [h1, h2, h3] at h; cases h
      | ok v3 =>
        cases h4 : env.NewRootDiskSize sdkInstance.RootDiskSize with
        | error e => rw [h1, h2, h3, h4] at h; cases h
        | ok v4 =>
          cases h5 : env.NewRootDiskStorageType sdkInstance.RootDiskStorageType with
          | error e => rw [h1, h2, h3, h4, h5] at h; cases h
          | ok v5 =>
            cases h6 : convertIps env sdkInstance.Ips with
            | error e => rw [h1, h2, h3, h4, h5, h6] at h; cases h
            | ok v6 =>
              cases h7 : convertContract env sdkInstance.Contract with
              | error e => rw [h1, h2, h3, h4, h5, h6, h7] at h; cases h
              | ok v7 =>
                obtain ⟨c1, c2, c3, c4⟩ := convertContract_ok env _ _ h7
                have a1 : accepted (env.NewUuid sdkInstance.Id) = true := by rw [h1]; rfl
                have a3 : accepted (env.NewState sdkInstance.State) = true := by rw [h3]; rfl
                have a4 : accepted (env.NewRootDiskSize sdkInstance.RootDiskSize) = true := by
                  rw [h4]; rfl
                have a5 : accepted
                    (env.NewRootDiskStorageType sdkInstance.RootDiskStorageType) = true := by
                  rw [h5]; rfl
                simp only [instanceParsersAccept, a1, a3, a4, a5, convertImage_ok env _ _ h2,
                  convertIps_ok env _ _ h6, c1, c2, c3, c4, Bool.and_self]

/-- Launch options mean every value parser accepted its input. -/
theorem GetLaunchLoadBalancerOpts_ok (env : LoadBalancerEnv) (l : loadBalancerResourceModel)
    (opts : LaunchLoadBalancerOpts) (h : GetLaunchLoadBalancerOpts env l = .ok opts) :
    launchParsersAccept env l = true := by
  unfold GetLaunchLoadBalancerOpts at h
  cases hc : env.ContractAs l.Contract with
  | mk diags contract =>
    rw [hc] at h
    cases diags with
    | some d => cases h
    | none =>
      simp only at h
      cases h1 : env.NewContractTypeFromValue contract.Type_.ValueString with
      | error e => rw [h1] at h; cases h
      | ok v1 =>
        cases h2 : env.NewContractTermFromValue contract.Term.ValueInt32 with
        | error e => rw [h1, h2] at h; cases h
        | ok v2 =>
          cases h3 : env.NewBillingFrequencyFromValue contract.BillingFrequency.ValueInt32 with
          | error e => rw [h1, h2, h3] at h; cases h
          | ok v3 =>
            cases h4 : env.NewRegionNameFromValue l.Region.ValueString with
            | error e => rw [h1, h2, h3, h4] at h; cases h
            | ok v4 =>
              cases h5 : env.NewTypeNameFromValue l.Type_.ValueString with
              | error e => rw [h1, h2, h3, h4, h5] at h; cases h
              | ok v5 =>
                have a1 : accepted
                    (env.NewContractTypeFromValue contract.Type_.ValueString) = true := by
                  rw [h1]; rfl
                have a2 : accepted
                    (env.NewContractTermFromValue contract.Term.ValueInt32) = true := by
                  rw [h2]; rfl
                have a3 : accepted
                    (env.NewBillingFrequencyFromValue
                      contract.BillingFrequency.ValueInt32) = true := by
                  rw [h3]; rfl
                have a4 : accepted (env.NewRegionNameFromValue l.Region.ValueString) =
                    true := by
                  rw [h4]; rfl
                have a5 : accepted (env.NewTypeNameFromValue l.Type_.ValueString) = true := by
                  rw [h5]; rfl
                simp only [launchParsersAccept, hc, a1, a2, a3, a4, a5, Bool.and_self]

/-- C17: the SDK-to-domain conversion fails closed. `convertInstance` returns a
non-nil instance only when every constituent parser accepted its input (the
instance id as a UUID, the image id, the state, the root disk size, the root
disk storage type, the network type of every IP, and the billing frequency,
term, type and state of the contract), and returns `(nil, error)` whenever one
of them rejects; likewise `GetLaunchLoadBalancerOpts` returns options only when
the SDK parsers accepted the contract type, contract term, billing frequency,
region and type, and returns `(nil, error)` whenever one of them rejects. -/
theorem conversions_fail_closed (env : ConvertEnv) (sdkInstance : SdkInstanceDetails)
    (autoScalingGroup : Option AutoScalingGroup) (lbEnv : LoadBalancerEnv)
    (l : loadBalancerResourceModel) :
    (∀ inst, convertInstance env sdkInstance autoScalingGroup = .ok inst →
      instanceParsersAccept env sdkInstance = true) ∧
    (instanceParsersAccept env sdkInstance = false →
      ∃ err, convertInstance env sdkInstance autoScalingGroup = .error err) ∧
    (∀ opts, GetLaunchLoadBalancerOpts lbEnv l = .ok opts →
      launchParsersAccept lbEnv l = true) ∧
    (launchParsersAccept lbEnv l = false →
      ∃ err, GetLaunchLoadBalancerOpts lbEnv l = .error err) := by
  refine ⟨fun inst h => convertInstance_ok env sdkInstance autoScalingGroup inst h, ?_,
    fun opts h => GetLaunchLoadBalancerOpts_ok lbEnv l opts h, ?_⟩
  · intro hrej
    cases h : convertInstance env sdkInstance autoScalingGroup with
    | error err => exact ⟨err, rfl⟩
    | ok inst =>
      rw [convertInstance_ok env sdkInstance autoScalingGroup inst h] at hrej
      cases hrej
  · intro hrej
    cases h : GetLaunchLoadBalancerOpts lbEnv l with
    | error err => exact ⟨err, rfl⟩
    | ok opts =>
      rw [GetLaunchLoadBalancerOpts_ok lbEnv l opts h] at hrej
      cases hrej

/-- C17 at a concrete input: an SDK instance whose state the parser rejects is
not converted. -/
theorem conversions_fail_closed_witness :
    ∃ err, convertInstance sampleConvertEnv
      (sampleSdkInstance "ace712e9-a166-47f1-9065-4af0f7e7fce1" "BROKEN") none =
        .error err :=
  (conversions_fail_closed sampleConvertEnv
    (sampleSdkInstance "ace712e9-a166-47f1-9065-4af0f7e7fce1" "BROKEN") none
    (sampleLoadBalancerEnv
      ⟨.value "lb-1", .value "eu-west-3", .value "lsw.m3.large", .null, .null⟩
      ⟨"lb-1", "eu-west-3", "lsw.m3.large", none, ⟨1, 0, "HOURLY", none, "ACTIVE"⟩,
        "ACTIVE", []⟩
      (.ok .null))
    ⟨.value "lb-1", .value "eu-west-3", .value "lsw.m3.large", .null, .null⟩).2.1
    (by decide)

/-! ## The polling loop and unsupported property names -/

/-- C25: `waitUntilPropertyValueEquals` compares only the two named fields. For
every `propertyName` other than "state" and "has_private_network", every
`expectedValue` and every sequence of API responses, it returns after exactly
one `GetInstance` call and never with instance details: with the HTTP response
and error of that call if it failed, otherwise with a nil response and the
error "unsupported property name: <propertyName>". -/
theorem waitUntilPropertyValueEquals_only_named_fields (api : Nat → InstanceResponse)
    (instanceId propertyName : String) (expectedValue : AnyValue) (fuel : Nat)
    (hstate : propertyName ≠ "state") (hnet : propertyName ≠ "has_private_network") :
    ∃ out, waitUntilPropertyValueEquals (fuel + 1) api instanceId propertyName
        expectedValue = some out ∧
      out.world = ⟨1, [Event.getInstance instanceId]⟩ ∧
      out.result.details = none ∧
      (∀ err, (api 0).err = some err →
        out.result = ⟨none, (api 0).httpResponse, some err⟩) ∧
      ((api 0).err = none →
        out.result = ⟨none, none, some ⟨"unsupported property name: " ++ propertyName⟩⟩) := by
  cases herr : (api 0).err with
  | some err =>
    refine ⟨⟨⟨none, (api 0).httpResponse, some err⟩, ⟨1, [Event.getInstance instanceId]⟩⟩,
      ?_, rfl, rfl, ?_, ?_⟩
    · simp [waitUntilPropertyValueEquals, pollLoop, pollStep, maxRetries, herr]
    · intro e he
      cases he
      rfl
    · intro h
      cases h
  | none =>
    refine ⟨⟨⟨none, none, some ⟨"unsupported property name: " ++ propertyName⟩⟩,
      ⟨1, [Event.getInstance instanceId]⟩⟩, ?_, rfl, rfl, ?_, ?_⟩
    · exact waitUntilPropertyValueEquals_unsupported api instanceId propertyName
        expectedValue fuel hstate hnet herr
    · intro e he
      cases he
    · intro _
      rfl

/-- C25 at a concrete input: the property name `reference` is not supported. -/
theorem waitUntilPropertyValueEquals_only_named_fields_witness :
    ∃ out, waitUntilPropertyValueEquals 31
        (fun _ => ⟨some ⟨"ace712e9", "RUNNING", false⟩, some ⟨200⟩, none⟩)
        "ace712e9" "reference" (.string "my webserver") = some out ∧
      out.world = ⟨1, [Event.getInstance "ace712e9"]⟩ ∧
      out.result.details = none ∧
      (∀ err, (none : Option GoError) = some err →
        out.result = ⟨none, some ⟨200⟩, some err⟩) ∧
      ((none : Option GoError) = none →
        out.result = ⟨none, none, some ⟨"unsupported property name: " ++ "reference"⟩⟩) :=
  waitUntilPropertyValueEquals_only_named_fields
    (fun _ => ⟨some ⟨"ace712e9", "RUNNING", false⟩, some ⟨200⟩, none⟩)
    "ace712e9" "reference" (.string "my webserver") 30 (by decide) (by decide)

/-! ## Update and launch options -/

/-- Within the range of `int32` the conversion `int32(v)` keeps the value. -/
theorem int32_of_range (v : Int) (hlow : -2147483648 ≤ v) (hhigh : v < 2147483648) :
    int32 v = v := by
  unfold int32
  omega

/-- On success `convertEntityToUpdateInstanceOpts` sets each of the four guarded
fields exactly when the instance holds a non-zero value, with the answer of the
SDK parser to the narrowed value, and the root disk size exactly when it is not
0, narrowed to `int32`. -/
theorem convertEntityToUpdateInstanceOpts_ok (sdk : SdkParsers) (inst : domain.Instance)
    (opts : UpdateInstanceOpts)
    (h : convertEntityToUpdateInstanceOpts sdk inst = .ok opts) :
    (opts.ContractTerm.isSome = true ↔ inst.Contract.Term ≠ 0) ∧
    (opts.BillingFrequency.isSome = true ↔ inst.Contract.BillingFrequency ≠ 0) ∧
    (opts.ContractType.isSome = true ↔ inst.Contract.Type_ ≠ "") ∧
    (opts.Type_.isSome = true ↔ inst.Type_ ≠ "") ∧
    opts.RootDiskSize =
      (if inst.RootDiskSize.Value = 0 then none else some (int32 inst.RootDiskSize.Value)) ∧
    opts.Reference = inst.Reference ∧
    (∀ v, opts.ContractTerm = some v →
      sdk.NewContractTermFromValue (int32 inst.Contract.Term) = .ok v) ∧
    (∀ v, opts.BillingFrequency = some v →
      sdk.NewBillingFrequencyFromValue (int32 inst.Contract.BillingFrequency) = .ok v) := by
  unfold convertEntityToUpdateInstanceOpts at h
  by_cases h1 : inst.Type_ = "" <;> by_cases h2 : inst.Contract.Type_ = "" <;>
    by_cases h3 : inst.Contract.Term = 0 <;>
    by_cases h4 : inst.Contract.BillingFrequency = 0 <;>
    by_cases h5 : inst.RootDiskSize.Value = 0 <;>
    cases p1 : sdk.NewInstanceTypeNameFromValue inst.Type_ <;>
    cases p2 : sdk.NewContractTypeFromValue inst.Contract.Type_ <;>
    cases p3 : sdk.NewContractTermFromValue (int32 inst.Contract.Term) <;>
    cases p4 : sdk.NewBillingFrequencyFromValue (int32 inst.Contract.BillingFrequency) <;>
    simp [h1, h2, h3, h4, h5, p1, p2, p3, p4] at h <;>
    subst h <;> simp [h1, h2, h3, h4, h5]

/-- C28 (counterexample): a domain instance whose contract term is 4294967296,
which is not 0. `convertEntityToUpdateInstanceOpts` narrows the term with
`int32(...)` to 0, the SDK parser over the enum tables accepts 0 as a contract
term, and the update options hold the contract term 0. -/
theorem update_opts_transmit_zero_term :
    (sampleDomainInstance 0 4294967296).Contract.Term ≠ 0 ∧
    int32 (sampleDomainInstance 0 4294967296).Contract.Term = 0 ∧
    convertEntityToUpdateInstanceOpts (tableSdkParsers publiccloudEnums)
        (sampleDomainInstance 0 4294967296) =
      .ok ⟨some "lsw.m3.large", some "my webserver", some "MONTHLY", some 0, some 1, none⟩ := by
  refine ⟨by decide, by decide, ?_⟩
  rfl

/-- C28 (amended): the options built by `instanceResource.Update` hold a contract
term if and only if the planned term is not 0 (and then that term, never 0), a
billing frequency if and only if it is not 0, a contract type if and only if it
is not the empty string and an instance type if and only if it is not the empty
string. The options `convertEntityToUpdateInstanceOpts` returns hold each of the
four under the same condition on the domain instance; the term and the billing
frequency they hold are the answers of the SDK parsers to the value narrowed
with `int32(...)`, so that for a value within the range of `int32` and a parser
that returns the value it accepts, the options hold exactly the non-zero domain
value and never 0. -/
theorem update_opts_omit_zero_values
    (adaptString : TfString → Option String) (adaptInt32 : TfInt32 → Option Int)
    (planReference planType : TfString) (planRootDiskSize : TfInt32)
    (contract : contractResourceModel) (sdk : SdkParsers) (inst : domain.Instance) :
    (instanceResource.updateOpts adaptString adaptInt32 planReference planType
        planRootDiskSize contract).ContractTerm =
      (if contract.Term.ValueInt32 = 0 then none else some contract.Term.ValueInt32) ∧
    (instanceResource.updateOpts adaptString adaptInt32 planReference planType
        planRootDiskSize contract).BillingFrequency =
      (if contract.BillingFrequency.ValueInt32 = 0 then none
        else some contract.BillingFrequency.ValueInt32) ∧
    (instanceResource.updateOpts adaptString adaptInt32 planReference planType
        planRootDiskSize contract).ContractType =
      (if contract.Type_.ValueString = "" then none else some contract.Type_.ValueString) ∧
    (instanceResource.updateOpts adaptString adaptInt32 planReference planType
        planRootDiskSize contract).Type_ =
      (if planType.ValueString = "" then none else some planType.ValueString) ∧
    (instanceResource.updateOpts adaptString adaptInt32 planReference planType
        planRootDiskSize contract).ContractTerm ≠ some 0 ∧
    (instanceResource.updateOpts adaptString adaptInt32 planReference planType
        planRootDiskSize contract).BillingFrequency ≠ some 0 ∧
    (∀ opts : UpdateInstanceOpts, convertEntityToUpdateInstanceOpts sdk inst = .ok opts →
      (opts.ContractTerm.isSome = true ↔ inst.Contract.Term ≠ 0) ∧
      (opts.BillingFrequency.isSome = true ↔ inst.Contract.BillingFrequency ≠ 0) ∧
      (opts.ContractType.isSome = true ↔ inst.Contract.Type_ ≠ "") ∧
      (opts.Type_.isSome = true ↔ inst.Type_ ≠ "") ∧
      (∀ v, opts.ContractTerm = some v →
        sdk.NewContractTermFromValue (int32 inst.Contract.Term) = .ok v) ∧
      (∀ v, opts.BillingFrequency = some v →
        sdk.NewBillingFrequencyFromValue (int32 inst.Contract.BillingFrequency) = .ok v) ∧
      ((∀ v r, sdk.NewContractTermFromValue v = .ok r → r = v) →
        -2147483648 ≤ inst.Contract.Term → inst.Contract.Term < 2147483648 →
        opts.ContractTerm =
            (if inst.Contract.Term = 0 then none else some inst.Contract.Term) ∧
          opts.ContractTerm ≠ some 0) ∧
      ((∀ v r, sdk.NewBillingFrequencyFromValue v = .ok r → r = v) →
        -2147483648 ≤ inst.Contract.BillingFrequency →
        inst.Contract.BillingFrequency < 2147483648 →
        opts.BillingFrequency =
            (if inst.Contract.BillingFrequency = 0 then none
              else some inst.Contract.BillingFrequency) ∧
          opts.BillingFrequency ≠ some 0)) := by
  have hterm : (instanceResource.updateOpts adaptString adaptInt32 planReference planType
        planRootDiskSize contract).ContractTerm =
      (if contract.Term.ValueInt32 = 0 then none else some contract.Term.ValueInt32) := by
    unfold instanceResource.updateOpts
    by_cases h1 : contract.Type_.ValueString = "" <;>
      by_cases h2 : contract.Term.ValueInt32 = 0 <;>
      by_cases h3 : contract.BillingFrequency.ValueInt32 = 0 <;>
      by_cases h4 : planType.ValueString = "" <;> simp [h1, h2, h3, h4]
  have hfreq : (instanceResource.updateOpts adaptString adaptInt32 planReference planType
        planRootDiskSize contract).BillingFrequency =
      (if contract.BillingFrequency.ValueInt32 = 0 then none
        else some contract.BillingFrequency.ValueInt32) := by
    unfold instanceResource.updateOpts
    by_cases h1 : contract.Type_.ValueString = "" <;>
      by_cases h2 : contract.Term.ValueInt32 = 0 <;>
      by_cases h3 : contract.BillingFrequency.ValueInt32 = 0 <;>
      by_cases h4 : planType.ValueString = "" <;> simp [h1, h2, h3, h4]
  have hsome : ∀ (field : Option Int) (value : Int) (parsed : Int → Except GoError Int),
      (field.isSome = true ↔ value ≠ 0) →
      (∀ v, field = some v → parsed (int32 value) = .ok v) →
      (∀ v r, parsed v = .ok r → r = v) →
      -2147483648 ≤ value → value < 2147483648 →
      field = (if value = 0 then none else some value) ∧ field ≠ some 0 := by
    intro field value parsed hiff hval hret hlow hhigh
    cases hf : field with
    | none =>
      have h0 : value = 0 := by
        by_contra hne
        have := hiff.2 hne
        rw [hf] at this
        cases this
      simp [h0]
    | some v =>
      have hne : value ≠ 0 := hiff.1 (by rw [hf]; rfl)
      have hv : v = value := by
        have h1 := hret _ _ (hval v hf)
        rw [int32_of_range value hlow hhigh] at h1
        exact h1
      subst hv
      simp [hne]
  refine ⟨hterm, hfreq, ?_, ?_, ?_, ?_, ?_⟩
  · unfold instanceResource.updateOpts
    by_cases h1 : contract.Type_.ValueString = "" <;>
      by_cases h2 : contract.Term.ValueInt32 = 0 <;>
      by_cases h3 : contract.BillingFrequency.ValueInt32 = 0 <;>
      by_cases h4 : planType.ValueString = "" <;> simp [h1, h2, h3, h4]
  · unfold instanceResource.updateOpts
    by_cases h1 : contract.Type_.ValueString = "" <;>
      by_cases h2 : contract.Term.ValueInt32 = 0 <;>
      by_cases h3 : contract.BillingFrequency.ValueInt32 = 0 <;>
      by_cases h4 : planType.ValueString = "" <;> simp [h1, h2, h3, h4]
  · rw [hterm]
    by_cases h2 : contract.Term.ValueInt32 = 0
    · simp [h2]
    · simp [h2]
  · rw [hfreq]
    by_cases h3 : contract.BillingFrequency.ValueInt32 = 0
    · simp [h3]
    · simp [h3]
  · intro opts h
    have hok := convertEntityToUpdateInstanceOpts_ok sdk inst opts h
    exact ⟨hok.1, hok.2.1, hok.2.2.1, hok.2.2.2.1, hok.2.2.2.2.2.2.1, hok.2.2.2.2.2.2.2,
      fun hret hlow hhigh =>
        hsome _ _ _ hok.1 hok.2.2.2.2.2.2.1 hret hlow hhigh,
      fun hret hlow hhigh =>
        hsome _ _ _ hok.2.1 hok.2.2.2.2.2.2.2 hret hlow hhigh⟩

/-- C28 at a concrete input: an HOURLY plan with term 0, and a domain instance
with contract term 3 converted with the SDK parsers over the enum tables. -/
theorem update_opts_omit_zero_values_witness :
    (instanceResource.updateOpts sampleAdaptString sampleAdaptInt32 (.value "my webserver")
        (.value "lsw.m4.large") .null
        ⟨.value 1, .value 0, .value "HOURLY", .null, .null⟩).ContractTerm = none ∧
    (instanceResource.updateOpts sampleAdaptString sampleAdaptInt32 (.value "my webserver")
        (.value "lsw.m4.large") .null
        ⟨.value 1, .value 0, .value "HOURLY", .null, .null⟩).BillingFrequency = some 1 ∧
    convertEntityToUpdateInstanceOpts (tableSdkParsers publiccloudEnums)
        (sampleDomainInstance 0 3) =
      .ok ⟨some "lsw.m3.large", some "my webserver", some "MONTHLY", some 3, some 1, none⟩ ∧
    (some 3 : Option Int) ≠ some 0 := by
  have h := update_opts_omit_zero_values sampleAdaptString sampleAdaptInt32
    (.value "my webserver") (.value "lsw.m4.large") .null
    ⟨.value 1, .value 0, .value "HOURLY", .null, .null⟩ (tableSdkParsers publiccloudEnums)
    (sampleDomainInstance 0 3)
  have hconv : convertEntityToUpdateInstanceOpts (tableSdkParsers publiccloudEnums)
      (sampleDomainInstance 0 3) =
      .ok ⟨some "lsw.m3.large", some "my webserver", some "MONTHLY", some 3, some 1, none⟩ :=
    rfl
  have hret : ∀ v r, (tableSdkParsers publiccloudEnums).NewContractTermFromValue v = .ok r →
      r = v := by
    intro v r hv
    simp only [tableSdkParsers] at hv
    split at hv
    · injection hv with hv
      exact hv.symm
    · cases hv
  exact ⟨h.1, h.2.1, hconv,
    ((h.2.2.2.2.2.2 _ hconv).2.2.2.2.2.2.1 hret (by decide) (by decide)).2⟩

/-- C24: the launch options drop the root disk size. Whatever the domain
instance holds, the options `convertEntityToLaunchInstanceOpts` returns carry
its region, market app id, reference and SSH key but no root disk size, while
`convertEntityToUpdateInstanceOpts` carries a non-zero root disk size into the
update options. For a domain instance with a root disk size of 50 the launch
options carry every other creation field but not the size, and the update
options carry the 50. -/
theorem launch_opts_drop_root_disk_size :
    (∀ (sdk : SdkParsers) (inst : domain.Instance) (opts : LaunchInstanceOpts),
      convertEntityToLaunchInstanceOpts sdk inst = .ok opts →
      opts.RootDiskSize = none ∧ opts.Region = inst.Region ∧
      opts.MarketAppId = inst.MarketAppId ∧ opts.Reference = inst.Reference ∧
      opts.SshKey = inst.SshKey.map (·.value)) ∧
    (∀ (sdk : SdkParsers) (inst : domain.Instance) (opts : UpdateInstanceOpts),
      convertEntityToUpdateInstanceOpts sdk inst = .ok opts →
      inst.RootDiskSize.Value ≠ 0 →
      opts.RootDiskSize = some (int32 inst.RootDiskSize.Value)) ∧
    (sampleDomainInstance 50 1).RootDiskSize = ⟨50⟩ ∧
    convertEntityToLaunchInstanceOpts (tableSdkParsers publiccloudEnums)
        (sampleDomainInstance 50 1) =
      .ok ⟨"eu-west-3", "lsw.m3.large", "UBUNTU_22_04_64BIT", "MONTHLY", 1, 1, "CENTRAL",
        none, some "my webserver", some "ssh-rsa AAAA", none⟩ ∧
    convertEntityToUpdateInstanceOpts (tableSdkParsers publiccloudEnums)
        (sampleDomainInstance 50 1) =
      .ok ⟨some "lsw.m3.large", some "my webserver", some "MONTHLY", some 1, some 1,
        some 50⟩ := by
  refine ⟨?_, ?_, rfl, rfl, rfl⟩
  · intro sdk inst opts h
    unfold convertEntityToLaunchInstanceOpts at h
    cases p1 : sdk.NewInstanceTypeNameFromValue inst.Type_ <;>
      cases p2 : sdk.NewRootDiskStorageTypeFromValue inst.RootDiskStorageType <;>
      cases p3 : sdk.NewImageIdFromValue inst.Image.Id <;>
      cases p4 : sdk.NewContractTypeFromValue inst.Contract.Type_ <;>
      cases p5 : sdk.NewContractTermFromValue (int32 inst.Contract.Term) <;>
      cases p6 : sdk.NewBillingFrequencyFromValue (int32 inst.Contract.BillingFrequency) <;>
      cases p7 : inst.SshKey <;>
      simp [p1, p2, p3, p4, p5, p6, p7] at h <;>
      subst h <;> simp
  · intro sdk inst opts h hne
    rw [(convertEntityToUpdateInstanceOpts_ok sdk inst opts h).2.2.2.2.1, if_neg hne]

/-! ## Auto scaling groups -/

/-- The function `convertNullableInt32ToValue` returns its argument: nil for a
null value and otherwise a pointer to the same integer. -/
theorem convertNullableInt32ToValue_eq (v : Option Int) :
    convertNullableInt32ToValue v = v := by
  cases v <;> rfl

/-- C29: `convertAutoScalingGroup` refuses an auto scaling group whose load
balancer was not supplied. If the SDK group references a load balancer and the
`loadBalancer` argument is nil, it returns `errLoadBalancerNotFound` whatever
the parsers would say and whatever the other fields hold; when it returns an
auto scaling group, that group's `LoadBalancer` is the `loadBalancer` argument
and each nullable int32 option is nil exactly when the SDK value is null and
otherwise holds the same integer; and it does return one whenever the four
parsers accept and the load balancer is supplied or not referenced. -/
theorem convertAutoScalingGroup_load_balancer (env : AutoScalingGroupParsers)
    (quote : String → String) (sdkAutoScalingGroup : SdkAutoScalingGroupDetails)
    (loadBalancer : Option LoadBalancer) :
    (∀ sdkLoadBalancer : SdkLoadBalancer,
      sdkAutoScalingGroup.LoadBalancer = some sdkLoadBalancer → loadBalancer = none →
      convertAutoScalingGroup env quote sdkAutoScalingGroup loadBalancer =
        .error (.loadBalancerNotFound
          ⟨loadBalancerNotFoundMessage quote sdkLoadBalancer.Id sdkAutoScalingGroup.Id⟩)) ∧
    (∀ autoScalingGroup : AutoScalingGroup,
      convertAutoScalingGroup env quote sdkAutoScalingGroup loadBalancer =
        .ok autoScalingGroup →
      autoScalingGroup.LoadBalancer = loadBalancer ∧
      autoScalingGroup.DesiredAmount = sdkAutoScalingGroup.DesiredAmount ∧
      autoScalingGroup.MinimumAmount = sdkAutoScalingGroup.MinimumAmount ∧
      autoScalingGroup.MaximumAmount = sdkAutoScalingGroup.MaximumAmount ∧
      autoScalingGroup.CpuThreshold = sdkAutoScalingGroup.CpuThreshold ∧
      autoScalingGroup.CooldownTime = sdkAutoScalingGroup.CooldownTime ∧
      autoScalingGroup.WarmupTime = sdkAutoScalingGroup.WarmupTime) ∧
    (∀ (id : Uuid) (type state : String) (reference : AutoScalingGroupReference),
      (sdkAutoScalingGroup.LoadBalancer = none ∨ loadBalancer ≠ none) →
      env.NewUuid sdkAutoScalingGroup.Id = .ok id →
      env.NewAutoScalingGroupType sdkAutoScalingGroup.Type_ = .ok type →
      env.NewAutoScalingGroupState sdkAutoScalingGroup.State = .ok state →
      env.NewAutoScalingGroupReference sdkAutoScalingGroup.Reference = .ok reference →
      ∃ autoScalingGroup,
        convertAutoScalingGroup env quote sdkAutoScalingGroup loadBalancer =
          .ok autoScalingGroup) := by
  refine ⟨?_, ?_, ?_⟩
  · intro sdkLoadBalancer hsdk hnone
    unfold convertAutoScalingGroup
    rw [hsdk, hnone]
  · intro autoScalingGroup h
    unfold convertAutoScalingGroup at h
    cases hl : sdkAutoScalingGroup.LoadBalancer <;> cases hb : loadBalancer <;>
      cases p1 : env.NewUuid sdkAutoScalingGroup.Id <;>
      cases p2 : env.NewAutoScalingGroupType sdkAutoScalingGroup.Type_ <;>
      cases p3 : env.NewAutoScalingGroupState sdkAutoScalingGroup.State <;>
      cases p4 : env.NewAutoScalingGroupReference sdkAutoScalingGroup.Reference <;>
      simp [hl, hb, p1, p2, p3, p4] at h <;>
      subst h <;>
      simp [NewAutoScalingGroup, convertNullableInt32ToValue_eq]
  · intro id type state reference hlb p1 p2 p3 p4
    unfold convertAutoScalingGroup
    rcases hlb with hl | hb
    · simp [hl, p1, p2, p3, p4]
    · cases hb2 : loadBalancer with
      | none => exact absurd hb2 hb
      | some lb =>
        cases hl : sdkAutoScalingGroup.LoadBalancer <;> simp [p1, p2, p3, p4]

/-- C29 at a concrete input: a group that references `lb-1`, converted without
a load balancer by parsers that refuse everything, and with one by parsers that
accept. -/
theorem convertAutoScalingGroup_load_balancer_witness :
    convertAutoScalingGroup refusingAutoScalingGroupParsers plainQuote
        sampleSdkAutoScalingGroup none =
      .error (.loadBalancerNotFound
        ⟨"required loadBalacner \"lb-1\" linked to autoScalingGroup \"90b9f2cc\" has not been passed"⟩) ∧
    (∃ autoScalingGroup,
      convertAutoScalingGroup sampleAutoScalingGroupParsers plainQuote
          sampleSdkAutoScalingGroup (some ⟨7⟩) = .ok autoScalingGroup ∧
        autoScalingGroup.LoadBalancer = some ⟨7⟩ ∧
        autoScalingGroup.DesiredAmount = some 3 ∧
        autoScalingGroup.MaximumAmount = none) := by
  have h := convertAutoScalingGroup_load_balancer refusingAutoScalingGroupParsers plainQuote
    sampleSdkAutoScalingGroup none
  have g := convertAutoScalingGroup_load_balancer sampleAutoScalingGroupParsers plainQuote
    sampleSdkAutoScalingGroup (some ⟨7⟩)
  refine ⟨h.1 ⟨"lb-1"⟩ rfl rfl, ?_⟩
  obtain ⟨asg, hasg⟩ := g.2.2 ⟨"90b9f2cc"⟩ "CPU_BASED" "ACTIVE" ⟨"web"⟩
    (Or.inr (by simp)) rfl rfl rfl rfl
  have hf := g.2.1 asg hasg
  exact ⟨asg, hasg, hf.1, hf.2.1, hf.2.2.2.1⟩

/-! ## Billing frequency 0 of a load balancer contract -/

/-- C22 (the code at the failing input): with the enum tables of the SDK, whose
billing frequencies do not list 0, the `contract` schema of the load balancer
resource accepts billing frequency 0 without a diagnostic, yet
`GetLaunchLoadBalancerOpts` returns the error of
`NewBillingFrequencyFromValue` for that plan; with billing frequency 1 it
returns options. In general, whenever the SDK parser refuses 0 and the contract
decodes with billing frequency 0, no options are returned. -/
theorem launch_opts_refuse_billing_frequency_0 :
    validateLoadBalancerContractAttribute publiccloudEnums
        ⟨.value 0, .value 0, .value "HOURLY"⟩ = [] ∧
    GetLaunchLoadBalancerOpts
        (tableLoadBalancerEnv publiccloudEnums hourlyLoadBalancerPlan
          ⟨"lb-1", "eu-west-3", "lsw.m3.large", none, ⟨1, 0, "HOURLY", none, "ACTIVE"⟩,
            "ACTIVE", []⟩ (.ok .null))
        hourlyLoadBalancerPlan = .error ⟨"invalid value for BillingFrequency"⟩ ∧
    GetLaunchLoadBalancerOpts
        (tableLoadBalancerEnv publiccloudEnums hourlyLoadBalancerPlan
          ⟨"lb-1", "eu-west-3", "lsw.m3.large", none, ⟨1, 0, "HOURLY", none, "ACTIVE"⟩,
            "ACTIVE", []⟩ (.ok .null))
        { hourlyLoadBalancerPlan with
          Contract := .value ⟨.value 1, .value 0, .value "HOURLY", .unknown, .unknown⟩ } =
      .ok ⟨"eu-west-3", "lsw.m3.large", "HOURLY", 0, 1, none⟩ ∧
    (∀ (env : LoadBalancerEnv) (l : loadBalancerResourceModel),
      accepted (env.NewBillingFrequencyFromValue 0) = false →
      (env.ContractAs l.Contract).2.BillingFrequency.ValueInt32 = 0 →
      accepted (GetLaunchLoadBalancerOpts env l) = false) := by
  refine ⟨by decide, rfl, rfl, ?_⟩
  intro env l h0 hbf
  unfold GetLaunchLoadBalancerOpts
  rcases hc : env.ContractAs l.Contract with ⟨diags, contract⟩
  rw [hc] at hbf
  simp only at hbf
  cases diags with
  | some d => rfl
  | none =>
    simp only [hbf]
    cases p1 : env.NewContractTypeFromValue contract.Type_.ValueString with
    | error e => rfl
    | ok v1 =>
      cases p2 : env.NewContractTermFromValue contract.Term.ValueInt32 with
      | error e => rfl
      | ok v2 =>
        cases p3 : env.NewBillingFrequencyFromValue 0 with
        | error e => rfl
        | ok v3 =>
          rw [p3] at h0
          cases h0

/-! ## The password of a credential resource -/

/-- C30 (the code at the failing input): in the schema of the dedicated server
credential resource the attribute `password` is not marked Sensitive, while in
the schema of the public cloud credential resource it is; in both schemas
`password` is the only attribute of that name and the others are the server or
instance id, the username and the type. -/
theorem dedicatedserver_password_not_sensitive :
    (credentialAttribute dedicatedserver.credentialSchema "password").map
        CredentialAttribute.IsSensitive = some false ∧
    (credentialAttribute publiccloud.credentialSchema "password").map
        CredentialAttribute.IsSensitive = some true ∧
    dedicatedserver.credentialSchema.map (·.name) =
      ["dedicated_server_id", "username", "type", "password"] ∧
    publiccloud.credentialSchema.map (·.name) =
      ["instance_id", "username", "type", "password"] ∧
    (∀ a ∈ dedicatedserver.credentialSchema, a.IsSensitive = false) := by
  decide

/-! ## The order of the load balancers in the state -/

/-- Sorting by id gives a list whose ids ascend. -/
theorem sortLoadBalancerDetails_sorted (l : List LoadBalancerDetails) :
    List.Pairwise (fun a b : LoadBalancerDetails => a.Id ≤ b.Id)
      (sortLoadBalancerDetails l) := by
  haveI : IsTotal LoadBalancerDetails (fun a b => a.Id ≤ b.Id) :=
    ⟨fun a b => le_total a.Id b.Id⟩
  haveI : IsTrans LoadBalancerDetails (fun a b => a.Id ≤ b.Id) :=
    ⟨fun _ _ _ hab hbc => le_trans hab hbc⟩
  exact List.sorted_insertionSort (fun a b : LoadBalancerDetails => a.Id ≤ b.Id) l

/-- Sorting by id keeps the details: the result is a permutation. -/
theorem sortLoadBalancerDetails_perm (l : List LoadBalancerDetails) :
    (sortLoadBalancerDetails l).Perm l :=
  List.perm_insertionSort _ l

/-- With pairwise distinct ids the sorted list ascends strictly. -/
theorem sortLoadBalancerDetails_strict (l : List LoadBalancerDetails)
    (hdistinct : (l.map (·.Id)).Nodup) :
    List.Pairwise (fun a b : LoadBalancerDetails => a.Id < b.Id)
      (sortLoadBalancerDetails l) := by
  have hs := sortLoadBalancerDetails_sorted l
  have hn : ((sortLoadBalancerDetails l).map (·.Id)).Nodup :=
    ((sortLoadBalancerDetails_perm l).map _).nodup_iff.2 hdistinct
  have hne : List.Pairwise (fun a b : LoadBalancerDetails => a.Id ≠ b.Id)
      (sortLoadBalancerDetails l) := by
    have h := hn
    unfold List.Nodup at h
    rwa [List.pairwise_map] at h
  exact (hs.and hne).imp (fun h => lt_of_le_of_ne h.1 h.2)

/-- With pairwise distinct ids, the sorted list does not depend on the order of
the details sorted. -/
theorem sortLoadBalancerDetails_eq_of_perm (l₁ l₂ : List LoadBalancerDetails)
    (hperm : l₁.Perm l₂) (hdistinct : (l₁.map (·.Id)).Nodup) :
    sortLoadBalancerDetails l₁ = sortLoadBalancerDetails l₂ := by
  have hdistinct2 : (l₂.map (·.Id)).Nodup := (hperm.map _).nodup_iff.1 hdistinct
  have s1 := sortLoadBalancerDetails_strict l₁ hdistinct
  have s2 := sortLoadBalancerDetails_strict l₂ hdistinct2
  have hp : (sortLoadBalancerDetails l₁).Perm (sortLoadBalancerDetails l₂) :=
    ((sortLoadBalancerDetails_perm l₁).trans hperm).trans (sortLoadBalancerDetails_perm l₂).symm
  haveI : IsAntisymm LoadBalancerDetails (fun a b => a.Id < b.Id) :=
    ⟨fun _ _ hab hba => absurd hba (lt_asymm hab)⟩
  exact List.eq_of_perm_of_sorted hp s1 s2

/-- When every arrival is a result, `Read` writes the sorted details. -/
theorem Read_of_results (fuel : Nat) (env : LoadBalancersEnv) (diagnostics : Diagnostics)
    (loadBalancers : List SdkLoadBalancer) (results : List LoadBalancerDetails)
    (hlist : listLoadBalancers env fuel 0 none [] = some (.ok loadBalancers))
    (hlen : results.length = loadBalancers.length) :
    loadBalancersDataSource.Read fuel env (results.map Arrival.result) diagnostics =
      some (.returned
        (diagnostics.Append (env.StateSet
          ⟨(sortLoadBalancerDetails results).map (adaptLoadBalancerDetailsToDataSource env)⟩))
        [⟨(sortLoadBalancerDetails results).map (adaptLoadBalancerDetailsToDataSource env)⟩]) := by
  have h := collectLoadBalancerDetails_results results 0 [] []
  simp only [Nat.add_zero, List.append_nil, List.nil_append] at h
  unfold loadBalancersDataSource.Read
  rw [hlist]
  simp only [← hlen, h, collectLoadBalancerDetails]

/-- C26: the output of the load balancers data source does not depend on the
order in which the detail fetches complete. For two arrival orders of the same
`n` successful detail results with pairwise distinct ids, `Read` returns the
same diagnostics and writes the same state, once. The `load_balancers` list of
that state has length `n`; it holds, for a list `sorted` that is a permutation
of the received details and whose ids ascend strictly (in the lexicographic
order of strings), one entry per detail of `sorted`, in that order, with the
id, the IP addresses, the reference, the adapted contract, the state, the region
and the type of that detail. -/
theorem Read_independent_of_arrival_order (fuel : Nat) (env : LoadBalancersEnv)
    (diagnostics : Diagnostics) (loadBalancers : List SdkLoadBalancer)
    (results₁ results₂ : List LoadBalancerDetails)
    (hlist : listLoadBalancers env fuel 0 none [] = some (.ok loadBalancers))
    (hlen : results₁.length = loadBalancers.length)
    (hperm : results₁.Perm results₂)
    (hdistinct : (results₁.map (·.Id)).Nodup) :
    loadBalancersDataSource.Read fuel env (results₁.map Arrival.result) diagnostics =
      loadBalancersDataSource.Read fuel env (results₂.map Arrival.result) diagnostics ∧
    ∃ (sorted : List LoadBalancerDetails) (written : List loadBalancerDataSourceModel),
      loadBalancersDataSource.Read fuel env (results₁.map Arrival.result) diagnostics =
        some (.returned (diagnostics.Append (env.StateSet ⟨written⟩)) [⟨written⟩]) ∧
      loadBalancersDataSource.Read fuel env (results₂.map Arrival.result) diagnostics =
        some (.returned (diagnostics.Append (env.StateSet ⟨written⟩)) [⟨written⟩]) ∧
      written.length = loadBalancers.length ∧
      sorted.Perm results₁ ∧
      sorted.Perm results₂ ∧
      List.Pairwise (· < ·) (sorted.map (·.Id)) ∧
      written = sorted.map (fun sdkLoadBalancer =>
        { ID := .value sdkLoadBalancer.Id
          IPs := sdkLoadBalancer.Ips.map (fun ip => ⟨.value ip.Ip⟩)
          Reference :=
            match sdkLoadBalancer.Reference with
            | some ref => .value ref
            | none => .null
          Contract := env.adaptContractToContractDataSource sdkLoadBalancer.Contract
          State := .value sdkLoadBalancer.State
          Region := .value sdkLoadBalancer.Region
          Type_ := .value sdkLoadBalancer.Type_ }) ∧
      List.Pairwise (· < ·) (written.map (fun entry => entry.ID.ValueString)) ∧
      (∀ (i : Nat) (sdkLoadBalancer : LoadBalancerDetails),
        sorted[i]? = some sdkLoadBalancer →
        ∃ entry, written[i]? = some entry ∧
          entry.ID = .value sdkLoadBalancer.Id ∧
          entry.IPs = sdkLoadBalancer.Ips.map (fun ip => ⟨.value ip.Ip⟩) ∧
          (entry.Reference.IsNull = true ↔ sdkLoadBalancer.Reference = none) ∧
          (∀ ref, sdkLoadBalancer.Reference = some ref → entry.Reference = .value ref) ∧
          entry.Contract = env.adaptContractToContractDataSource sdkLoadBalancer.Contract ∧
          entry.State = .value sdkLoadBalancer.State ∧
          entry.Region = .value sdkLoadBalancer.Region ∧
          entry.Type_ = .value sdkLoadBalancer.Type_) := by
  have hlen2 : results₂.length = loadBalancers.length := by
    rw [← hperm.length_eq]
    exact hlen
  have hsame := sortLoadBalancerDetails_eq_of_perm results₁ results₂ hperm hdistinct
  have hread₁ := Read_of_results fuel env diagnostics loadBalancers results₁ hlist hlen
  have hread₂ := Read_of_results fuel env diagnostics loadBalancers results₂ hlist hlen2
  have hstrict := sortLoadBalancerDetails_strict results₁ hdistinct
  refine ⟨?_, sortLoadBalancerDetails results₁,
    (sortLoadBalancerDetails results₁).map (adaptLoadBalancerDetailsToDataSource env),
    hread₁, ?_, ?_, sortLoadBalancerDetails_perm results₁, ?_, ?_, ?_, ?_, ?_⟩
  · rw [hread₁, hread₂, hsame]
  · rw [hread₂, hsame]
  · rw [length_state_loadBalancers, hlen]
  · exact (sortLoadBalancerDetails_perm results₁).trans hperm
  · rw [List.pairwise_map]
    exact hstrict
  · rfl
  · rw [List.map_map, List.pairwise_map]
    exact hstrict
  · intro i sdkLoadBalancer hi
    refine ⟨adaptLoadBalancerDetailsToDataSource env sdkLoadBalancer, ?_, rfl, rfl, ?_, ?_,
      rfl, rfl, rfl, rfl⟩
    · rw [List.getElem?_map, hi]
      rfl
    · cases href : sdkLoadBalancer.Reference <;>
        simp [adaptLoadBalancerDetailsToDataSource, href, TfString.IsNull]
    · intro ref href
      simp [adaptLoadBalancerDetailsToDataSource, href]

/-- C26 at a concrete input: the details of `lb-1` and `lb-2` arriving in either
order. -/
theorem Read_independent_of_arrival_order_witness :
    loadBalancersDataSource.Read 1 (sampleLoadBalancersEnv [⟨"lb-1"⟩, ⟨"lb-2"⟩])
        ([⟨"lb-2", "eu-west-3", "lsw.m3.large", none, ⟨1, 0, "HOURLY", none, "ACTIVE"⟩,
            "ACTIVE", []⟩,
          ⟨"lb-1", "eu-west-3", "lsw.m3.large", none, ⟨1, 0, "HOURLY", none, "ACTIVE"⟩,
            "ACTIVE", []⟩].map Arrival.result) [] =
      loadBalancersDataSource.Read 1 (sampleLoadBalancersEnv [⟨"lb-1"⟩, ⟨"lb-2"⟩])
        ([⟨"lb-1", "eu-west-3", "lsw.m3.large", none, ⟨1, 0, "HOURLY", none, "ACTIVE"⟩,
            "ACTIVE", []⟩,
          ⟨"lb-2", "eu-west-3", "lsw.m3.large", none, ⟨1, 0, "HOURLY", none, "ACTIVE"⟩,
            "ACTIVE", []⟩].map Arrival.result) [] :=
  (Read_independent_of_arrival_order 1 (sampleLoadBalancersEnv [⟨"lb-1"⟩, ⟨"lb-2"⟩]) []
    [⟨"lb-1"⟩, ⟨"lb-2"⟩]
    [⟨"lb-2", "eu-west-3", "lsw.m3.large", none, ⟨1, 0, "HOURLY", none, "ACTIVE"⟩,
        "ACTIVE", []⟩,
      ⟨"lb-1", "eu-west-3", "lsw.m3.large", none, ⟨1, 0, "HOURLY", none, "ACTIVE"⟩,
        "ACTIVE", []⟩]
    [⟨"lb-1", "eu-west-3", "lsw.m3.large", none, ⟨1, 0, "HOURLY", none, "ACTIVE"⟩,
        "ACTIVE", []⟩,
      ⟨"lb-2", "eu-west-3", "lsw.m3.large", none, ⟨1, 0, "HOURLY", none, "ACTIVE"⟩,
        "ACTIVE", []⟩]
    rfl rfl (List.Perm.swap _ _ []) (by decide)).1

/-! ## The private network of an instance -/

/-- A successful wait for `has_private_network` returns details that show the
expected value. -/
theorem waitUntilPropertyValueEquals_private_network (fuel : Nat)
    (api : Nat → InstanceResponse) (instanceId : String) (b : Bool) (out : PollOutcome)
    (h : waitUntilPropertyValueEquals fuel api instanceId "has_private_network" (.bool b) =
      some out)
    (herr : out.result.err = none) :
    InstanceDetails.getHasPrivateNetwork out.result.details = b := by
  have hinv := pollLoop_success_inv api instanceId "has_private_network" (.bool b) fuel
    ⟨0, ⟨0, []⟩⟩ out h herr
  have hshow := (showsExpected_iff _ _ _).1 hinv.2.2.2.2.2
  rw [hinv.2.2.2.1]
  rcases hshow with ⟨hname, _⟩ | ⟨_, hval⟩
  · exact absurd hname (by decide)
  · injection hval with hval
    exact hval.symm

/-- A successful wait for `state` returns details that show the expected
state. -/
theorem waitUntilPropertyValueEquals_state (fuel : Nat)
    (api : Nat → InstanceResponse) (instanceId state : String) (out : PollOutcome)
    (h : waitUntilPropertyValueEquals fuel api instanceId "state" (.string state) = some out)
    (herr : out.result.err = none) :
    InstanceDetails.getState out.result.details = state := by
  have hinv := pollLoop_success_inv api instanceId "state" (.string state) fuel
    ⟨0, ⟨0, []⟩⟩ out h herr
  have hshow := (showsExpected_iff _ _ _).1 hinv.2.2.2.2.2
  rw [hinv.2.2.2.1]
  rcases hshow with ⟨_, hval⟩ | ⟨hname, _⟩
  · injection hval with hval
    exact hval.symm
  · exact absurd hname (by decide)

/-- When the planned flag equals the current one, `TogglePrivateNetwork` makes
no call and leaves the details as they are. -/
theorem TogglePrivateNetwork_of_eq (fuel : Nat) (env : InstanceEnv)
    (plan : instanceResourceModel) (instanceDetails : InstanceDetails)
    (heq : plan.HasPrivateNetwork.ValueBool = instanceDetails.hasPrivateNetwork) :
    instanceResource.TogglePrivateNetwork fuel env plan instanceDetails =
      some (.returned none none instanceDetails []) := by
  unfold instanceResource.TogglePrivateNetwork
  cases hh : instanceDetails.hasPrivateNetwork <;> simp [heq, hh]

/-- When the plan asks for a private network the instance does not have,
`TogglePrivateNetwork` calls `AddToPrivateNetwork` and then only polls; if it
returns a nil error the details show a private network. -/
theorem TogglePrivateNetwork_add (fuel : Nat) (env : InstanceEnv)
    (plan : instanceResourceModel) (instanceDetails : InstanceDetails)
    (outcome : ToggleOutcome)
    (hp : plan.HasPrivateNetwork.ValueBool = true)
    (hh : instanceDetails.hasPrivateNetwork = false)
    (hout : instanceResource.TogglePrivateNetwork fuel env plan instanceDetails =
      some outcome) :
    (∃ trace : List Event, outcome.calls =
      ApiCall.AddToPrivateNetwork instanceDetails.id :: trace.map ApiCall.event) ∧
    (∀ res updated calls, outcome = .returned res none updated calls →
      updated.hasPrivateNetwork = true) := by
  unfold instanceResource.TogglePrivateNetwork at hout
  rcases hadd : env.AddToPrivateNetwork instanceDetails.id with ⟨res, _ | err⟩
  · cases hw : waitUntilPropertyValueEquals fuel env.GetInstance instanceDetails.id
        "has_private_network" (.bool true) with
    | none => simp [hp, hh, hadd, hw] at hout
    | some out =>
      cases herr : out.result.err with
      | some err =>
        simp [hp, hh, hadd, hw, herr] at hout
        subst hout
        exact ⟨⟨out.world.trace, rfl⟩, by intro _ _ _ h; cases h⟩
      | none =>
        have hshow := waitUntilPropertyValueEquals_private_network fuel env.GetInstance
          instanceDetails.id true out hw herr
        cases hd : out.result.details with
        | none =>
          simp [hp, hh, hadd, hw, herr, hd] at hout
          subst hout
          exact ⟨⟨out.world.trace, rfl⟩, by intro _ _ _ h; cases h⟩
        | some updated =>
          rw [hd] at hshow
          simp [hp, hh, hadd, hw, herr, hd] at hout
          subst hout
          refine ⟨⟨out.world.trace, rfl⟩, ?_⟩
          intro _ _ _ h
          cases h
          exact hshow
  · simp [hp, hh, hadd] at hout
    subst hout
    exact ⟨⟨[], rfl⟩, by intro _ _ _ h; cases h⟩

/-- When the plan asks for no private network and the instance has one,
`TogglePrivateNetwork` calls `RemoveFromPrivateNetwork` and then only polls; if
it returns a nil error the details show no private network. -/
theorem TogglePrivateNetwork_remove (fuel : Nat) (env : InstanceEnv)
    (plan : instanceResourceModel) (instanceDetails : InstanceDetails)
    (outcome : ToggleOutcome)
    (hp : plan.HasPrivateNetwork.ValueBool = false)
    (hh : instanceDetails.hasPrivateNetwork = true)
    (hout : instanceResource.TogglePrivateNetwork fuel env plan instanceDetails =
      some outcome) :
    (∃ trace : List Event, outcome.calls =
      ApiCall.RemoveFromPrivateNetwork instanceDetails.id :: trace.map ApiCall.event) ∧
    (∀ res updated calls, outcome = .returned res none updated calls →
      updated.hasPrivateNetwork = false) := by
  unfold instanceResource.TogglePrivateNetwork at hout
  rcases hrem : env.RemoveFromPrivateNetwork instanceDetails.id with ⟨res, _ | err⟩
  · cases hw : waitUntilPropertyValueEquals fuel (fun n => env.GetInstance n)
        instanceDetails.id "has_private_network" (.bool false) with
    | none => simp [hp, hh, hrem, hw] at hout
    | some out =>
      cases herr : out.result.err with
      | some err =>
        simp [hp, hh, hrem, hw, herr] at hout
        subst hout
        exact ⟨⟨out.world.trace, rfl⟩, by intro _ _ _ h; cases h⟩
      | none =>
        have hshow := waitUntilPropertyValueEquals_private_network fuel _
          instanceDetails.id false out hw herr
        cases hd : out.result.details with
        | none =>
          simp [hp, hh, hrem, hw, herr, hd] at hout
          subst hout
          exact ⟨⟨out.world.trace, rfl⟩, by intro _ _ _ h; cases h⟩
        | some updated =>
          rw [hd] at hshow
          simp [hp, hh, hrem, hw, herr, hd] at hout
          subst hout
          refine ⟨⟨out.world.trace, rfl⟩, ?_⟩
          intro _ _ _ h
          cases h
          exact hshow
  · simp [hp, hh, hrem] at hout
    subst hout
    exact ⟨⟨[], rfl⟩, by intro _ _ _ h; cases h⟩

/-- With more fuel than `maxRetries`, `TogglePrivateNetwork` comes to an end. -/
theorem TogglePrivateNetwork_ends (fuel : Nat) (env : InstanceEnv)
    (plan : instanceResourceModel) (instanceDetails : InstanceDetails)
    (hfuel : maxRetries < fuel) :
    ∃ outcome, instanceResource.TogglePrivateNetwork fuel env plan instanceDetails =
      some outcome := by
  cases hp : plan.HasPrivateNetwork.ValueBool <;>
    cases hh : instanceDetails.hasPrivateNetwork
  · exact ⟨_, TogglePrivateNetwork_of_eq fuel env plan instanceDetails (by rw [hp, hh])⟩
  · unfold instanceResource.TogglePrivateNetwork
    obtain ⟨out, hw⟩ := waitUntilPropertyValueEquals_returns
      (fun n => env.GetInstance n) instanceDetails.id "has_private_network"
      (.bool false) fuel hfuel
    rcases hrem : env.RemoveFromPrivateNetwork instanceDetails.id with ⟨res, _ | err⟩ <;>
      cases herr : out.result.err <;> cases hd : out.result.details <;>
      simp [hp, hh, hrem, hw, herr, hd]
  · unfold instanceResource.TogglePrivateNetwork
    obtain ⟨out, hw⟩ := waitUntilPropertyValueEquals_returns
      env.GetInstance instanceDetails.id "has_private_network" (.bool true) fuel hfuel
    have hshow := waitUntilPropertyValueEquals_private_network fuel env.GetInstance
      instanceDetails.id true out hw
    rcases hadd : env.AddToPrivateNetwork instanceDetails.id with ⟨res, _ | err⟩ <;>
      cases herr : out.result.err <;> cases hd : out.result.details <;>
      simp [hp, hh, hadd, hw, herr, hd]
  · exact ⟨_, TogglePrivateNetwork_of_eq fuel env plan instanceDetails (by rw [hp, hh])⟩

/-- The events of a polling loop hold no call that adds to or removes from the
private network. -/
theorem filter_mutations_events (trace : List Event) :
    (trace.map ApiCall.event).filter
      (fun c => c.isAddToPrivateNetwork || c.isRemoveFromPrivateNetwork) = [] := by
  induction trace with
  | nil => rfl
  | cons e trace ih =>
    simp only [List.map_cons]
    rw [List.filter_cons_of_neg (by simp [ApiCall.isAddToPrivateNetwork,
      ApiCall.isRemoveFromPrivateNetwork])]
    exact ih

/-- C27: `TogglePrivateNetwork` reconciles the private-network flag with at most
one mutation. With `p` the planned `has_private_network` boolean and `h` the
current `instanceDetails.HasPrivateNetwork`: if `p = h` it returns `(nil, nil)`
without any call and leaves the details unchanged; if `p` and not `h` its calls
are `AddToPrivateNetwork` followed only by polling, if not `p` and `h` they are
`RemoveFromPrivateNetwork` followed only by polling; in every run at most one
call adds or removes; whenever it returns a nil error the details show
`HasPrivateNetwork = p`; and with more fuel than `maxRetries` it comes to an
end. -/
theorem TogglePrivateNetwork_reconciles (fuel : Nat) (env : InstanceEnv)
    (plan : instanceResourceModel) (instanceDetails : InstanceDetails) :
    (plan.HasPrivateNetwork.ValueBool = instanceDetails.hasPrivateNetwork →
      instanceResource.TogglePrivateNetwork fuel env plan instanceDetails =
        some (.returned none none instanceDetails [])) ∧
    (∀ outcome : ToggleOutcome,
      instanceResource.TogglePrivateNetwork fuel env plan instanceDetails = some outcome →
      (plan.HasPrivateNetwork.ValueBool = true → instanceDetails.hasPrivateNetwork = false →
        ∃ trace : List Event, outcome.calls =
          ApiCall.AddToPrivateNetwork instanceDetails.id :: trace.map ApiCall.event) ∧
      (plan.HasPrivateNetwork.ValueBool = false → instanceDetails.hasPrivateNetwork = true →
        ∃ trace : List Event, outcome.calls =
          ApiCall.RemoveFromPrivateNetwork instanceDetails.id :: trace.map ApiCall.event) ∧
      (outcome.calls.filter
        (fun c => c.isAddToPrivateNetwork || c.isRemoveFromPrivateNetwork)).length ≤ 1 ∧
      (∀ res updated calls, outcome = .returned res none updated calls →
        updated.hasPrivateNetwork = plan.HasPrivateNetwork.ValueBool)) ∧
    (maxRetries < fuel →
      ∃ outcome, instanceResource.TogglePrivateNetwork fuel env plan instanceDetails =
        some outcome) := by
  refine ⟨TogglePrivateNetwork_of_eq fuel env plan instanceDetails, ?_,
    TogglePrivateNetwork_ends fuel env plan instanceDetails⟩
  intro outcome hout
  cases hp : plan.HasPrivateNetwork.ValueBool <;>
    cases hh : instanceDetails.hasPrivateNetwork
  · have heq := TogglePrivateNetwork_of_eq fuel env plan instanceDetails (by rw [hp, hh])
    rw [heq] at hout
    cases hout
    refine ⟨fun h => (by cases h), fun _ h => (by cases h), (by simp [ToggleOutcome.calls]), ?_⟩
    intro _ _ _ h
    cases h
    exact hh
  · have hrem := TogglePrivateNetwork_remove fuel env plan instanceDetails outcome hp hh hout
    obtain ⟨trace, htrace⟩ := hrem.1
    refine ⟨fun h => (by cases h), fun _ _ => ⟨trace, htrace⟩, ?_, hrem.2⟩
    rw [htrace, List.filter_cons_of_pos (by simp [ApiCall.isRemoveFromPrivateNetwork]),
      filter_mutations_events]
    simp
  · have hadd := TogglePrivateNetwork_add fuel env plan instanceDetails outcome hp hh hout
    obtain ⟨trace, htrace⟩ := hadd.1
    refine ⟨fun _ _ => ⟨trace, htrace⟩, fun h => (by cases h), ?_, hadd.2⟩
    rw [htrace, List.filter_cons_of_pos (by simp [ApiCall.isAddToPrivateNetwork]),
      filter_mutations_events]
    simp
  · have heq := TogglePrivateNetwork_of_eq fuel env plan instanceDetails (by rw [hp, hh])
    rw [heq] at hout
    cases hout
    refine ⟨fun _ h => (by cases h), fun h => (by cases h), (by simp [ToggleOutcome.calls]), ?_⟩
    intro _ _ _ h
    cases h
    exact hh

/-- C27 at a concrete input: the plan asks for a private network, the instance
has none, and the second poll shows it attached. -/
theorem TogglePrivateNetwork_reconciles_witness :
    instanceResource.TogglePrivateNetwork 31
        (sampleInstanceEnv (samplePlan (.value true))
          (fun n => ⟨some ⟨"ace712e9", "RUNNING", decide (1 ≤ n)⟩, some ⟨200⟩, none⟩))
        (samplePlan (.value true)) ⟨"ace712e9", "RUNNING", false⟩ =
      some (.returned none none ⟨"ace712e9", "RUNNING", true⟩
        [.AddToPrivateNetwork "ace712e9", .event (.getInstance "ace712e9"),
          .event (.sleep (10 * Second)), .event (.getInstance "ace712e9")]) ∧
    (⟨"ace712e9", "RUNNING", true⟩ : InstanceDetails).hasPrivateNetwork =
      (samplePlan (.value true)).HasPrivateNetwork.ValueBool :=
  ⟨rfl,
    ((TogglePrivateNetwork_reconciles 31
      (sampleInstanceEnv (samplePlan (.value true))
        (fun n => ⟨some ⟨"ace712e9", "RUNNING", decide (1 ≤ n)⟩, some ⟨200⟩, none⟩))
      (samplePlan (.value true)) ⟨"ace712e9", "RUNNING", false⟩).2.1 _ rfl).2.2.2
      none ⟨"ace712e9", "RUNNING", true⟩ _ rfl⟩

/-! ## `Create` and the private network -/

/-- The events of a polling loop hold no `AddToPrivateNetwork`. -/
theorem any_isAddToPrivateNetwork_events (trace : List Event) :
    (trace.map ApiCall.event).any ApiCall.isAddToPrivateNetwork = false := by
  induction trace with
  | nil => rfl
  | cons e trace ih => simp [ApiCall.isAddToPrivateNetwork]

/-- The events of a polling loop hold no `State.Set`. -/
theorem any_isStateSet_events (trace : List Event) :
    (trace.map ApiCall.event).any ApiCall.isStateSet = false := by
  induction trace with
  | nil => rfl
  | cons e trace ih => simp [ApiCall.isStateSet]

/-- The end of `Create` adds no call but possibly `State.Set`. -/
theorem writeState_calls (env : InstanceEnv) (instanceDetails : InstanceDetails)
    (diagnostics : Diagnostics) (calls : List ApiCall) :
    ∃ rest, (instanceResource.Create.writeState env instanceDetails diagnostics calls).calls =
      calls ++ rest ∧ rest.any ApiCall.isAddToPrivateNetwork = false := by
  unfold instanceResource.Create.writeState
  rcases env.adaptInstanceDetailsToInstanceResource instanceDetails diagnostics with
    ⟨state, diags⟩
  by_cases hd : Diagnostics.HasError diags = true
  · exact ⟨[], by simp [hd, CreateOutcome.calls], rfl⟩
  · exact ⟨[ApiCall.StateSet state], by simp [hd, CreateOutcome.calls], rfl⟩

/-- The plan asks for a private network exactly when `has_private_network` is
known and true. -/
theorem plan_asks_private_network (v : TfBool) :
    (!v.IsUnknown && v.ValueBool) = true ↔ v = .value true := by
  cases v with
  | null => simp [TfBool.IsUnknown, TfBool.ValueBool]
  | unknown => simp [TfBool.IsUnknown, TfBool.ValueBool]
  | value b => cases b <;> simp [TfBool.IsUnknown, TfBool.ValueBool]

/-- When the launch fails, `Create` reports the error and makes no other call. -/
theorem Create_launch_of_launch_error (fuel : Nat) (env : InstanceEnv)
    (diagnostics : Diagnostics) (plan : instanceResourceModel) (opts : LaunchInstanceOpts)
    (err : GoError) (herr : (env.LaunchInstance opts).err = some err) :
    instanceResource.Create.launch fuel env diagnostics plan opts =
      some (.returned (SdkError diagnostics err (env.LaunchInstance opts).httpResponse)
        [ApiCall.LaunchInstance opts]) := by
  unfold instanceResource.Create.launch
  simp only [herr]

/-- When the wait for the running state fails or times out, `Create` reports
the error after the launch and the polling, and makes no other call. -/
theorem Create_launch_of_wait_error (fuel : Nat) (env : InstanceEnv)
    (diagnostics : Diagnostics) (plan : instanceResourceModel) (opts : LaunchInstanceOpts)
    (running : PollOutcome) (err : GoError)
    (hlaunch : (env.LaunchInstance opts).err = none)
    (hplan : plan.HasPrivateNetwork = .value true)
    (hwait : waitUntilPropertyValueEquals fuel env.GetInstance
      (LaunchedInstance.GetId (env.LaunchInstance opts).inst) "state"
      (.string env.STATE_RUNNING) = some running)
    (herr : running.result.err = some err) :
    instanceResource.Create.launch fuel env diagnostics plan opts =
      some (.returned (SdkError diagnostics err running.result.httpResponse)
        ([ApiCall.LaunchInstance opts] ++ running.world.trace.map ApiCall.event)) := by
  unfold instanceResource.Create.launch
  simp only [hlaunch, hplan, hwait, herr, TfBool.IsUnknown, TfBool.ValueBool, Bool.not_false,
    Bool.and_self, if_true]

/-- Without a plan that asks for a private network, `Create` never calls
`AddToPrivateNetwork`. -/
theorem Create_launch_without_private_network (fuel : Nat) (env : InstanceEnv)
    (diagnostics : Diagnostics) (plan : instanceResourceModel) (opts : LaunchInstanceOpts)
    (outcome : CreateOutcome)
    (hplan : plan.HasPrivateNetwork ≠ .value true)
    (hout : instanceResource.Create.launch fuel env diagnostics plan opts = some outcome) :
    outcome.calls.any ApiCall.isAddToPrivateNetwork = false := by
  have hask : (!plan.HasPrivateNetwork.IsUnknown && plan.HasPrivateNetwork.ValueBool) =
      false := by
    cases h : (!plan.HasPrivateNetwork.IsUnknown && plan.HasPrivateNetwork.ValueBool) with
    | false => rfl
    | true => exact absurd ((plan_asks_private_network _).1 h) hplan
  unfold instanceResource.Create.launch at hout
  cases hl : (env.LaunchInstance opts).err with
  | some err =>
    simp [hl] at hout
    subst hout
    rfl
  | none =>
    cases hi : (env.LaunchInstance opts).inst with
    | none =>
      simp [hl, hask, hi] at hout
      subst hout
      rfl
    | some inst =>
      cases hr : (env.GetInstance 0).err with
      | some err =>
        simp [hl, hask, hi, hr] at hout
        subst hout
        rfl
      | none =>
        cases hd : (env.GetInstance 0).details with
        | none =>
          simp [hl, hask, hi, hr, hd] at hout
          subst hout
          rfl
        | some instanceDetails =>
          simp [hl, hask, hi, hr, hd] at hout
          subst hout
          obtain ⟨rest, hrest, hnone⟩ := writeState_calls env instanceDetails diagnostics
            ([ApiCall.LaunchInstance opts] ++ [ApiCall.event (Event.getInstance inst.Id)])
          simp only [List.singleton_append] at hrest
          rw [hrest, List.any_append, hnone]
          rfl

/-- With a plan that asks for a private network and a successful launch,
`Create` first waits for the running state; it calls `AddToPrivateNetwork`, once,
only when that wait has returned details in the running state. -/
theorem Create_launch_with_private_network (fuel : Nat) (env : InstanceEnv)
    (diagnostics : Diagnostics) (plan : instanceResourceModel) (opts : LaunchInstanceOpts)
    (outcome : CreateOutcome)
    (hplan : plan.HasPrivateNetwork = .value true)
    (hlaunch : (env.LaunchInstance opts).err = none)
    (hout : instanceResource.Create.launch fuel env diagnostics plan opts = some outcome) :
    ∃ running, waitUntilPropertyValueEquals fuel env.GetInstance
        (LaunchedInstance.GetId (env.LaunchInstance opts).inst) "state"
        (.string env.STATE_RUNNING) = some running ∧
      ((running.result.err ≠ none ∧
          outcome.calls = [ApiCall.LaunchInstance opts] ++
            running.world.trace.map ApiCall.event) ∨
        (running.result.err = none ∧ running.result.details = none ∧
          outcome = .panicked ([ApiCall.LaunchInstance opts] ++
            running.world.trace.map ApiCall.event)) ∨
        (running.result.err = none ∧
          ∃ (instanceDetails : InstanceDetails) (rest : List ApiCall),
            running.result.details = some instanceDetails ∧
            instanceDetails.state = env.STATE_RUNNING ∧
            outcome.calls = [ApiCall.LaunchInstance opts] ++
              running.world.trace.map ApiCall.event ++
              [ApiCall.AddToPrivateNetwork instanceDetails.id] ++ rest ∧
            rest.any ApiCall.isAddToPrivateNetwork = false)) := by
  unfold instanceResource.Create.launch at hout
  simp only [hlaunch, hplan, TfBool.IsUnknown, TfBool.ValueBool, Bool.not_false,
    Bool.and_self, if_true] at hout
  cases hw : waitUntilPropertyValueEquals fuel env.GetInstance
      (LaunchedInstance.GetId (env.LaunchInstance opts).inst) "state"
      (.string env.STATE_RUNNING) with
  | none => simp [hw] at hout
  | some running =>
    refine ⟨running, rfl, ?_⟩
    cases herr : running.result.err with
    | some err =>
      simp [hw, herr] at hout
      subst hout
      exact Or.inl ⟨by simp, rfl⟩
    | none =>
      have hstate := waitUntilPropertyValueEquals_state fuel env.GetInstance _ _ running hw herr
      cases hd : running.result.details with
      | none =>
        simp [hw, herr, hd] at hout
        subst hout
        exact Or.inr (Or.inl ⟨rfl, rfl, rfl⟩)
      | some instanceDetails =>
        rw [hd] at hstate
        refine Or.inr (Or.inr ⟨rfl, instanceDetails, ?_⟩)
        rcases hadd : env.AddToPrivateNetwork instanceDetails.id with ⟨res, _ | err⟩
        · cases hw2 : waitUntilPropertyValueEquals fuel
              (fun n => env.GetInstance (n + running.world.calls)) instanceDetails.id
              "has_private_network" (.bool true) with
          | none => simp [hw, herr, hd, hadd, hw2] at hout
          | some attached =>
            cases herr2 : attached.result.err with
            | some err =>
              simp [hw, herr, hd, hadd, hw2, herr2] at hout
              subst hout
              exact ⟨attached.world.trace.map ApiCall.event, rfl, hstate,
                by simp [CreateOutcome.calls], any_isAddToPrivateNetwork_events _⟩
            | none =>
              cases hd2 : attached.result.details with
              | none =>
                simp [hw, herr, hd, hadd, hw2, herr2, hd2] at hout
                subst hout
                exact ⟨attached.world.trace.map ApiCall.event, rfl, hstate,
                  by simp [CreateOutcome.calls], any_isAddToPrivateNetwork_events _⟩
              | some updated =>
                simp [hw, herr, hd, hadd, hw2, herr2, hd2] at hout
                subst hout
                obtain ⟨rest, hrest, hnone⟩ := writeState_calls env updated diagnostics
                  (ApiCall.LaunchInstance opts ::
                    (running.world.trace.map ApiCall.event ++
                      ApiCall.AddToPrivateNetwork instanceDetails.id ::
                        attached.world.trace.map ApiCall.event))
                refine ⟨attached.world.trace.map ApiCall.event ++ rest, rfl, hstate, ?_, ?_⟩
                · rw [hrest]
                  simp
                · rw [List.any_append, any_isAddToPrivateNetwork_events, hnone]
                  rfl
        · simp [hw, herr, hd, hadd] at hout
          subst hout
          exact ⟨[], rfl, hstate, by simp [CreateOutcome.calls], rfl⟩

/-- With more fuel than `maxRetries`, the part of `Create` after the options
are built comes to an end. -/
theorem Create_launch_ends (fuel : Nat) (env : InstanceEnv) (diagnostics : Diagnostics)
    (plan : instanceResourceModel) (opts : LaunchInstanceOpts) (hfuel : maxRetries < fuel) :
    ∃ outcome, instanceResource.Create.launch fuel env diagnostics plan opts =
      some outcome := by
  unfold instanceResource.Create.launch
  cases hl : (env.LaunchInstance opts).err with
  | some err => simp [hl]
  | none =>
    cases hask : (!plan.HasPrivateNetwork.IsUnknown && plan.HasPrivateNetwork.ValueBool) with
    | false =>
      cases hi : (env.LaunchInstance opts).inst <;> cases hr : (env.GetInstance 0).err <;>
        cases hd : (env.GetInstance 0).details <;> simp [hl, hi, hr, hd]
    | true =>
      obtain ⟨running, hw⟩ := waitUntilPropertyValueEquals_returns env.GetInstance
        (LaunchedInstance.GetId (env.LaunchInstance opts).inst) "state"
        (.string env.STATE_RUNNING) fuel hfuel
      cases herr : running.result.err with
      | some err => simp [hl, hw, herr]
      | none =>
        cases hd : running.result.details with
        | none => simp [hl, hw, herr, hd]
        | some instanceDetails =>
          obtain ⟨attached, hw2⟩ := waitUntilPropertyValueEquals_returns
            (fun n => env.GetInstance (n + running.world.calls)) instanceDetails.id
            "has_private_network" (.bool true) fuel hfuel
          rcases hadd : env.AddToPrivateNetwork instanceDetails.id with ⟨res, _ | err⟩ <;>
            cases herr2 : attached.result.err <;> cases hd2 : attached.result.details <;>
            simp [hl, hw, herr, hd, hadd, hw2, herr2, hd2]

/-- `Create` either returns before it has made any call, or it goes on with the
launch options built from the decoded plan. -/
theorem Create_cases (fuel : Nat) (env : InstanceEnv) (diagnostics : Diagnostics) :
    (∃ diags, instanceResource.Create fuel env diagnostics = some (.returned diags [])) ∨
    (Diagnostics.HasError (diagnostics.Append env.PlanGet.1) = false ∧
      ∃ imageID contract, env.ImageAs = (none, imageID) ∧
        env.ContractAs env.PlanGet.2.Contract = (none, contract) ∧
        instanceResource.Create fuel env diagnostics =
          instanceResource.Create.launch fuel env (diagnostics.Append env.PlanGet.1)
            env.PlanGet.2
            (instanceResource.Create.opts env env.PlanGet.2 imageID contract)) := by
  unfold instanceResource.Create
  cases hdiag : Diagnostics.HasError (diagnostics.Append env.PlanGet.1) with
  | true => exact Or.inl ⟨diagnostics.Append env.PlanGet.1, by simp [hdiag]⟩
  | false =>
    rcases himg : env.ImageAs with ⟨_ | imageDiags, imageID⟩
    · rcases hcon : env.ContractAs env.PlanGet.2.Contract with ⟨_ | contractDiags, contract⟩
      · exact Or.inr ⟨rfl, imageID, contract, rfl, rfl, by simp [hdiag, hcon]⟩
      · exact Or.inl ⟨(diagnostics.Append env.PlanGet.1).Append contractDiags,
          by simp [hdiag, hcon]⟩
    · exact Or.inl ⟨(diagnostics.Append env.PlanGet.1).Append imageDiags, by simp [hdiag]⟩

/-- C23: during `instanceResource.Create` an instance is never added to a
private network before it is running. If `AddToPrivateNetwork` is among the
calls of a run, the planned `has_private_network` is known and true, the launch
succeeded, the wait for the state `STATE_RUNNING` returned details whose state
is `STATE_RUNNING`, and the calls are the launch, the events of that wait, the
one `AddToPrivateNetwork` for the returned instance, and later calls. If the
launch fails, `Create` reports the error and its only call is the launch; if
the wait for the running state fails or times out, it reports the error after
the launch and the polling: in both cases `AddToPrivateNetwork` is not called
and no state is written. With more fuel than `maxRetries`, `Create` comes to an
end. -/
theorem Create_adds_to_private_network_when_running (fuel : Nat) (env : InstanceEnv)
    (diagnostics : Diagnostics) :
    (∀ outcome : CreateOutcome,
      instanceResource.Create fuel env diagnostics = some outcome →
      outcome.calls.any ApiCall.isAddToPrivateNetwork = true →
      env.PlanGet.2.HasPrivateNetwork = .value true ∧
      ∃ (opts : LaunchInstanceOpts) (running : PollOutcome)
          (instanceDetails : InstanceDetails) (rest : List ApiCall),
        (env.LaunchInstance opts).err = none ∧
        waitUntilPropertyValueEquals fuel env.GetInstance
          (LaunchedInstance.GetId (env.LaunchInstance opts).inst) "state"
          (.string env.STATE_RUNNING) = some running ∧
        running.result.err = none ∧
        running.result.details = some instanceDetails ∧
        instanceDetails.state = env.STATE_RUNNING ∧
        outcome.calls = [ApiCall.LaunchInstance opts] ++
          running.world.trace.map ApiCall.event ++
          [ApiCall.AddToPrivateNetwork instanceDetails.id] ++ rest ∧
        rest.any ApiCall.isAddToPrivateNetwork = false) ∧
    (∀ (imageID : TfString) (contract : contractResourceModel) (err : GoError),
      Diagnostics.HasError (diagnostics.Append env.PlanGet.1) = false →
      env.ImageAs = (none, imageID) →
      env.ContractAs env.PlanGet.2.Contract = (none, contract) →
      (env.LaunchInstance
        (instanceResource.Create.opts env env.PlanGet.2 imageID contract)).err = some err →
      ∃ outcome, instanceResource.Create fuel env diagnostics = some outcome ∧
        outcome.calls = [ApiCall.LaunchInstance
          (instanceResource.Create.opts env env.PlanGet.2 imageID contract)] ∧
        outcome.calls.any ApiCall.isAddToPrivateNetwork = false ∧
        outcome.calls.any ApiCall.isStateSet = false) ∧
    (∀ (imageID : TfString) (contract : contractResourceModel) (running : PollOutcome)
        (err : GoError),
      Diagnostics.HasError (diagnostics.Append env.PlanGet.1) = false →
      env.ImageAs = (none, imageID) →
      env.ContractAs env.PlanGet.2.Contract = (none, contract) →
      (env.LaunchInstance
        (instanceResource.Create.opts env env.PlanGet.2 imageID contract)).err = none →
      env.PlanGet.2.HasPrivateNetwork = .value true →
      waitUntilPropertyValueEquals fuel env.GetInstance
        (LaunchedInstance.GetId (env.LaunchInstance
          (instanceResource.Create.opts env env.PlanGet.2 imageID contract)).inst) "state"
        (.string env.STATE_RUNNING) = some running →
      running.result.err = some err →
      ∃ outcome, instanceResource.Create fuel env diagnostics = some outcome ∧
        outcome.calls = [ApiCall.LaunchInstance
            (instanceResource.Create.opts env env.PlanGet.2 imageID contract)] ++
          running.world.trace.map ApiCall.event ∧
        outcome.calls.any ApiCall.isAddToPrivateNetwork = false ∧
        outcome.calls.any ApiCall.isStateSet = false) ∧
    (maxRetries < fuel →
      ∃ outcome, instanceResource.Create fuel env diagnostics = some outcome) := by
  refine ⟨?_, ?_, ?_, ?_⟩
  · intro outcome hout hany
    rcases Create_cases fuel env diagnostics with ⟨diags, hret⟩ | ⟨_, imageID, contract, _, _, hgo⟩
    · rw [hret] at hout
      cases hout
      simp [CreateOutcome.calls] at hany
    · rw [hgo] at hout
      by_cases hplan : env.PlanGet.2.HasPrivateNetwork = .value true
      · cases hl : (env.LaunchInstance
            (instanceResource.Create.opts env env.PlanGet.2 imageID contract)).err with
        | some err =>
          rw [Create_launch_of_launch_error fuel env _ _ _ err hl] at hout
          cases hout
          simp [CreateOutcome.calls, ApiCall.isAddToPrivateNetwork] at hany
        | none =>
          obtain ⟨running, hw, hcases⟩ := Create_launch_with_private_network fuel env _ _ _
            outcome hplan hl hout
          refine ⟨hplan, instanceResource.Create.opts env env.PlanGet.2 imageID contract,
            running, ?_⟩
          rcases hcases with ⟨_, hcalls⟩ | ⟨_, _, hpanic⟩ | ⟨herr, d, rest, hd, hstate, hcalls, hrest⟩
          · rw [hcalls, List.any_append, any_isAddToPrivateNetwork_events] at hany
            simp [ApiCall.isAddToPrivateNetwork] at hany
          · rw [hpanic] at hany
            simp only [CreateOutcome.calls] at hany
            rw [List.any_append, any_isAddToPrivateNetwork_events] at hany
            simp [ApiCall.isAddToPrivateNetwork] at hany
          · exact ⟨d, rest, hl, hw, herr, hd, hstate, hcalls, hrest⟩
      · rw [Create_launch_without_private_network fuel env _ _ _ outcome hplan hout] at hany
        cases hany
  · intro imageID contract err hdiag himg hcon hl
    refine ⟨.returned (SdkError (diagnostics.Append env.PlanGet.1) err
        (env.LaunchInstance
          (instanceResource.Create.opts env env.PlanGet.2 imageID contract)).httpResponse)
      [ApiCall.LaunchInstance (instanceResource.Create.opts env env.PlanGet.2 imageID contract)],
      ?_, rfl, rfl, rfl⟩
    unfold instanceResource.Create
    simp only [hdiag, himg, hcon]
    exact Create_launch_of_launch_error fuel env _ _ _ err hl
  · intro imageID contract running err hdiag himg hcon hl hplan hw herr
    refine ⟨.returned (SdkError (diagnostics.Append env.PlanGet.1) err
        running.result.httpResponse)
      ([ApiCall.LaunchInstance (instanceResource.Create.opts env env.PlanGet.2 imageID contract)]
        ++ running.world.trace.map ApiCall.event), ?_, rfl, ?_, ?_⟩
    · unfold instanceResource.Create
      simp only [hdiag, himg, hcon]
      exact Create_launch_of_wait_error fuel env _ _ _ running err hl hplan hw herr
    · simp only [CreateOutcome.calls]
      rw [List.any_append, any_isAddToPrivateNetwork_events]
      rfl
    · simp only [CreateOutcome.calls]
      rw [List.any_append, any_isStateSet_events]
      rfl
  · intro hfuel
    rcases Create_cases fuel env diagnostics with ⟨diags, hret⟩ | ⟨_, imageID, contract, _, _, hgo⟩
    · exact ⟨_, hret⟩
    · rw [hgo]
      exact Create_launch_ends fuel env _ _ _ hfuel

/-- C23 at a concrete input: the plan asks for a private network; the instance
is added after the second poll has shown it running. -/
theorem Create_adds_to_private_network_when_running_witness :
    instanceResource.Create 31 (sampleInstanceEnv (samplePlan (.value true)) sampleGetInstance)
        [] =
      some (.returned []
        [.LaunchInstance ⟨"eu-west-3", "lsw.m3.large", "UBUNTU_22_04_64BIT", "HOURLY", 0, 1,
            "CENTRAL", none, none, none, none⟩,
          .event (.getInstance "ace712e9"), .event (.sleep (10 * Second)),
          .event (.getInstance "ace712e9"),
          .AddToPrivateNetwork "ace712e9",
          .event (.getInstance "ace712e9"), .event (.sleep (10 * Second)),
          .event (.getInstance "ace712e9"),
          .StateSet (some ⟨.value "ace712e9", .null, .null, .null, .null, .null, .null, .null,
            .value true⟩)]) ∧
    (sampleInstanceEnv (samplePlan (.value true)) sampleGetInstance).PlanGet.2.HasPrivateNetwork =
      .value true :=
  ⟨rfl,
    ((Create_adds_to_private_network_when_running 31
      (sampleInstanceEnv (samplePlan (.value true)) sampleGetInstance) []).1 _ rfl rfl).1⟩

/-! ## The goroutines of the load balancers data source -/

/-- Once the collection loop has been left, a step can only be the end of a
fetch: it leaves the collector as it is, and every goroutine either as it is or
from fetching to its send. -/
theorem FanOut.step_of_left (GetLoadBalancer : String → LoadBalancerResponse)
    (s next : FanOut) (a : Action) (hleft : s.collector.left = true)
    (hstep : s.step GetLoadBalancer a = some next) :
    next.collector = s.collector ∧
    next.goroutines.length = s.goroutines.length ∧
    next.goroutines.count .done = s.goroutines.count .done ∧
    (∀ (j : Nat) (v : Arrival), s.goroutines[j]? = some (.sending v) →
      next.goroutines[j]? = some (.sending v)) ∧
    (∀ (j : Nat) (id : String), s.goroutines[j]? = some (.fetching id) →
      next.goroutines[j]? = some (.fetching id) ∨
      next.goroutines[j]? = some (.sending (Goroutine.send (GetLoadBalancer id)))) := by
  cases a with
  | fetch k =>
    simp only [FanOut.step] at hstep
    cases hk : s.goroutines[k]? with
    | none => simp [hk] at hstep
    | some g =>
      cases g with
      | fetching id =>
        simp only [hk, Option.some.injEq] at hstep
        subst hstep
        obtain ⟨hlt, hget⟩ := List.getElem?_eq_some_iff.1 hk
        refine ⟨rfl, by simp, ?_, ?_, ?_⟩
        · simp only
          rw [List.count_set _ _ _ _ hlt, hget]
          simp
        · intro j v hj
          simp only
          rw [List.getElem?_set]
          by_cases hkj : k = j
          · subst hkj
            rw [hk] at hj
            cases hj
          · rw [if_neg hkj]
            exact hj
        · intro j id' hj
          simp only
          rw [List.getElem?_set]
          by_cases hkj : k = j
          · subst hkj
            rw [hk] at hj
            cases hj
            rw [if_pos rfl, if_pos hlt]
            exact Or.inr rfl
          · rw [if_neg hkj]
            exact Or.inl hj
      | sending v => simp [hk] at hstep
      | done => simp [hk] at hstep
  | receive k =>
    simp only [FanOut.step] at hstep
    cases hc : s.collector with
    | collecting i acc => rw [hc] at hleft; cases hleft
    | failed err => simp [hc] at hstep
    | collected acc => simp [hc] at hstep
  | exitLoop =>
    simp only [FanOut.step] at hstep
    cases hc : s.collector with
    | collecting i acc => rw [hc] at hleft; cases hleft
    | failed err => simp [hc] at hstep
    | collected acc => simp [hc] at hstep

/-- Once the collection loop has been left, whatever is scheduled afterwards
leaves the collector as it is, no goroutine returns, a goroutine blocked in its
send stays blocked in it, and a fetching goroutine at most gets to its send. -/
theorem FanOut.run_of_left (GetLoadBalancer : String → LoadBalancerResponse) :
    ∀ (schedule : List Action) (s final : FanOut), s.collector.left = true →
      FanOut.run GetLoadBalancer s schedule = some final →
      final.collector = s.collector ∧
      final.goroutines.length = s.goroutines.length ∧
      final.goroutines.count .done = s.goroutines.count .done ∧
      (∀ (j : Nat) (v : Arrival), s.goroutines[j]? = some (.sending v) →
        final.goroutines[j]? = some (.sending v)) ∧
      (∀ (j : Nat) (id : String), s.goroutines[j]? = some (.fetching id) →
        final.goroutines[j]? = some (.fetching id) ∨
        final.goroutines[j]? = some (.sending (Goroutine.send (GetLoadBalancer id)))) := by
  intro schedule
  induction schedule with
  | nil =>
    intro s final _ hrun
    simp only [FanOut.run, Option.some.injEq] at hrun
    subst hrun
    exact ⟨rfl, rfl, rfl, fun _ _ h => h, fun _ _ h => Or.inl h⟩
  | cons a schedule ih =>
    intro s final hleft hrun
    simp only [FanOut.run] at hrun
    cases hstep : s.step GetLoadBalancer a with
    | none => simp [hstep] at hrun
    | some next =>
      rw [hstep] at hrun
      simp only at hrun
      have h1 := FanOut.step_of_left GetLoadBalancer s next a hleft hstep
      have h2 := ih next final (by rw [h1.1]; exact hleft) hrun
      refine ⟨h2.1.trans h1.1, h2.2.1.trans h1.2.1, h2.2.2.1.trans h1.2.2.1, ?_, ?_⟩
      · intro j v hj
        exact h2.2.2.2.1 j v (h1.2.2.2.1 j v hj)
      · intro j id hj
        rcases h1.2.2.2.2 j id hj with hf | hs
        · exact h2.2.2.2.2 j id hf
        · exact Or.inr (h2.2.2.2.1 j _ hs)

/-- Once the collection loop has been left, nothing is received any more. -/
theorem FanOut.receive_of_left (GetLoadBalancer : String → LoadBalancerResponse)
    (s : FanOut) (j : Nat) (hleft : s.collector.left = true) :
    s.step GetLoadBalancer (.receive j) = none := by
  simp only [FanOut.step]
  cases hc : s.collector with
  | collecting i acc => rw [hc] at hleft; cases hleft
  | failed err => rfl
  | collected acc => rfl

/-- A step keeps the invariant. -/
theorem FanOut.step_invariant (GetLoadBalancer : String → LoadBalancerResponse) (n : Nat)
    (s next : FanOut) (a : Action) (hinv : s.invariant n)
    (hstep : s.step GetLoadBalancer a = some next) : next.invariant n := by
  obtain ⟨hlen, hcol⟩ := hinv
  cases a with
  | fetch k =>
    simp only [FanOut.step] at hstep
    cases hk : s.goroutines[k]? with
    | none => simp [hk] at hstep
    | some g =>
      cases g with
      | fetching id =>
        simp only [hk, Option.some.injEq] at hstep
        subst hstep
        obtain ⟨hlt, hget⟩ := List.getElem?_eq_some_iff.1 hk
        have hcount : (s.goroutines.set k
            (.sending (Goroutine.send (GetLoadBalancer id)))).count .done =
            s.goroutines.count .done := by
          rw [List.count_set _ _ _ _ hlt, hget]
          simp
        refine ⟨by simpa using hlen, ?_⟩
        simp only [hcount]
        exact hcol
      | sending v => simp [hk] at hstep
      | done => simp [hk] at hstep
  | receive k =>
    simp only [FanOut.step] at hstep
    cases hc : s.collector with
    | failed err => simp [hc] at hstep
    | collected acc => simp [hc] at hstep
    | collecting i acc =>
      rw [hc] at hcol
      simp only at hcol
      cases hk : s.goroutines[k]? with
      | none => simp [hc, hk] at hstep
      | some g =>
        cases g with
        | fetching id => simp [hc, hk] at hstep
        | done => simp [hc, hk] at hstep
        | sending v =>
          by_cases hi : i < s.goroutines.length
          · simp only [hc, hk, if_pos hi, Option.some.injEq] at hstep
            subst hstep
            obtain ⟨hlt, hget⟩ := List.getElem?_eq_some_iff.1 hk
            have hcount : (s.goroutines.set k .done).count .done =
                s.goroutines.count .done + 1 := by
              rw [List.count_set _ _ _ _ hlt, hget]
              simp
            refine ⟨by simpa using hlen, ?_⟩
            cases v with
            | error err => trivial
            | result res =>
              simp only [hcount, List.length_append, List.length_singleton]
              exact ⟨by omega, by omega⟩
          · simp [hc, hk, hi] at hstep
  | exitLoop =>
    simp only [FanOut.step] at hstep
    cases hc : s.collector with
    | failed err => simp [hc] at hstep
    | collected acc => simp [hc] at hstep
    | collecting i acc =>
      rw [hc] at hcol
      simp only at hcol
      by_cases hi : i < s.goroutines.length
      · simp [hc, hi] at hstep
      · simp only [hc, if_neg hi, Option.some.injEq] at hstep
        subst hstep
        have hle : s.goroutines.count .done ≤ s.goroutines.length := List.count_le_length _ _
        refine ⟨hlen, ?_⟩
        simp only
        exact ⟨by omega, by omega⟩

/-- Every state a schedule reaches from the start satisfies the invariant. -/
theorem FanOut.run_invariant (GetLoadBalancer : String → LoadBalancerResponse) (n : Nat) :
    ∀ (schedule : List Action) (s final : FanOut), s.invariant n →
      FanOut.run GetLoadBalancer s schedule = some final → final.invariant n := by
  intro schedule
  induction schedule with
  | nil =>
    intro s final hinv hrun
    simp only [FanOut.run, Option.some.injEq] at hrun
    subst hrun
    exact hinv
  | cons a schedule ih =>
    intro s final hinv hrun
    simp only [FanOut.run] at hrun
    cases hstep : s.step GetLoadBalancer a with
    | none => simp [hstep] at hrun
    | some next =>
      rw [hstep] at hrun
      exact ih next final (FanOut.step_invariant GetLoadBalancer n s next a hinv hstep) hrun

/-- The start state satisfies the invariant. -/
theorem FanOut.start_invariant (loadBalancers : List SdkLoadBalancer) :
    (FanOut.start loadBalancers).invariant loadBalancers.length := by
  refine ⟨by simp [FanOut.start], ?_⟩
  simp only [FanOut.start]
  refine ⟨?_, rfl⟩
  rw [List.count_eq_zero]
  simp

/-- A step keeps the goroutines and the collection loop free of errors. -/
theorem FanOut.step_errorFree (GetLoadBalancer : String → LoadBalancerResponse)
    (s next : FanOut) (a : Action) (hfree : s.errorFree GetLoadBalancer)
    (hstep : s.step GetLoadBalancer a = some next) : next.errorFree GetLoadBalancer := by
  obtain ⟨hgo, hcol⟩ := hfree
  cases a with
  | fetch k =>
    simp only [FanOut.step] at hstep
    cases hk : s.goroutines[k]? with
    | none => simp [hk] at hstep
    | some g =>
      cases g with
      | fetching id =>
        simp only [hk, Option.some.injEq] at hstep
        subst hstep
        refine ⟨?_, hcol⟩
        intro g hg
        rcases List.mem_or_eq_of_mem_set hg with hold | hnew
        · exact hgo g hold
        · subst hnew
          obtain ⟨details, httpResponse, hok⟩ := hgo _ (List.getElem?_mem hk)
          exact ⟨details, by rw [hok]; rfl⟩
      | sending v => simp [hk] at hstep
      | done => simp [hk] at hstep
  | receive k =>
    simp only [FanOut.step] at hstep
    cases hc : s.collector with
    | failed err => simp [hc] at hstep
    | collected acc => simp [hc] at hstep
    | collecting i acc =>
      cases hk : s.goroutines[k]? with
      | none => simp [hc, hk] at hstep
      | some g =>
        cases g with
        | fetching id => simp [hc, hk] at hstep
        | done => simp [hc, hk] at hstep
        | sending v =>
          by_cases hi : i < s.goroutines.length
          · simp only [hc, hk, if_pos hi, Option.some.injEq] at hstep
            subst hstep
            obtain ⟨res, hres⟩ := hgo _ (List.getElem?_mem hk)
            subst hres
            refine ⟨?_, by intro err h; cases h⟩
            intro g hg
            rcases List.mem_or_eq_of_mem_set hg with hold | hnew
            · exact hgo g hold
            · subst hnew
              trivial
          · simp [hc, hk, hi] at hstep
  | exitLoop =>
    simp only [FanOut.step] at hstep
    cases hc : s.collector with
    | failed err => simp [hc] at hstep
    | collected acc => simp [hc] at hstep
    | collecting i acc =>
      by_cases hi : i < s.goroutines.length
      · simp [hc, hi] at hstep
      · simp only [hc, if_neg hi, Option.some.injEq] at hstep
        subst hstep
        exact ⟨hgo, by intro err h; cases h⟩

/-- Every state a schedule reaches from an error-free state is error-free. -/
theorem FanOut.run_errorFree (GetLoadBalancer : String → LoadBalancerResponse) :
    ∀ (schedule : List Action) (s final : FanOut), s.errorFree GetLoadBalancer →
      FanOut.run GetLoadBalancer s schedule = some final →
      final.errorFree GetLoadBalancer := by
  intro schedule
  induction schedule with
  | nil =>
    intro s final hfree hrun
    simp only [FanOut.run, Option.some.injEq] at hrun
    subst hrun
    exact hfree
  | cons a schedule ih =>
    intro s final hfree hrun
    simp only [FanOut.run] at hrun
    cases hstep : s.step GetLoadBalancer a with
    | none => simp [hstep] at hrun
    | some next =>
      rw [hstep] at hrun
      exact ih next final (FanOut.step_errorFree GetLoadBalancer s next a hfree hstep) hrun

/-- When the SDK answers every listed load balancer with details, the start
state is error-free. -/
theorem FanOut.start_errorFree (GetLoadBalancer : String → LoadBalancerResponse)
    (loadBalancers : List SdkLoadBalancer)
    (hok : ∀ loadBalancer ∈ loadBalancers,
      ∃ details httpResponse, GetLoadBalancer loadBalancer.Id = .ok details httpResponse) :
    (FanOut.start loadBalancers).errorFree GetLoadBalancer := by
  refine ⟨?_, by intro err h; cases h⟩
  intro g hg
  simp only [FanOut.start, List.mem_map] at hg
  obtain ⟨loadBalancer, hmem, rfl⟩ := hg
  exact hok loadBalancer hmem

/-- In an error-free state in which no step is possible, the collection loop
has ended with all details and every goroutine has returned. -/
theorem FanOut.errorFree_terminal (GetLoadBalancer : String → LoadBalancerResponse)
    (n : Nat) (s : FanOut) (hinv : s.invariant n) (hfree : s.errorFree GetLoadBalancer)
    (hterminal : ∀ a, s.step GetLoadBalancer a = none) :
    ∃ loadBalancerDetailsList, s.collector = .collected loadBalancerDetailsList := by
  obtain ⟨hlen, hcol⟩ := hinv
  cases hc : s.collector with
  | collected acc => exact ⟨acc, rfl⟩
  | failed err => exact absurd hc (hfree.2 err)
  | collecting i acc =>
    rw [hc] at hcol
    simp only at hcol
    by_cases hi : i < s.goroutines.length
    · have hnot : ¬ ∀ b ∈ s.goroutines, Goroutine.done = b := by
        intro hall
        have := List.count_eq_length.2 hall
        omega
      simp only [not_forall] at hnot
      obtain ⟨g, hg, hne⟩ := hnot
      obtain ⟨j, hj⟩ := List.getElem?_of_mem hg
      cases g with
      | done => exact absurd rfl hne
      | fetching id =>
        have h := hterminal (.fetch j)
        simp [FanOut.step, hj] at h
      | sending v =>
        have h := hterminal (.receive j)
        simp [FanOut.step, hc, hj, hi] at h
    · have h := hterminal .exitLoop
      simp [FanOut.step, hc, hi] at h

/-- Replacing an entry of a list changes the sum of a function over it by the
difference of the two values. -/
theorem sum_map_set (f : Goroutine → Nat) :
    ∀ (l : List Goroutine) (k : Nat) (g b : Goroutine), l[k]? = some g →
      ((l.set k b).map f).sum + f g = (l.map f).sum + f b := by
  intro l
  induction l with
  | nil => intro k g b h; simp at h
  | cons a l ih =>
    intro k g b h
    cases k with
    | zero =>
      simp only [List.getElem?_cons_zero, Option.some.injEq] at h
      subst h
      simp only [List.set_cons_zero, List.map_cons, List.sum_cons]
      omega
    | succ k =>
      simp only [List.getElem?_cons_succ] at h
      have := ih k g b h
      simp only [List.set_cons_succ, List.map_cons, List.sum_cons]
      omega

/-- Every step uses up at least one of the steps left. -/
theorem FanOut.step_stepsLeft (GetLoadBalancer : String → LoadBalancerResponse)
    (s next : FanOut) (a : Action) (hstep : s.step GetLoadBalancer a = some next) :
    next.stepsLeft + 1 ≤ s.stepsLeft := by
  cases a with
  | fetch k =>
    simp only [FanOut.step] at hstep
    cases hk : s.goroutines[k]? with
    | none => simp [hk] at hstep
    | some g =>
      cases g with
      | fetching id =>
        simp only [hk, Option.some.injEq] at hstep
        subst hstep
        have h := sum_map_set (fun g =>
          match g with
          | .fetching _ => 2
          | .sending _ => 1
          | .done => 0) s.goroutines k (.fetching id)
          (.sending (Goroutine.send (GetLoadBalancer id))) hk
        simp only at h
        simp only [FanOut.stepsLeft]
        omega
      | sending v => simp [hk] at hstep
      | done => simp [hk] at hstep
  | receive k =>
    simp only [FanOut.step] at hstep
    cases hc : s.collector with
    | failed err => simp [hc] at hstep
    | collected acc => simp [hc] at hstep
    | collecting i acc =>
      cases hk : s.goroutines[k]? with
      | none => simp [hc, hk] at hstep
      | some g =>
        cases g with
        | fetching id => simp [hc, hk] at hstep
        | done => simp [hc, hk] at hstep
        | sending v =>
          by_cases hi : i < s.goroutines.length
          · simp only [hc, hk, if_pos hi, Option.some.injEq] at hstep
            subst hstep
            have h := sum_map_set (fun g =>
              match g with
              | .fetching _ => 2
              | .sending _ => 1
              | .done => 0) s.goroutines k (.sending v) .done hk
            simp only at h
            cases v with
            | error err =>
              simp only [FanOut.stepsLeft, hc, Collector.left]
              simp only [Bool.false_eq_true, if_false, if_true]
              omega
            | result res =>
              simp only [FanOut.stepsLeft, hc, Collector.left]
              simp only [Bool.false_eq_true, if_false]
              omega
          · simp [hc, hk, hi] at hstep
  | exitLoop =>
    simp only [FanOut.step] at hstep
    cases hc : s.collector with
    | failed err => simp [hc] at hstep
    | collected acc => simp [hc] at hstep
    | collecting i acc =>
      by_cases hi : i < s.goroutines.length
      · simp [hc, hi] at hstep
      · simp only [hc, if_neg hi, Option.some.injEq] at hstep
        subst hstep
        simp [FanOut.stepsLeft, hc, Collector.left]

/-- A schedule is no longer than the steps left at its start. -/
theorem FanOut.run_stepsLeft (GetLoadBalancer : String → LoadBalancerResponse) :
    ∀ (schedule : List Action) (s final : FanOut),
      FanOut.run GetLoadBalancer s schedule = some final →
      final.stepsLeft + schedule.length ≤ s.stepsLeft := by
  intro schedule
  induction schedule with
  | nil =>
    intro s final hrun
    simp only [FanOut.run, Option.some.injEq] at hrun
    subst hrun
    simp
  | cons a schedule ih =>
    intro s final hrun
    simp only [FanOut.run] at hrun
    cases hstep : s.step GetLoadBalancer a with
    | none => simp [hstep] at hrun
    | some next =>
      rw [hstep] at hrun
      have h1 := FanOut.step_stepsLeft GetLoadBalancer s next a hstep
      have h2 := ih next final hrun
      simp only [List.length_cons]
      omega

/-- At the start there are two steps left for each goroutine and one for the
collection loop. -/
theorem FanOut.start_stepsLeft (loadBalancers : List SdkLoadBalancer) :
    (FanOut.start loadBalancers).stepsLeft = 2 * loadBalancers.length + 1 := by
  simp only [FanOut.stepsLeft, FanOut.start, Collector.left, List.map_map]
  induction loadBalancers with
  | nil => rfl
  | cons loadBalancer loadBalancers ih =>
    simp only [List.map_cons, List.sum_cons, List.length_cons, Function.comp] at ih ⊢
    omega

/-- C21: the goroutines of `loadBalancersDataSource.Read` leak on the early
return. Let a schedule lead from the start of the goroutines to the state `s`.
If in `s` the collection loop has returned on an error, then along whatever is
scheduled later the collector stays returned, nothing is received any more, no
further goroutine returns, every goroutine blocked in its send stays blocked in
that send, and every goroutine still fetching stays fetching or comes to block
in its send. If in `s` the collection loop has ended without an error, it has
collected one detail per load balancer and every goroutine has returned. When
the SDK answers every load balancer with details, a state in which no step is
possible is such an end. No schedule is longer than two steps per goroutine and
one for the loop. -/
theorem goroutines_leak_on_early_return (GetLoadBalancer : String → LoadBalancerResponse)
    (loadBalancers : List SdkLoadBalancer) (schedule : List Action) (s : FanOut)
    (hrun : FanOut.run GetLoadBalancer (FanOut.start loadBalancers) schedule = some s) :
    (∀ err, s.collector = .failed err →
      ∀ (later : List Action) (final : FanOut),
        FanOut.run GetLoadBalancer s later = some final →
        final.collector = .failed err ∧
        (∀ j, final.step GetLoadBalancer (.receive j) = none) ∧
        final.goroutines.count .done = s.goroutines.count .done ∧
        (∀ (j : Nat) (v : Arrival), s.goroutines[j]? = some (.sending v) →
          final.goroutines[j]? = some (.sending v)) ∧
        (∀ (j : Nat) (id : String), s.goroutines[j]? = some (.fetching id) →
          final.goroutines[j]? = some (.fetching id) ∨
          final.goroutines[j]? = some (.sending (Goroutine.send (GetLoadBalancer id))))) ∧
    (∀ loadBalancerDetailsList, s.collector = .collected loadBalancerDetailsList →
      loadBalancerDetailsList.length = loadBalancers.length ∧
      ∀ g ∈ s.goroutines, g = .done) ∧
    ((∀ loadBalancer ∈ loadBalancers,
        ∃ details httpResponse, GetLoadBalancer loadBalancer.Id = .ok details httpResponse) →
      (∀ a, s.step GetLoadBalancer a = none) →
      ∃ loadBalancerDetailsList, s.collector = .collected loadBalancerDetailsList) ∧
    schedule.length ≤ 2 * loadBalancers.length + 1 := by
  have hinv := FanOut.run_invariant GetLoadBalancer loadBalancers.length schedule _ s
    (FanOut.start_invariant loadBalancers) hrun
  refine ⟨?_, ?_, ?_, ?_⟩
  · intro err hfailed later final hlater
    have hleft : s.collector.left = true := by rw [hfailed]; rfl
    have h := FanOut.run_of_left GetLoadBalancer later s final hleft hlater
    refine ⟨h.1.trans hfailed, ?_, h.2.2.1, h.2.2.2.1, h.2.2.2.2⟩
    intro j
    exact FanOut.receive_of_left GetLoadBalancer final j (by rw [h.1]; exact hleft)
  · intro acc hcollected
    obtain ⟨hlen, hcol⟩ := hinv
    rw [hcollected] at hcol
    simp only at hcol
    refine ⟨hcol.2, ?_⟩
    intro g hg
    exact (List.count_eq_length.1 (hcol.1.trans hlen.symm) g hg).symm
  · intro hok hterminal
    exact FanOut.errorFree_terminal GetLoadBalancer loadBalancers.length s hinv
      (FanOut.run_errorFree GetLoadBalancer schedule _ s
        (FanOut.start_errorFree GetLoadBalancer loadBalancers hok) hrun) hterminal
  · have h := FanOut.run_stepsLeft GetLoadBalancer schedule _ s hrun
    rw [FanOut.start_stepsLeft] at h
    omega

/-- C21 at a concrete input: of three goroutines the second meets an error,
which the collection loop receives first; the first goroutine is then blocked
in its send and the third comes to block in its send. -/
theorem goroutines_leak_on_early_return_witness :
    FanOut.run sampleGetLoadBalancer
        ⟨[.sending (.result ⟨"lb-1", "eu-west-3", "lsw.m3.large", none,
            ⟨1, 0, "HOURLY", none, "ACTIVE"⟩, "ACTIVE", []⟩), .done, .fetching "lb-3"],
          .failed ⟨⟨"server error"⟩, some ⟨500⟩⟩⟩ [.fetch 2] =
      some ⟨[.sending (.result ⟨"lb-1", "eu-west-3", "lsw.m3.large", none,
            ⟨1, 0, "HOURLY", none, "ACTIVE"⟩, "ACTIVE", []⟩), .done,
          .sending (.result ⟨"lb-3", "eu-west-3", "lsw.m3.large", none,
            ⟨1, 0, "HOURLY", none, "ACTIVE"⟩, "ACTIVE", []⟩)],
        .failed ⟨⟨"server error"⟩, some ⟨500⟩⟩⟩ ∧
    ∀ j, FanOut.step sampleGetLoadBalancer
        ⟨[.sending (.result ⟨"lb-1", "eu-west-3", "lsw.m3.large", none,
            ⟨1, 0, "HOURLY", none, "ACTIVE"⟩, "ACTIVE", []⟩), .done,
          .sending (.result ⟨"lb-3", "eu-west-3", "lsw.m3.large", none,
            ⟨1, 0, "HOURLY", none, "ACTIVE"⟩, "ACTIVE", []⟩)],
        .failed ⟨⟨"server error"⟩, some ⟨500⟩⟩⟩ (.receive j) = none :=
  ⟨rfl,
    ((goroutines_leak_on_early_return sampleGetLoadBalancer
      [⟨"lb-1"⟩, ⟨"lb-2"⟩, ⟨"lb-3"⟩] [.fetch 1, .fetch 0, .receive 1]
      ⟨[.sending (.result ⟨"lb-1", "eu-west-3", "lsw.m3.large", none,
          ⟨1, 0, "HOURLY", none, "ACTIVE"⟩, "ACTIVE", []⟩), .done, .fetching "lb-3"],
        .failed ⟨⟨"server error"⟩, some ⟨500⟩⟩⟩ rfl).1
      ⟨⟨"server error"⟩, some ⟨500⟩⟩ rfl [.fetch 2] _ rfl).2.1⟩

end Leaseweb
